import Mathlib

/-!
The data-integrate-test harness: schema synthesis and test orchestration.

A shallow embedding of `generators/schema_generator.go` and
`testcases/test_executor.go`, followed by the properties proved about them.

Conventions of the embedding.

* Go `int` / `int64` values are `Int`; the only arithmetic the code does on them
  (the `int64` subtraction of the reconciliation check) is wrapped explicitly.
* A Go `string` is a Lean `String`. Every needle, key and format literal of the
  code is ASCII, for which byte-wise and character-wise matching coincide.
* A Go `panic` (an out-of-range index, `rand.Intn` on an empty range) is the
  `none` of an `Option`.
* The ambient random generator of `math/rand` is an explicit `rand.Source` value that
  fixes the outcome of every draw.
* A method that talks to the database, to the data generator or to the catalog
  service appends the call to a log; the answer is a function of the calls
  made so far (`strategies.DatabaseStrategy`, `clients.IDAServiceClient`,
  `testcases.World`).
-/

set_option autoImplicit false
set_option maxRecDepth 100000

/-! ## Go standard library -/

namespace strings

/-- Does `sub` occur in the character list as a contiguous block. -/
def containsChars (sub : List Char) : List Char → Bool
  | [] => sub.isEmpty
  | c :: cs => sub.isPrefixOf (c :: cs) || containsChars sub cs

/-- Go `strings.Contains(s, substr)`. -/
def Contains (s substr : String) : Bool :=
  containsChars substr.data s.data

end strings

/-- The two normalising functions of Go package `strings` that the hint mapping
applies to a token. They are parameters of the embedding: every theorem about
the hint mapping holds for whatever the library computes (Go lower-cases and
trims with the Unicode tables). -/
structure Strings where
  /-- Go `strings.ToLower`. -/
  ToLower : String → String
  /-- Go `strings.TrimSpace`. -/
  TrimSpace : String → String

/-- The ASCII white space Go `strings.TrimSpace` removes: tab, line feed, vertical
tab, form feed, carriage return and space. -/
def Strings.asciiSpace (c : Char) : Bool :=
  (0x09 ≤ c.toNat && c.toNat ≤ 0x0d) || c.toNat == 0x20

/-- An executable instance of `Strings`: ASCII letters are lower-cased and
ASCII white space is trimmed, which is what Go computes on ASCII input. -/
def Strings.ascii : Strings where
  ToLower := fun s => String.mk (s.data.map Char.toLower)
  TrimSpace := fun s =>
    String.mk ((((s.data.dropWhile Strings.asciiSpace).reverse).dropWhile
      Strings.asciiSpace).reverse)

namespace fmt

/-- Go `fmt.Sprintf("%d", n)`. -/
def formatInt (n : Int) : String := toString n

/-- The white-space table of Go package `fmt` (`isSpace` in `scan.go`). -/
def isSpace (c : Char) : Bool :=
  let n := c.toNat
  (0x09 ≤ n && n ≤ 0x0d) || n == 0x20 || n == 0x85 || n == 0xa0 || n == 0x1680 ||
  (0x2000 ≤ n && n ≤ 0x200a) || n == 0x2028 || n == 0x2029 || n == 0x202f ||
  n == 0x205f || n == 0x3000

/-- The `SkipSpace` step of `Sscanf` before a `%d` verb: white space is skipped,
a newline is a scan error (`none`). -/
def skipSpace : List Char → Option (List Char)
  | [] => some []
  | c :: cs =>
    if c == '\n' then none
    else if isSpace c then skipSpace cs
    else some (c :: cs)

/-- Value of a run of decimal digits. -/
def digitsValue (cs : List Char) : Nat :=
  cs.foldl (fun acc c => acc * 10 + (c.toNat - 48)) 0

/-- The value Go `fmt.Sscanf(input, "VARCHAR(%d)", &size)` leaves in `size`, where
`size` starts at 0 and the returned count and error are ignored: the literal
run `VARCHAR(` must match the start of the input, then white space is skipped,
one optional sign and a non-empty run of decimal digits are read and parsed as
a 64-bit integer. Any scan error before the store leaves `size` at 0; the
closing bracket of the format is matched only after the store. -/
def sscanVarchar (input : String) : Int :=
  let lit := "VARCHAR(".data
  if lit.isPrefixOf input.data then
    match skipSpace (input.data.drop lit.length) with
    | none => 0
    | some rest =>
      let neg := rest.head? == some '-'
      let rest := if rest.head? == some '-' || rest.head? == some '+' then rest.tail else rest
      let digits := rest.takeWhile Char.isDigit
      if digits.isEmpty then 0
      else
        let v : Int := if neg then -(digitsValue digits : Int) else (digitsValue digits : Int)
        if -(2 : Int) ^ 63 ≤ v ∧ v < (2 : Int) ^ 63 then v else 0
  else 0

end fmt

/-- The ambient generator of `math/rand`, as the outcomes of its draws. In
`generateFields` iteration `i` makes one `rand.Intn` call and one
`rand.Float32` call, so the draws are indexed by `i`. -/
structure rand.Source where
  /-- Raw outcome behind the `rand.Intn` call of iteration `i`. -/
  intn : Nat → Nat
  /-- Whether `rand.Float32() < 0.3` held in iteration `i`. -/
  float32Lt03 : Nat → Bool

/-- Go `rand.Intn(n)`: a value of `[0, n)`, and a panic for `n ≤ 0`. Every value
of the range is the outcome of some source. -/
def rand.Source.Intn (r : rand.Source) (i : Nat) (n : Nat) : Option Nat :=
  if n = 0 then none else some (r.intn i % n)

/-! ## generators/schema_generator.go -/

namespace generators

/-- Field type definition (`FieldType`). -/
structure FieldType where
  Name : String
  SQLType : String
  MaxSize : Int
  Nullable : Bool
  deriving DecidableEq, Repr

/-- Table structure definition (`SchemaDefinition`). -/
structure SchemaDefinition where
  TableName : String
  Fields : List FieldType
  RowCount : Int
  deriving DecidableEq, Repr

/-- Database type mapper (`DatabaseTypeMapper`). -/
structure DatabaseTypeMapper where
  dbType : String
  deriving DecidableEq, Repr

def NewDatabaseTypeMapper (dbType : String) : DatabaseTypeMapper :=
  { dbType := dbType }

/-- Field type pool of the database type (`getFieldTypePool`). -/
def getFieldTypePool (m : DatabaseTypeMapper) : List String :=
  match m.dbType with
  | "mysql" =>
    ["TINYINT", "SMALLINT", "MEDIUMINT", "INT", "BIGINT",
     "FLOAT", "DOUBLE", "DECIMAL(10,2)", "DECIMAL(18,4)", "DECIMAL(38,6)",
     "CHAR(100)", "CHAR(255)", "VARCHAR(255)", "VARCHAR(512)", "VARCHAR(1024)",
     "TEXT", "MEDIUMTEXT",
     "DATE", "DATETIME", "TIMESTAMP",
     "BLOB", "TINYBLOB", "MEDIUMBLOB"]
  | "kingbase" =>
    ["SMALLINT", "INTEGER", "BIGINT",
     "REAL", "DOUBLE PRECISION", "NUMERIC(10,2)",
     "VARCHAR(255)", "VARCHAR(512)", "VARCHAR(1024)",
     "TEXT", "CLOB",
     "DATE", "TIMESTAMP",
     "BYTEA"]
  | "gbase" =>
    ["TINYINT", "SMALLINT", "INT", "BIGINT",
     "FLOAT", "DOUBLE", "DECIMAL(10,2)",
     "VARCHAR(255)", "VARCHAR(512)", "VARCHAR(1024)",
     "TEXT", "CLOB",
     "DATE", "DATETIME", "TIMESTAMP",
     "BLOB"]
  | "vastbase" =>
    ["SMALLINT", "INTEGER", "BIGINT",
     "REAL", "DOUBLE PRECISION", "NUMERIC(10,2)",
     "VARCHAR(255)", "VARCHAR(512)", "VARCHAR(1024)",
     "TEXT",
     "DATE", "TIMESTAMP",
     "BYTEA"]
  | _ => ["VARCHAR(255)", "INT", "TEXT"]

/-- Integer type of the database (`getIntType`). -/
def getIntType (m : DatabaseTypeMapper) : String :=
  match m.dbType with
  | "mysql" | "gbase" => "BIGINT"
  | "kingbase" | "vastbase" => "BIGINT"
  | _ => "BIGINT"

/-- Maximum byte count of a type (`getMaxSizeForType`). -/
def getMaxSizeForType (_m : DatabaseTypeMapper) (sqlType : String) : Int :=
  if strings.Contains sqlType "VARCHAR" then
    fmt.sscanVarchar sqlType
  else if strings.Contains sqlType "CHAR" then
    255
  else if strings.Contains sqlType "TEXT" || strings.Contains sqlType "CLOB" then
    1024
  else if strings.Contains sqlType "BLOB" || strings.Contains sqlType "BYTEA" then
    1024
  else
    0

/-- Lookup table from template type to SQL type (`getTemplateTypeMap`); the Go
map literal is an association list with distinct keys. -/
def getTemplateTypeMap (m : DatabaseTypeMapper) : List (String × String) :=
  match m.dbType with
  | "mysql" =>
    [("int", "INT"), ("tinyint", "TINYINT"), ("smallint", "SMALLINT"),
     ("mediumint", "MEDIUMINT"), ("bigint", "BIGINT"), ("float", "FLOAT"),
     ("double", "DOUBLE"), ("decimal", "DECIMAL(10,2)"), ("decimal18", "DECIMAL(18,4)"),
     ("decimal38", "DECIMAL(38,6)"), ("varchar", "VARCHAR(255)"), ("char", "CHAR(255)"),
     ("text", "TEXT"), ("mediumtext", "MEDIUMTEXT"), ("date", "DATE"),
     ("datetime", "DATETIME"), ("timestamp", "TIMESTAMP"), ("blob", "BLOB"),
     ("tinyblob", "TINYBLOB"), ("mediumblob", "MEDIUMBLOB")]
  | "kingbase" =>
    [("int", "INTEGER"), ("smallint", "SMALLINT"), ("bigint", "BIGINT"),
     ("real", "REAL"), ("double", "DOUBLE PRECISION"), ("numeric", "NUMERIC(10,2)"),
     ("decimal", "NUMERIC(10,2)"), ("varchar", "VARCHAR(255)"), ("char", "CHAR(255)"),
     ("text", "TEXT"), ("clob", "CLOB"), ("date", "DATE"),
     ("timestamp", "TIMESTAMP"), ("bytea", "BYTEA")]
  | "gbase" =>
    [("int", "INT"), ("tinyint", "TINYINT"), ("smallint", "SMALLINT"),
     ("bigint", "BIGINT"), ("float", "FLOAT"), ("double", "DOUBLE"),
     ("decimal", "DECIMAL(10,2)"), ("varchar", "VARCHAR(255)"), ("char", "CHAR(255)"),
     ("text", "TEXT"), ("clob", "CLOB"), ("date", "DATE"),
     ("datetime", "DATETIME"), ("timestamp", "TIMESTAMP"), ("blob", "BLOB")]
  | "vastbase" =>
    [("int", "INTEGER"), ("smallint", "SMALLINT"), ("bigint", "BIGINT"),
     ("real", "REAL"), ("double", "DOUBLE PRECISION"), ("numeric", "NUMERIC(10,2)"),
     ("decimal", "NUMERIC(10,2)"), ("varchar", "VARCHAR(255)"), ("char", "CHAR(255)"),
     ("text", "TEXT"), ("date", "DATE"), ("timestamp", "TIMESTAMP"),
     ("bytea", "BYTEA")]
  | _ => [("int", "INT"), ("varchar", "VARCHAR(255)"), ("text", "TEXT")]

/-- Default SQL type of an unknown template type (`getDefaultTypeForTemplateType`). -/
def getDefaultTypeForTemplateType (m : DatabaseTypeMapper) (templateType : String) : String :=
  if strings.Contains templateType "int" then
    getIntType m
  else if strings.Contains templateType "char" || strings.Contains templateType "varchar" then
    "VARCHAR(255)"
  else if strings.Contains templateType "text" then
    "TEXT"
  else if strings.Contains templateType "decimal" || strings.Contains templateType "numeric" then
    "DECIMAL(10,2)"
  else if strings.Contains templateType "date" || strings.Contains templateType "time" then
    "DATETIME"
  else
    "VARCHAR(255)"

/-- Body of the loop of `mapTemplateTypesToSQLTypes`: the SQL type appended for
one template type. -/
def mapTemplateTypesToSQLTypes.step (S : Strings) (m : DatabaseTypeMapper)
    (typeMap : List (String × String)) (templateType : String) : String :=
  let templateType := S.ToLower (S.TrimSpace templateType)
  match typeMap.lookup templateType with
  | some sqlType => sqlType
  | none => getDefaultTypeForTemplateType m templateType

/-- Map the simple type names of a template to SQL types
(`mapTemplateTypesToSQLTypes`): a loop appending to `sqlTypes`. -/
def mapTemplateTypesToSQLTypes (S : Strings) (m : DatabaseTypeMapper)
    (templateTypes : List String) : List String :=
  let typeMap := getTemplateTypeMap m
  templateTypes.foldl
    (fun sqlTypes templateType =>
      sqlTypes ++ [mapTemplateTypesToSQLTypes.step S m typeMap templateType])
    []

/-- Body of the loop of `generateFields` after the draw: the field appended in
iteration `i` for the drawn type `fieldType`. -/
def generateFields.field (m : DatabaseTypeMapper) (maxFieldSize : Int) (i : Nat)
    (fieldType : String) (nullable : Bool) : FieldType :=
  let maxSize := getMaxSizeForType m fieldType
  if maxFieldSize > 0 ∧ maxSize > maxFieldSize then
    { Name := "col_" ++ fmt.formatInt i
      SQLType :=
        if strings.Contains fieldType "VARCHAR" then
          "VARCHAR(" ++ fmt.formatInt maxFieldSize ++ ")"
        else fieldType
      MaxSize := maxFieldSize
      Nullable := nullable }
  else
    { Name := "col_" ++ fmt.formatInt i
      SQLType := fieldType
      MaxSize := maxSize
      Nullable := nullable }

/-- The loop `for i := 1; i < count; i++` of `generateFields`, with `n`
iterations left and the loop variable at `i`. -/
def generateFields.loop (m : DatabaseTypeMapper) (typePool : List String)
    (maxFieldSize : Int) (rnd : rand.Source) :
    Nat → Nat → List FieldType → Option (List FieldType)
  | 0, _, fields => some fields
  | n + 1, i, fields =>
    match rnd.Intn i typePool.length with
    | none => none
    | some idx =>
      match typePool.get? idx with
      | none => none
      | some fieldType =>
        generateFields.loop m typePool maxFieldSize rnd n (i + 1)
          (fields ++ [generateFields.field m maxFieldSize i fieldType (rnd.float32Lt03 i)])

/-- The type pool `generateFields` draws from. -/
def generateFields.typePool (S : Strings) (m : DatabaseTypeMapper)
    (fieldTypes : List String) : List String :=
  if fieldTypes.length > 0 then mapTemplateTypesToSQLTypes S m fieldTypes
  else getFieldTypePool m

/-- Generate the field definitions (`generateFields`). -/
def generateFields (S : Strings) (rnd : rand.Source) (m : DatabaseTypeMapper) (count : Int)
    (fieldTypes : List String) (maxFieldSize : Int) : Option (List FieldType) :=
  let fields : List FieldType :=
    [{ Name := "id", SQLType := getIntType m, MaxSize := 0, Nullable := false }]
  let typePool := generateFields.typePool S m fieldTypes
  generateFields.loop m typePool maxFieldSize rnd (count - 1).toNat 1 fields

/-- Generate the table structure, at most 16 fields (`GenerateSchema`). -/
def GenerateSchema (S : Strings) (rnd : rand.Source) (m : DatabaseTypeMapper) (tableName : String)
    (fieldCount : Int) (rowCount : Int) (fieldTypes : List String) (maxFieldSize : Int) :
    Option SchemaDefinition :=
  let fieldCount := if fieldCount > 16 then 16 else fieldCount
  let fieldCount := if fieldCount < 1 then 1 else fieldCount
  match generateFields S rnd m fieldCount fieldTypes maxFieldSize with
  | none => none
  | some fields => some { TableName := tableName, Fields := fields, RowCount := rowCount }

end generators

/-! ## IEEE 754 binary64 arithmetic

The reconciliation check of `setup` is computed in `float64`. A finite value is
`m * 2 ^ e`; the operations round to nearest, ties to even, with a 53-bit
significand. Exponent overflow and subnormals are not modelled: the check
only forms conversions of `int64` values, one quotient of two of them and one
product with 100, all of magnitude between `2 ^ (-64)` and `2 ^ 70`. Zero
carries no sign: the check never divides by a negative zero and a comparison
does not see the sign of zero. -/

/-- A `float64` value. -/
inductive Float64 where
  | finite (m : Int) (e : Int)
  | inf (negative : Bool)
  | nan
  deriving DecidableEq, Repr

namespace Float64

/-- Halving count behind `log2`, with the fuel `k`. -/
def log2.go : Nat → Nat → Nat
  | 0, _ => 0
  | k + 1, n => if n < 2 then 0 else log2.go k (n / 2) + 1

/-- Position of the leading binary digit of `n`: `2 ^ log2 n ≤ n < 2 ^ (log2 n + 1)`
for `n > 0`. -/
def log2 (n : Nat) : Nat := log2.go n n

/-- Numerator and denominator of `n / (d * 2 ^ e)`. -/
def scalePow2 (n d : Nat) (e : Int) : Nat × Nat :=
  if 0 ≤ e then (n, d * 2 ^ e.toNat) else (n * 2 ^ (-e).toNat, d)

/-- The `float64` nearest to the rational `num / den`, ties to even. -/
def roundNearestEven (num : Int) (den : Nat) : Float64 :=
  if num = 0 ∨ den = 0 then finite 0 0
  else
    let n := num.natAbs
    let e0 : Int := (log2 n : Int) - (log2 den : Int) - 52
    let s0 := scalePow2 n den e0
    let e : Int := if s0.1 < 2 ^ 52 * s0.2 then e0 - 1 else e0
    let s := scalePow2 n den e
    let q := s.1 / s.2
    let r := s.1 % s.2
    let q := if 2 * r > s.2 ∨ (2 * r = s.2 ∧ q % 2 = 1) then q + 1 else q
    finite (if num < 0 then -(q : Int) else (q : Int)) e

/-- Conversion `float64(i)` of an integer. -/
def ofInt (i : Int) : Float64 := roundNearestEven i 1

/-- Conversion of the decimal constant `num / den` of the program text. -/
def ofRatio (num : Int) (den : Nat) : Float64 := roundNearestEven num den

/-- Quotient `x / y`. -/
def div : Float64 → Float64 → Float64
  | nan, _ => nan
  | _, nan => nan
  | inf _, inf _ => nan
  | inf a, finite m _ => inf (a != decide (m < 0))
  | finite _ _, inf _ => finite 0 0
  | finite m1 e1, finite m2 e2 =>
    if m2 = 0 then
      if m1 = 0 then nan else inf (decide (m1 < 0))
    else
      let num : Int := if m2 < 0 then -m1 else m1
      let s := scalePow2 num.natAbs m2.natAbs (e2 - e1)
      roundNearestEven (if num < 0 then -(s.1 : Int) else (s.1 : Int)) s.2

/-- Product `x * y`. -/
def mul : Float64 → Float64 → Float64
  | nan, _ => nan
  | _, nan => nan
  | inf a, inf b => inf (a != b)
  | inf a, finite m _ => if m = 0 then nan else inf (a != decide (m < 0))
  | finite m _, inf b => if m = 0 then nan else inf (b != decide (m < 0))
  | finite m1 e1, finite m2 e2 =>
    let num := m1 * m2
    let s := scalePow2 num.natAbs 1 (-(e1 + e2))
    roundNearestEven (if num < 0 then -(s.1 : Int) else (s.1 : Int)) s.2

/-- Comparison `x <= y`; false as soon as one side is NaN. -/
def le : Float64 → Float64 → Bool
  | nan, _ => false
  | _, nan => false
  | inf a, inf b => a || !b
  | inf a, finite _ _ => a
  | finite _ _, inf b => !b
  | finite m1 e1, finite m2 e2 =>
    let e := min e1 e2
    decide (m1 * 2 ^ (e1 - e).toNat ≤ m2 * 2 ^ (e2 - e).toNat)

/-- Comparison `x >= y`. -/
def ge (x y : Float64) : Bool := le y x

end Float64

/-- Go `int64(x)` wrap-around of an integer result. -/
def int64.wrap (x : Int) : Int := (x + 2 ^ 63) % 2 ^ 64 - 2 ^ 63

/-- Go `int32(x)` conversion. -/
def int32.wrap (x : Int) : Int := (x + 2 ^ 31) % 2 ^ 32 - 2 ^ 31

/-! ## Collaborators of the orchestrator -/

namespace config

/-- Connection profile `config.DatabaseConfig`, with the fields the
orchestrator reads (`Type_` is the Go field `Type`). -/
structure DatabaseConfig where
  Type_ : String
  Host : String
  Port : Int
  User : String
  Password : String
  Database : String
  deriving DecidableEq, Repr

end config

namespace clients

/-- Create-data-source request (`CreateDataSourceRequest`). -/
structure CreateDataSourceRequest where
  Name : String
  Host : String
  Port : Int
  DBType : Int
  Username : String
  Password : String
  DatabaseName : String
  deriving DecidableEq, Repr

/-- Create-data-source response (`CreateDataSourceResponse`). -/
structure CreateDataSourceResponse where
  DataSourceId : Int
  Success : Bool
  Message : String
  deriving DecidableEq, Repr

/-- Create-asset request (`CreateAssetRequest`). -/
structure CreateAssetRequest where
  AssetName : String
  AssetEnName : String
  DataSourceId : Int
  DBName : String
  TableName : String
  deriving DecidableEq, Repr

/-- Create-asset response (`CreateAssetResponse`). -/
structure CreateAssetResponse where
  AssetId : Int
  Success : Bool
  Message : String
  deriving DecidableEq, Repr

end clients

/-- A call the orchestrator makes on the database, on the data generator or on
the catalog service, with its arguments. -/
inductive Call where
  | Connect
  | TableExists (tableName : String)
  | GetRowCount (tableName : String)
  | Cleanup (tableName : String)
  | GenerateAndInsert (schema : generators.SchemaDefinition)
  | CreateDataSource (req : clients.CreateDataSourceRequest)
  | CreateAsset (req : clients.CreateAssetRequest)
  | ValidateWriteResult (tableName : String)
  deriving DecidableEq, Repr

namespace clients

/-- IDA service client (`IDAServiceClient`). Its two methods are fields, each
a function of the calls made so far and of the request, so that the
orchestrator is studied against any client; `NewIDAServiceClient` is the
client of this revision. An `Except.error` is a non-nil Go `error`. -/
structure IDAServiceClient where
  CreateDataSource : List Call → CreateDataSourceRequest → Except String CreateDataSourceResponse
  CreateAsset : List Call → CreateAssetRequest → Except String CreateAssetResponse

/-- The client of `ida_service_client.go`: both methods return mock data. -/
def NewIDAServiceClient : IDAServiceClient where
  CreateDataSource := fun _ _ =>
    .ok { DataSourceId := 1000, Success := true,
          Message := "Mock: DataSource created successfully" }
  CreateAsset := fun _ _ =>
    .ok { AssetId := 2000, Success := true, Message := "Mock: Asset created successfully" }

end clients

namespace strategies

/-- Database strategy interface (`DatabaseStrategy`). The four implementations
run SQL on a live database, so each method is a function of the calls made so
far; `some err` and `Except.error err` are a non-nil Go `error`. `GetDB` only
hands out the connection handle and is not modelled. -/
structure DatabaseStrategy where
  Connect : List Call → Option String
  GetConnectionInfo : config.DatabaseConfig
  Cleanup : List Call → String → Option String
  GetRowCount : List Call → String → Except String Int
  TableExists : List Call → String → Except String Bool

end strategies

namespace isolation

/-- Namespace manager (`isolation.NamespaceManager`); the package is not part
of the sources, its two naming functions are parameters. -/
structure NamespaceManager where
  GenerateTableName : String → String → String
  GenerateAssetName : String → String → String

end isolation

namespace validators

/-- Verdict of the row count validator (`validators.ValidationResult`), with
the fields the orchestrator copies. -/
structure ValidationResult where
  Passed : Bool
  Actual : Int
  Diff : Int
  DiffPercent : Float64
  Message : String
  deriving DecidableEq, Repr

/-- Row count validator (`validators.RowCountValidator`); the package is not
part of the sources, its two methods are parameters. The arguments are the
expected count and the tolerance given to `NewRowCountValidator`, then those
of the method; the write path queries the database. -/
structure RowCountValidator where
  ValidateReadResult : Int → Float64 → Int → Except String ValidationResult
  ValidateWriteResult : List Call → Int → Float64 → String → Except String ValidationResult

end validators

/-! ## testcases/test_template.go -/

namespace testcases

/-- Template section `database` (`DatabaseConfig`). -/
structure DatabaseConfig where
  Type_ : String
  Name : String
  deriving DecidableEq, Repr

/-- Template section `schema` (`SchemaConfig`). -/
structure SchemaConfig where
  FieldCount : Int
  FieldTypes : List String
  MaxFieldSize : Int
  TableName : String
  AssetName : String
  deriving DecidableEq, Repr

/-- Template section `data` (`DataConfig`). -/
structure DataConfig where
  RowCount : Int
  KeepTable : Bool
  deriving DecidableEq, Repr

/-- One assertion of a template (`TestConfig`, `Type_` is the Go field `Type`;
the free-form `Params` are never read). -/
structure TestConfig where
  Type_ : String
  Expected : Int
  Tolerance : Float64
  deriving DecidableEq, Repr

/-- Test template (`TestTemplate`). -/
structure TestTemplate where
  Name : String
  Description : String
  Database : DatabaseConfig
  Schema : SchemaConfig
  Data : DataConfig
  Tests : List TestConfig
  deriving DecidableEq, Repr

/-! ## testcases/test_executor.go -/

/-- What surrounds an executor during a run: the string library, the random
generator, the data generator (`generators.NewDataGenerator(..).GenerateAndInsert`,
not part of the sources) and the validator. -/
structure World where
  S : Strings
  rnd : rand.Source
  GenerateAndInsert : List Call → generators.SchemaDefinition → Option String
  validator : validators.RowCountValidator

/-- Test executor (`TestExecutor`); a nil `strategy` is `none`, `namespace_` is
the Go field `namespace`. -/
structure TestExecutor where
  template : TestTemplate
  idaClient : clients.IDAServiceClient
  strategy : Option strategies.DatabaseStrategy
  namespaceMgr : isolation.NamespaceManager
  Namespace : String
  namespace_ : String
  tableName : String
  assetName : String
  dataSourceId : Int
  assetId : Int

/-- Result of one assertion (`SingleTestResult`), without the clock readings
and the metrics map. -/
structure SingleTestResult where
  TestType : String
  Expected : Int
  Actual : Int
  Diff : Int
  DiffPercent : Float64
  Passed : Bool
  Message : String
  Error : String
  deriving DecidableEq, Repr

/-- Report of a run (`TestResult`), without the clock readings. -/
structure TestResult where
  TemplateName : String
  Namespace : String
  TestResults : List SingleTestResult
  HasFailure : Bool
  deriving DecidableEq, Repr

/-- State after a method of the executor returned: the executor, the calls made
so far and the value returned. -/
structure Outcome (α : Type) where
  te : TestExecutor
  log : List Call
  ret : α

/-- The tolerance check of `setup`:
`diff := float64(actualCount-expectedCount) / float64(expectedCount) * 100`
and `diff >= -0.1 && diff <= 0.1`. -/
def setup.withinTolerance (actualCount expectedCount : Int) : Bool :=
  let diff :=
    Float64.mul
      (Float64.div (Float64.ofInt (int64.wrap (actualCount - expectedCount)))
        (Float64.ofInt expectedCount))
      (Float64.ofInt 100)
  Float64.ge diff (Float64.ofRatio (-1) 10) && Float64.le diff (Float64.ofRatio 1 10)

/-- Register with the IDA service (`registerToIDAService`); the value returned
is the Go `error`, `none` for nil. -/
def TestExecutor.registerToIDAService (te : TestExecutor)
    (strategy : strategies.DatabaseStrategy) (log : List Call) : Outcome (Option String) :=
  let dbConfig := strategy.GetConnectionInfo
  let dbTypeMap : List (String × Int) :=
    [("mysql", 1), ("kingbase", 2), ("gbase", 3), ("vastbase", 4)]
  match dbTypeMap.lookup dbConfig.Type_ with
  | none => ⟨te, log, some ("不支持的数据库类型: " ++ dbConfig.Type_)⟩
  | some dbType =>
    let createDSReq : clients.CreateDataSourceRequest :=
      { Name := "test_datasource_" ++ te.namespace_
        Host := dbConfig.Host
        Port := int32.wrap dbConfig.Port
        DBType := dbType
        Username := dbConfig.User
        Password := dbConfig.Password
        DatabaseName := dbConfig.Database }
    let log1 := log ++ [Call.CreateDataSource createDSReq]
    match te.idaClient.CreateDataSource log createDSReq with
    | .error err => ⟨te, log1, some ("创建数据源失败: " ++ err)⟩
    | .ok dsResp =>
      if !dsResp.Success then ⟨te, log1, some ("创建数据源失败: " ++ dsResp.Message)⟩
      else
        let te := { te with dataSourceId := dsResp.DataSourceId }
        let createAssetReq : clients.CreateAssetRequest :=
          { AssetName := te.template.Name
            AssetEnName := te.assetName
            DataSourceId := te.dataSourceId
            DBName := dbConfig.Database
            TableName := te.tableName }
        let log2 := log1 ++ [Call.CreateAsset createAssetReq]
        match te.idaClient.CreateAsset log1 createAssetReq with
        | .error err => ⟨te, log2, some ("创建资产失败: " ++ err)⟩
        | .ok assetResp =>
          if !assetResp.Success then ⟨te, log2, some ("创建资产失败: " ++ assetResp.Message)⟩
          else ⟨{ te with assetId := assetResp.AssetId }, log2, none⟩

/-- The block `if tableExists ..` of `setup`: the row count of an existing
table is compared with the template and a table that does not match is
dropped. The value returned is the Go `error` of an early return, or the new
value of `tableExists`. -/
def setup.reconcile (te : TestExecutor) (strategy : strategies.DatabaseStrategy)
    (log : List Call) (tableExists : Bool) : List Call × Except String Bool :=
  if tableExists then
    let log1 := log ++ [Call.GetRowCount te.tableName]
    match strategy.GetRowCount log te.tableName with
    | .error err => (log1, .error ("查询表行数失败: " ++ err))
    | .ok actualCount =>
      let expectedCount := te.template.Data.RowCount
      if setup.withinTolerance actualCount expectedCount then
        (log1, .ok tableExists)
      else
        let log2 := log1 ++ [Call.Cleanup te.tableName]
        match strategy.Cleanup log1 te.tableName with
        | some err => (log2, .error ("清理旧表失败: " ++ err))
        | none => (log2, .ok false)
  else (log, .ok tableExists)

/-- The block of `setup` that assigns `te.tableName` and `te.assetName`. -/
def setup.resolveNames (te : TestExecutor) : TestExecutor :=
  let te :=
    if te.template.Schema.TableName != "" then
      { te with tableName := te.template.Schema.TableName }
    else
      { te with tableName := te.namespaceMgr.GenerateTableName te.namespace_ "test_table" }
  if te.template.Schema.AssetName != "" then
    { te with assetName := te.template.Schema.AssetName }
  else
    { te with assetName := te.namespaceMgr.GenerateAssetName te.namespace_ te.template.Name }

/-- Preparation phase (`setup`). The outer `Option` is `none` when the run
panics (nil strategy, failed draw); the value returned is the Go `error`. -/
def TestExecutor.setup (w : World) (te : TestExecutor) (log : List Call) :
    Option (Outcome (Option String)) :=
  match te.strategy with
  | none => none
  | some strategy =>
    let log1 := log ++ [Call.Connect]
    match strategy.Connect log with
    | some err => some ⟨te, log1, some ("连接数据库失败: " ++ err)⟩
    | none =>
      let te := setup.resolveNames te
      let mapper := generators.NewDatabaseTypeMapper te.template.Database.Type_
      match generators.GenerateSchema w.S w.rnd mapper te.tableName te.template.Schema.FieldCount
          te.template.Data.RowCount te.template.Schema.FieldTypes
          te.template.Schema.MaxFieldSize with
      | none => none
      | some schema =>
        let log2 := log1 ++ [Call.TableExists te.tableName]
        match strategy.TableExists log1 te.tableName with
        | .error err => some ⟨te, log2, some ("检查表是否存在失败: " ++ err)⟩
        | .ok tableExists =>
          match setup.reconcile te strategy log2 tableExists with
          | (log3, .error err) => some ⟨te, log3, some err⟩
          | (log3, .ok tableExists) =>
            if !tableExists then
              let log4 := log3 ++ [Call.GenerateAndInsert schema]
              match w.GenerateAndInsert log3 schema with
              | some err => some ⟨te, log4, some ("生成数据失败: " ++ err)⟩
              | none =>
                match te.registerToIDAService strategy log4 with
                | ⟨te, log5, some err⟩ => some ⟨te, log5, some ("注册到IDA-service失败: " ++ err)⟩
                | ⟨te, log5, none⟩ => some ⟨te, log5, none⟩
            else
              match te.registerToIDAService strategy log3 with
              | ⟨te, log5, some err⟩ => some ⟨te, log5, some ("注册到IDA-service失败: " ++ err)⟩
              | ⟨te, log5, none⟩ => some ⟨te, log5, none⟩

/-- Clean up (`cleanup`): the calls made so far, extended by the drop. The
error `Cleanup` returns is discarded. -/
def TestExecutor.cleanup (te : TestExecutor) (log : List Call) : List Call :=
  if te.template.Schema.TableName != "" || te.template.Data.KeepTable then log
  else
    match te.strategy with
    | some _ => log ++ [Call.Cleanup te.tableName]
    | none => log

/-- Read assertion (`testRead`), in its interim form: the row count is queried
from the database and validated. `none` is the panic of a nil strategy. -/
def TestExecutor.testRead (w : World) (te : TestExecutor) (log : List Call)
    (test : TestConfig) : Option (List Call × SingleTestResult) :=
  let result : SingleTestResult :=
    { TestType := "read", Expected := test.Expected, Actual := 0, Diff := 0,
      DiffPercent := Float64.finite 0 0, Passed := false, Message := "", Error := "" }
  match te.strategy with
  | none => none
  | some strategy =>
    let log1 := log ++ [Call.GetRowCount te.tableName]
    match strategy.GetRowCount log te.tableName with
    | .error err => some (log1, { result with Passed := false, Error := err })
    | .ok actualCount =>
      match w.validator.ValidateReadResult test.Expected test.Tolerance actualCount with
      | .error err => some (log1, { result with Passed := false, Error := err })
      | .ok validationResult =>
        some (log1,
          { result with
            Passed := validationResult.Passed
            Actual := validationResult.Actual
            Diff := validationResult.Diff
            DiffPercent := validationResult.DiffPercent
            Message := validationResult.Message })

/-- Write assertion (`testWrite`), in its interim form: the current row count
of the table is validated. `none` is the panic of a nil strategy. -/
def TestExecutor.testWrite (w : World) (te : TestExecutor) (log : List Call)
    (test : TestConfig) : Option (List Call × SingleTestResult) :=
  let result : SingleTestResult :=
    { TestType := "write", Expected := test.Expected, Actual := 0, Diff := 0,
      DiffPercent := Float64.finite 0 0, Passed := false, Message := "", Error := "" }
  match te.strategy with
  | none => none
  | some _ =>
    let log1 := log ++ [Call.ValidateWriteResult te.tableName]
    match w.validator.ValidateWriteResult log test.Expected test.Tolerance te.tableName with
    | .error err => some (log1, { result with Passed := false, Error := err })
    | .ok validationResult =>
      some (log1,
        { result with
          Passed := validationResult.Passed
          Actual := validationResult.Actual
          Diff := validationResult.Diff
          DiffPercent := validationResult.DiffPercent
          Message := validationResult.Message })

/-- Run one assertion (`executeTest`). -/
def TestExecutor.executeTest (w : World) (te : TestExecutor) (log : List Call)
    (test : TestConfig) : Option (List Call × SingleTestResult) :=
  let testResult : SingleTestResult :=
    { TestType := test.Type_, Expected := test.Expected, Actual := 0, Diff := 0,
      DiffPercent := Float64.finite 0 0, Passed := false, Message := "", Error := "" }
  match test.Type_ with
  | "read" => te.testRead w log test
  | "write" => te.testWrite w log test
  | "read_write" =>
    match te.testWrite w log test with
    | none => none
    | some (log1, writeResult) =>
      if !writeResult.Passed then some (log1, writeResult)
      else te.testRead w log1 test
  | _ =>
    some (log, { testResult with Passed := false, Error := "未知的测试类型: " ++ test.Type_ })

/-- The loop of `Execute` over the assertions still to run. -/
def Execute.loop (w : World) (te : TestExecutor) :
    List TestConfig → List Call → TestResult → Option (List Call × TestResult)
  | [], log, result => some (log, result)
  | test :: rest, log, result =>
    match te.executeTest w log test with
    | none => none
    | some (log1, testResult) =>
      let result := { result with TestResults := result.TestResults ++ [testResult] }
      let result := if !testResult.Passed then { result with HasFailure := true } else result
      Execute.loop w te rest log1 result

/-- Run the test (`Execute`). The value returned is `Except.error` for the Go
pair `(nil, err)` and `Except.ok` for `(result, nil)`; the deferred `cleanup`
is registered once `setup` has returned nil and runs when the loop is over. -/
def TestExecutor.Execute (w : World) (te : TestExecutor) (log : List Call) :
    Option (Outcome (Except String TestResult)) :=
  let result : TestResult :=
    { TemplateName := te.template.Name, Namespace := te.namespace_,
      TestResults := [], HasFailure := false }
  match te.setup w log with
  | none => none
  | some ⟨te, log1, some err⟩ => some ⟨te, log1, .error ("准备阶段失败: " ++ err)⟩
  | some ⟨te, log1, none⟩ =>
    match Execute.loop w te te.template.Tests log1 result with
    | none => none
    | some (log2, result) => some ⟨te, te.cleanup log2, .ok result⟩

end testcases

/-! ## Vocabulary of the properties -/

namespace generators

/-- The key field `generateFields` starts from. -/
def keyField : FieldType :=
  { Name := "id", SQLType := "BIGINT", MaxSize := 0, Nullable := false }

/-- The field count `GenerateSchema` passes on after clamping. -/
def clampFieldCount (fieldCount : Int) : Int :=
  let fieldCount := if fieldCount > 16 then 16 else fieldCount
  if fieldCount < 1 then 1 else fieldCount

/-- The numeric and temporal SQL types of the pools and lookup tables. -/
def numericTemporalTypes : List String :=
  ["TINYINT", "SMALLINT", "MEDIUMINT", "INT", "INTEGER", "BIGINT",
   "FLOAT", "DOUBLE", "REAL", "DOUBLE PRECISION",
   "DECIMAL(10,2)", "DECIMAL(18,4)", "DECIMAL(38,6)", "NUMERIC(10,2)",
   "DATE", "DATETIME", "TIMESTAMP"]

/-- The large-object SQL types of the pools and lookup tables. -/
def largeObjectTypes : List String :=
  ["TEXT", "MEDIUMTEXT", "CLOB", "BLOB", "TINYBLOB", "MEDIUMBLOB", "BYTEA"]

end generators

/-- A call that carries a table name carries `tableName`, and the asset
registration carries `assetName` as well. -/
def Call.names (tableName assetName : String) : Call → Prop
  | .TableExists t => t = tableName
  | .GetRowCount t => t = tableName
  | .Cleanup t => t = tableName
  | .GenerateAndInsert schema => schema.TableName = tableName
  | .CreateAsset req => req.TableName = tableName ∧ req.AssetEnName = assetName
  | .ValidateWriteResult t => t = tableName
  | .Connect => True
  | .CreateDataSource _ => True

/-- Is the call a registration with the catalog service. -/
def Call.isRegistration : Call → Bool
  | .CreateDataSource _ => true
  | .CreateAsset _ => true
  | _ => false

namespace testcases

/-- The table name the naming policy resolves for an executor. -/
def resolvedTableName (te : TestExecutor) : String :=
  if te.template.Schema.TableName = "" then
    te.namespaceMgr.GenerateTableName te.namespace_ "test_table"
  else te.template.Schema.TableName

/-- The asset name the naming policy resolves for an executor. -/
def resolvedAssetName (te : TestExecutor) : String :=
  if te.template.Schema.AssetName = "" then
    te.namespaceMgr.GenerateAssetName te.namespace_ te.template.Name
  else te.template.Schema.AssetName

/-- What `setup` does once the schema is generated: the existence check, the
reconciliation, the data generation and the registration. -/
def setup.afterSchema (w : World) (te : TestExecutor) (strategy : strategies.DatabaseStrategy)
    (log1 : List Call) (schema : generators.SchemaDefinition) : Outcome (Option String) :=
  let log2 := log1 ++ [Call.TableExists te.tableName]
  match strategy.TableExists log1 te.tableName with
  | .error err => ⟨te, log2, some ("检查表是否存在失败: " ++ err)⟩
  | .ok tableExists =>
    match setup.reconcile te strategy log2 tableExists with
    | (log3, .error err) => ⟨te, log3, some err⟩
    | (log3, .ok tableExists) =>
      if !tableExists then
        let log4 := log3 ++ [Call.GenerateAndInsert schema]
        match w.GenerateAndInsert log3 schema with
        | some err => ⟨te, log4, some ("生成数据失败: " ++ err)⟩
        | none =>
          match te.registerToIDAService strategy log4 with
          | ⟨te, log5, some err⟩ => ⟨te, log5, some ("注册到IDA-service失败: " ++ err)⟩
          | ⟨te, log5, none⟩ => ⟨te, log5, none⟩
      else
        match te.registerToIDAService strategy log3 with
        | ⟨te, log5, some err⟩ => ⟨te, log5, some ("注册到IDA-service失败: " ++ err)⟩
        | ⟨te, log5, none⟩ => ⟨te, log5, none⟩

/-! ### Fixtures for the concrete runs -/

/-- A namespace manager joining namespace and base name with `_`. -/
def fixtureNamespaceMgr : isolation.NamespaceManager where
  GenerateTableName := fun ns base => ns ++ "_" ++ base
  GenerateAssetName := fun ns base => ns ++ "_" ++ base

/-- A MySQL database that accepts every statement, where the table exists or not
and holds `rows` rows. -/
def fixtureStrategy (tableExists : Bool) (rows : Int) : strategies.DatabaseStrategy where
  Connect := fun _ => none
  GetConnectionInfo :=
    { Type_ := "mysql", Host := "127.0.0.1", Port := 3306, User := "root",
      Password := "secret", Database := "testdb" }
  Cleanup := fun _ _ => none
  GetRowCount := fun _ _ => .ok rows
  TableExists := fun _ _ => .ok tableExists

/-- A world whose data generator succeeds and whose validator passes on an exact
match of the row count. -/
def fixtureWorld : World where
  S := Strings.ascii
  rnd := ⟨fun i => 7 * i, fun _ => false⟩
  GenerateAndInsert := fun _ _ => none
  validator :=
    { ValidateReadResult := fun expected _ actual =>
        .ok { Passed := actual == expected, Actual := actual, Diff := actual - expected,
              DiffPercent := Float64.finite 0 0, Message := "" }
      ValidateWriteResult := fun _ expected _ _ =>
        .ok { Passed := true, Actual := expected, Diff := 0,
              DiffPercent := Float64.finite 0 0, Message := "" } }

/-- A freshly built executor (`NewTestExecutor`) for a one-column MySQL template
named `demo` in the namespace `ns`, with the mock catalog client. -/
def fixtureExecutor (tableName assetName : String) (keepTable : Bool) (rowCount : Int)
    (strategy : strategies.DatabaseStrategy) : TestExecutor where
  template :=
    { Name := "demo", Description := "", Database := { Type_ := "mysql", Name := "" },
      Schema := { FieldCount := 1, FieldTypes := [], MaxFieldSize := 0,
                  TableName := tableName, AssetName := assetName },
      Data := { RowCount := rowCount, KeepTable := keepTable },
      Tests := [] }
  idaClient := clients.NewIDAServiceClient
  strategy := some strategy
  namespaceMgr := fixtureNamespaceMgr
  Namespace := "ns"
  namespace_ := "ns"
  tableName := ""
  assetName := ""
  dataSourceId := 0
  assetId := 0

end testcases

/-! ### Vocabulary of the run properties -/

/-- Is the call a drop of a table. -/
def Call.isCleanup : Call → Bool
  | .Cleanup _ => true
  | _ => false

/-- The answer to the call `c`, made after the calls `hist`, is a failure: an error,
or a catalog response with `Success = false`. -/
def Call.failed (ida : clients.IDAServiceClient) (w : testcases.World)
    (strategy : strategies.DatabaseStrategy) (hist : List Call) : Call → Prop
  | .Connect => strategy.Connect hist ≠ none
  | .TableExists t => ∃ err, strategy.TableExists hist t = .error err
  | .GetRowCount t => ∃ err, strategy.GetRowCount hist t = .error err
  | .Cleanup t => strategy.Cleanup hist t ≠ none
  | .GenerateAndInsert schema => w.GenerateAndInsert hist schema ≠ none
  | .CreateDataSource req => ∀ resp, ida.CreateDataSource hist req = .ok resp → resp.Success = false
  | .CreateAsset req => ∀ resp, ida.CreateAsset hist req = .ok resp → resp.Success = false
  | .ValidateWriteResult _ => False

/-- No call of the run `new`, started after the calls `hist`, fails in the sense
of `F`. -/
def Run.clean (F : List Call → Call → Prop) : List Call → List Call → Prop
  | _, [] => True
  | hist, c :: cs => ¬ F hist c ∧ Run.clean F (hist ++ [c]) cs

/-- The run `new`, started after the calls `hist`, stops at its first failure: when
it is a failed run, no call before its last one fails; otherwise no call fails. -/
def Run.stopsAtFailure (F : List Call → Call → Prop) (hist new : List Call)
    (failedRun : Prop) : Prop :=
  (failedRun → ∃ pre, Run.clean F hist pre ∧ (new = pre ∨ ∃ c, new = pre ++ [c]))
  ∧ (¬ failedRun → Run.clean F hist new)

namespace testcases

/-- The assertions executed one after the other in the order of the list, each on
the calls made so far, with the list of their results. -/
def Execute.inOrder (w : World) (te : TestExecutor) :
    List TestConfig → List Call → Option (List Call × List SingleTestResult)
  | [], log => some (log, [])
  | test :: rest, log =>
    match te.executeTest w log test with
    | none => none
    | some (log1, testResult) =>
      match Execute.inOrder w te rest log1 with
      | none => none
      | some (log2, results) => some (log2, testResult :: results)

/-- The result `executeTest` gives an assertion of an unknown kind. -/
def unknownKindResult (test : TestConfig) : SingleTestResult :=
  { TestType := test.Type_, Expected := test.Expected, Actual := 0, Diff := 0,
    DiffPercent := Float64.finite 0 0, Passed := false, Message := "",
    Error := "未知的测试类型: " ++ test.Type_ }

/-- An executor with the assertions of its template replaced. -/
def fixtureWithTests (te : TestExecutor) (tests : List TestConfig) : TestExecutor :=
  { te with template := { te.template with Tests := tests } }

/-- A MySQL database that refuses the connection. -/
def fixtureStrategyDown : strategies.DatabaseStrategy where
  Connect := fun _ => some "connection refused"
  GetConnectionInfo :=
    { Type_ := "mysql", Host := "127.0.0.1", Port := 3306, User := "root",
      Password := "secret", Database := "testdb" }
  Cleanup := fun _ _ => none
  GetRowCount := fun _ _ => .ok 0
  TableExists := fun _ _ => .ok false

/-- The world `fixtureWorld` with a data generator that fails. -/
def fixtureWorldGeneratorFails : World :=
  { fixtureWorld with GenerateAndInsert := fun _ _ => some "insert failed" }

/-- The world `fixtureWorld` with a write validation that does not pass. -/
def fixtureWorldWriteFails : World :=
  { fixtureWorld with
    validator :=
      { ValidateReadResult := fixtureWorld.validator.ValidateReadResult
        ValidateWriteResult := fun _ _ _ _ =>
          .ok { Passed := false, Actual := 7, Diff := -993,
                DiffPercent := Float64.finite 0 0, Message := "row count mismatch" } } }

/-- Three assertions: a read, one of the unknown kind `bogus` and a read_write. -/
def fixtureAssertions : List TestConfig :=
  [⟨"read", 1000, Float64.ofRatio 1 10⟩, ⟨"bogus", 5, Float64.ofRatio 1 10⟩,
   ⟨"read_write", 1000, Float64.ofRatio 1 10⟩]

/-- The executor of a run-scoped template of 1000 rows with the three assertions of
`fixtureAssertions`, on a database without the table, where every row count query
answers 1000. -/
def fixtureAssertingExecutor : TestExecutor :=
  fixtureWithTests (fixtureExecutor "" "" false 1000 (fixtureStrategy false 1000))
    fixtureAssertions

end testcases

namespace Float64

/-- The mantissa `q` and exponent `e` are a rounding of the positive rational `x` to 53
binary digits: `x / 2 ^ e` lies in `[2 ^ 52, 2 ^ 53)` and `q` is within one half of it. -/
def roundsTo (x : ℚ) (q : Nat) (e : Int) : Prop :=
  (2 : ℚ) ^ 52 ≤ x * 2 ^ (-e) ∧ x * 2 ^ (-e) < 2 ^ 53 ∧ |x * 2 ^ (-e) - q| ≤ 1 / 2

end Float64


/-! ## Properties of the schema generator -/

namespace generators

theorem getIntType_eq (m : DatabaseTypeMapper) : getIntType m = "BIGINT" := by
  unfold getIntType
  split <;> rfl

theorem getMaxSizeForType_mapper (m m0 : DatabaseTypeMapper) (t : String) :
    getMaxSizeForType m t = getMaxSizeForType m0 t := rfl

theorem foldl_append_singleton {α β : Type} (g : α → β) (xs : List α) (acc : List β) :
    xs.foldl (fun ys x => ys ++ [g x]) acc = acc ++ xs.map g := by
  induction xs generalizing acc with
  | nil => simp
  | cons x xs ih => simp [ih]

/-- The loop of `mapTemplateTypesToSQLTypes` is the element-wise image of its body. -/
theorem mapTemplateTypesToSQLTypes_eq_map (S : Strings) (m : DatabaseTypeMapper)
    (templateTypes : List String) :
    mapTemplateTypesToSQLTypes S m templateTypes
      = templateTypes.map (mapTemplateTypesToSQLTypes.step S m (getTemplateTypeMap m)) := by
  unfold mapTemplateTypesToSQLTypes
  simp [foldl_append_singleton]

theorem getFieldTypePool_ne_nil (m : DatabaseTypeMapper) : getFieldTypePool m ≠ [] := by
  unfold getFieldTypePool
  split <;> simp

theorem typePool_ne_nil (S : Strings) (m : DatabaseTypeMapper) (fieldTypes : List String) :
    generateFields.typePool S m fieldTypes ≠ [] := by
  unfold generateFields.typePool
  split
  · rename_i h
    rw [mapTemplateTypesToSQLTypes_eq_map]
    intro h0
    have := congrArg List.length h0
    simp at this
    simp [this] at h
  · exact getFieldTypePool_ne_nil m

/-- The loop of `generateFields` never panics on a non-empty pool: it appends one
field per iteration, built from the pool element the draw selects. -/
theorem generateFields.loop_spec (m : DatabaseTypeMapper) (typePool : List String)
    (maxFieldSize : Int) (rnd : rand.Source) (hpool : typePool ≠ []) :
    ∀ (n i : Nat) (fields : List FieldType),
      ∃ extra : List FieldType,
        generateFields.loop m typePool maxFieldSize rnd n i fields = some (fields ++ extra)
        ∧ extra.length = n
        ∧ ∀ j : Nat, j < n →
            ∃ t, typePool[rnd.intn (i + j) % typePool.length]? = some t
              ∧ extra[j]? = some (generateFields.field m maxFieldSize (i + j) t
                  (rnd.float32Lt03 (i + j))) := by
  have hlen : typePool.length ≠ 0 := by
    intro h; exact hpool (List.length_eq_zero.mp h)
  intro n
  induction n with
  | zero =>
    intro i fields
    exact ⟨[], by simp [generateFields.loop], rfl, by intro j hj; omega⟩
  | succ n ih =>
    intro i fields
    have hidx : rnd.intn i % typePool.length < typePool.length :=
      Nat.mod_lt _ (Nat.pos_of_ne_zero hlen)
    obtain ⟨extra, h1, h2, h3⟩ := ih (i + 1)
      (fields ++ [generateFields.field m maxFieldSize i
        (typePool[rnd.intn i % typePool.length]) (rnd.float32Lt03 i)])
    refine ⟨generateFields.field m maxFieldSize i
        (typePool[rnd.intn i % typePool.length]) (rnd.float32Lt03 i) :: extra, ?_, ?_, ?_⟩
    · simp only [generateFields.loop, rand.Source.Intn, if_neg hlen, List.get?_eq_getElem?,
        List.getElem?_eq_getElem hidx]
      rw [h1]
      simp
    · simp [h2]
    · intro j hj
      cases j with
      | zero =>
        exact ⟨typePool[rnd.intn i % typePool.length], by simp [List.getElem?_eq_getElem hidx],
          by simp⟩
      | succ j =>
        obtain ⟨t, ht1, ht2⟩ := h3 j (by omega)
        have e : i + 1 + j = i + (j + 1) := by omega
        rw [e] at ht1 ht2
        exact ⟨t, ht1, by simpa using ht2⟩

/-- `GenerateSchema` always returns: the key field, then one field per loop
iteration, each built from the pool element its draw selects. -/
theorem GenerateSchema_spec (S : Strings) (rnd : rand.Source) (m : DatabaseTypeMapper)
    (tableName : String) (fieldCount rowCount : Int) (fieldTypes : List String)
    (maxFieldSize : Int) :
    ∃ extra : List FieldType,
      GenerateSchema S rnd m tableName fieldCount rowCount fieldTypes maxFieldSize
        = some { TableName := tableName, Fields := keyField :: extra, RowCount := rowCount }
      ∧ extra.length = (clampFieldCount fieldCount - 1).toNat
      ∧ ∀ j : Nat, j < extra.length →
          ∃ t, (generateFields.typePool S m fieldTypes)[rnd.intn (1 + j)
                  % (generateFields.typePool S m fieldTypes).length]? = some t
            ∧ extra[j]? = some (generateFields.field m maxFieldSize (1 + j) t
                (rnd.float32Lt03 (1 + j))) := by
  obtain ⟨extra, h1, h2, h3⟩ := generateFields.loop_spec m (generateFields.typePool S m fieldTypes)
    maxFieldSize rnd (typePool_ne_nil S m fieldTypes) (clampFieldCount fieldCount - 1).toNat 1
    [keyField]
  refine ⟨extra, ?_, h2, ?_⟩
  · unfold GenerateSchema generateFields
    simp only [getIntType_eq]
    unfold clampFieldCount keyField at h1
    simp only [] at h1 ⊢
    rw [h1]
    rfl
  · intro j hj
    exact h3 j (by omega)

end generators

namespace generators

theorem field_Name (m : DatabaseTypeMapper) (maxFieldSize : Int) (i : Nat) (t : String)
    (b : Bool) : (generateFields.field m maxFieldSize i t b).Name = "col_" ++ fmt.formatInt i := by
  unfold generateFields.field
  dsimp only
  split_ifs <;> rfl

theorem col_ne_id (s : String) : "col_" ++ s ≠ "id" := by
  intro h
  have h2 : ("col_" ++ s).data = "id".data := congrArg String.data h
  rw [String.data_append] at h2
  have h4 : ("col_".data ++ s.data).head? = some 'c' := rfl
  rw [h2] at h4
  revert h4
  decide

/-- C1: for every dialect, table name, row count, hint list, cap, random outcome and
every integer `fieldCount`, `GenerateSchema` returns a schema with exactly
`min (max fieldCount 1) 16` fields. -/
theorem GenerateSchema_field_count (S : Strings) (rnd : rand.Source) (m : DatabaseTypeMapper)
    (tableName : String) (fieldCount rowCount : Int) (fieldTypes : List String)
    (maxFieldSize : Int) :
    ∃ schema : SchemaDefinition,
      GenerateSchema S rnd m tableName fieldCount rowCount fieldTypes maxFieldSize = some schema
      ∧ (schema.Fields.length : Int) = min (max fieldCount 1) 16 := by
  obtain ⟨extra, h1, h2, -⟩ :=
    GenerateSchema_spec S rnd m tableName fieldCount rowCount fieldTypes maxFieldSize
  refine ⟨_, h1, ?_⟩
  have hc : 1 ≤ clampFieldCount fieldCount := by
    unfold clampFieldCount; dsimp only; split_ifs <;> omega
  have hn : ((clampFieldCount fieldCount - 1).toNat : Int) = clampFieldCount fieldCount - 1 :=
    Int.toNat_of_nonneg (by omega)
  simp only [List.length_cons, h2, Nat.cast_add, Nat.cast_one, hn]
  unfold clampFieldCount
  dsimp only
  split_ifs <;> omega

/-- C2: for every dialect string and all other inputs and random outcomes, field 0 of
the schema `GenerateSchema` returns is the key field (`id`, `BIGINT`, size 0, not
nullable), and no field at an index `≥ 1` is named `id`. -/
theorem GenerateSchema_key_field (S : Strings) (rnd : rand.Source) (m : DatabaseTypeMapper)
    (tableName : String) (fieldCount rowCount : Int) (fieldTypes : List String)
    (maxFieldSize : Int) :
    ∃ schema : SchemaDefinition,
      GenerateSchema S rnd m tableName fieldCount rowCount fieldTypes maxFieldSize = some schema
      ∧ schema.Fields[0]?
          = some { Name := "id", SQLType := "BIGINT", MaxSize := 0, Nullable := false }
      ∧ ∀ (i : Nat) (f : FieldType), 1 ≤ i → schema.Fields[i]? = some f → f.Name ≠ "id" := by
  obtain ⟨extra, h1, -, h3⟩ :=
    GenerateSchema_spec S rnd m tableName fieldCount rowCount fieldTypes maxFieldSize
  refine ⟨_, h1, by simp [keyField], ?_⟩
  intro i f hi hf
  obtain ⟨j, rfl⟩ : ∃ j, i = j + 1 := ⟨i - 1, by omega⟩
  simp only [List.getElem?_cons_succ] at hf
  have hj : j < extra.length := by
    by_contra hcon
    rw [List.getElem?_eq_none (by omega)] at hf
    cases hf
  obtain ⟨t, -, ht⟩ := h3 j hj
  rw [hf] at ht
  cases ht
  rw [field_Name]
  exact col_ne_id _

/-- Witness of C2: a three-field MySQL schema, whose field 1 is `col_1`. -/
theorem GenerateSchema_key_field_witness :
    GenerateSchema Strings.ascii ⟨fun i => 7 * i, fun _ => false⟩ ⟨"mysql"⟩ "t" 3 10 [] 0
      = some { TableName := "t",
               Fields := [⟨"id", "BIGINT", 0, false⟩, ⟨"col_1", "DECIMAL(10,2)", 0, false⟩,
                          ⟨"col_2", "VARCHAR(1024)", 1024, false⟩],
               RowCount := 10 }
    ∧ ("col_1" : String) ≠ "id" := by
  obtain ⟨s, h, -, hall⟩ := GenerateSchema_key_field Strings.ascii
    ⟨fun i => 7 * i, fun _ => false⟩ ⟨"mysql"⟩ "t" 3 10 [] 0
  have he : GenerateSchema Strings.ascii ⟨fun i => 7 * i, fun _ => false⟩ ⟨"mysql"⟩ "t" 3 10 [] 0
      = some { TableName := "t",
               Fields := [⟨"id", "BIGINT", 0, false⟩, ⟨"col_1", "DECIMAL(10,2)", 0, false⟩,
                          ⟨"col_2", "VARCHAR(1024)", 1024, false⟩],
               RowCount := 10 } := by decide
  rw [he] at h
  cases h
  exact ⟨he, hall 1 ⟨"col_1", "DECIMAL(10,2)", 0, false⟩ (by decide) (by decide)⟩

theorem field_MaxSize_le (m : DatabaseTypeMapper) (maxFieldSize : Int) (i : Nat) (t : String)
    (b : Bool) (h : 0 < maxFieldSize) :
    (generateFields.field m maxFieldSize i t b).MaxSize ≤ maxFieldSize := by
  unfold generateFields.field
  dsimp only
  split_ifs with hc hv
  · exact le_refl _
  · exact le_refl _
  · show getMaxSizeForType m t ≤ maxFieldSize
    by_contra hcon
    exact hc ⟨h, by omega⟩

theorem numericTemporal_maxSize :
    ∀ t ∈ numericTemporalTypes, getMaxSizeForType ⟨""⟩ t = 0 := by decide

theorem numericTemporal_head :
    ∀ t ∈ numericTemporalTypes, t.data.head? ≠ some 'V' := by decide

theorem varchar_not_numericTemporal (x : String) :
    "VARCHAR(" ++ x ++ ")" ∉ numericTemporalTypes := by
  intro h
  apply numericTemporal_head _ h
  rw [String.data_append, String.data_append]
  rfl

theorem field_numericTemporal (m : DatabaseTypeMapper) (maxFieldSize : Int) (i : Nat)
    (t : String) (b : Bool)
    (h : (generateFields.field m maxFieldSize i t b).SQLType ∈ numericTemporalTypes) :
    (generateFields.field m maxFieldSize i t b).MaxSize = 0 := by
  unfold generateFields.field at h ⊢
  dsimp only at h ⊢
  split_ifs at h ⊢ with hc hv
  · exact absurd h (varchar_not_numericTemporal _)
  · have h0 := numericTemporal_maxSize t h
    rw [getMaxSizeForType_mapper m ⟨""⟩, h0] at hc
    omega
  · have h0 := numericTemporal_maxSize t h
    rw [getMaxSizeForType_mapper m ⟨""⟩]
    exact h0

/-- Every non-key field of a generated schema is the loop body applied to a
drawn pool element. -/
theorem mem_extra_field {S : Strings} {rnd : rand.Source} {m : DatabaseTypeMapper}
    {fieldTypes : List String} {maxFieldSize : Int} {extra : List FieldType}
    (h3 : ∀ j : Nat, j < extra.length →
          ∃ t, (generateFields.typePool S m fieldTypes)[rnd.intn (1 + j)
                  % (generateFields.typePool S m fieldTypes).length]? = some t
            ∧ extra[j]? = some (generateFields.field m maxFieldSize (1 + j) t
                (rnd.float32Lt03 (1 + j))))
    {f : FieldType} (hf : f ∈ extra) :
    ∃ (j : Nat) (t : String), t ∈ generateFields.typePool S m fieldTypes
      ∧ f = generateFields.field m maxFieldSize (1 + j) t (rnd.float32Lt03 (1 + j)) := by
  obtain ⟨j, hj, hfj⟩ := List.getElem_of_mem hf
  obtain ⟨t, ht1, ht2⟩ := h3 j hj
  rw [List.getElem?_eq_getElem hj, hfj] at ht2
  exact ⟨j, t, List.getElem?_mem ht1, Option.some.inj ht2⟩

/-- C3: with a cap `maxFieldSize > 0` every field of the schema `GenerateSchema` returns
has `MaxSize ≤ maxFieldSize`; and, whatever the cap is, every field whose SQL type is a
numeric or temporal type has `MaxSize = 0`. -/
theorem GenerateSchema_MaxSize_cap (S : Strings) (rnd : rand.Source) (m : DatabaseTypeMapper)
    (tableName : String) (fieldCount rowCount : Int) (fieldTypes : List String)
    (maxFieldSize : Int) :
    ∃ schema : SchemaDefinition,
      GenerateSchema S rnd m tableName fieldCount rowCount fieldTypes maxFieldSize = some schema
      ∧ (0 < maxFieldSize → ∀ f ∈ schema.Fields, f.MaxSize ≤ maxFieldSize)
      ∧ (∀ f ∈ schema.Fields, f.SQLType ∈ numericTemporalTypes → f.MaxSize = 0) := by
  obtain ⟨extra, h1, -, h3⟩ :=
    GenerateSchema_spec S rnd m tableName fieldCount rowCount fieldTypes maxFieldSize
  refine ⟨_, h1, ?_, ?_⟩
  · intro hcap f hf
    rcases List.mem_cons.mp hf with rfl | hf
    · exact le_of_lt hcap
    · obtain ⟨j, t, -, rfl⟩ := mem_extra_field h3 hf
      exact field_MaxSize_le m maxFieldSize _ t _ hcap
  · intro f hf hnum
    rcases List.mem_cons.mp hf with rfl | hf
    · rfl
    · obtain ⟨j, t, -, rfl⟩ := mem_extra_field h3 hf
      exact field_numericTemporal m maxFieldSize _ t _ hnum

/-- Witness of C3: a MySQL schema under the cap 100, with a capped `VARCHAR` and
numeric fields of size 0. -/
theorem GenerateSchema_MaxSize_cap_witness :
    (0 : Int) < 100
    ∧ ∃ schema : SchemaDefinition,
      GenerateSchema Strings.ascii ⟨fun i => 7 * i, fun _ => false⟩ ⟨"mysql"⟩ "t" 3 10 [] 100
        = some schema
      ∧ schema.Fields = [⟨"id", "BIGINT", 0, false⟩, ⟨"col_1", "DECIMAL(10,2)", 0, false⟩,
                          ⟨"col_2", "VARCHAR(100)", 100, false⟩]
      ∧ (∀ f ∈ schema.Fields, f.MaxSize ≤ 100)
      ∧ (∀ f ∈ schema.Fields, f.SQLType ∈ numericTemporalTypes → f.MaxSize = 0) := by
  obtain ⟨s, h, hcap, hnum⟩ := GenerateSchema_MaxSize_cap Strings.ascii
    ⟨fun i => 7 * i, fun _ => false⟩ ⟨"mysql"⟩ "t" 3 10 [] 100
  have he : GenerateSchema Strings.ascii ⟨fun i => 7 * i, fun _ => false⟩ ⟨"mysql"⟩ "t" 3 10 []
      100 = some ⟨"t", [⟨"id", "BIGINT", 0, false⟩, ⟨"col_1", "DECIMAL(10,2)", 0, false⟩,
                        ⟨"col_2", "VARCHAR(100)", 100, false⟩], 10⟩ := by decide
  refine ⟨by decide, s, h, ?_, hcap (by decide), hnum⟩
  rw [he] at h
  cases h
  rfl

end generators

namespace generators

theorem field_no_cap (m : DatabaseTypeMapper) (i : Nat) (t : String) (b : Bool) :
    generateFields.field m 0 i t b
      = { Name := "col_" ++ fmt.formatInt i, SQLType := t,
          MaxSize := getMaxSizeForType m t, Nullable := b } := by
  unfold generateFields.field
  dsimp only
  rw [if_neg (by omega)]

theorem field_SQLType_cases (m : DatabaseTypeMapper) (maxFieldSize : Int) (i : Nat) (t : String)
    (b : Bool) :
    (generateFields.field m maxFieldSize i t b).SQLType = t
    ∨ (0 < maxFieldSize ∧ maxFieldSize < getMaxSizeForType m t
        ∧ strings.Contains t "VARCHAR" = true
        ∧ (generateFields.field m maxFieldSize i t b).SQLType
            = "VARCHAR(" ++ fmt.formatInt maxFieldSize ++ ")") := by
  unfold generateFields.field
  dsimp only
  split_ifs with hc hv
  · exact Or.inr ⟨hc.1, hc.2, hv, rfl⟩
  · exact Or.inl rfl
  · exact Or.inl rfl

theorem field_MaxSize_cases (m : DatabaseTypeMapper) (maxFieldSize : Int) (i : Nat) (t : String)
    (b : Bool) (h : 0 < maxFieldSize) :
    (generateFields.field m maxFieldSize i t b).MaxSize
      = min (getMaxSizeForType m t) maxFieldSize := by
  unfold generateFields.field
  dsimp only
  split_ifs with hc hv
  · show maxFieldSize = _
    rw [min_eq_right (le_of_lt hc.2)]
  · show maxFieldSize = _
    rw [min_eq_right (le_of_lt hc.2)]
  · show getMaxSizeForType m t = _
    have : getMaxSizeForType m t ≤ maxFieldSize := by
      by_contra hcon
      exact hc ⟨h, by omega⟩
    rw [min_eq_left this]

theorem numericTemporal_not_varchar :
    ∀ t ∈ numericTemporalTypes, strings.Contains t "VARCHAR" = false := by decide

theorem largeObject_not_varchar :
    ∀ t ∈ largeObjectTypes, strings.Contains t "VARCHAR" = false := by decide

theorem largeObject_maxSize :
    ∀ t ∈ largeObjectTypes, getMaxSizeForType ⟨""⟩ t = 1024 := by decide

/-- C4, the claim as stated fails: with the cap 100 a drawn `TEXT` is emitted with
`MaxSize` 100, against 1024 without a cap; the SQL type stays `TEXT`. -/
theorem GenerateSchema_cap_shrinks_large_object :
    GenerateSchema Strings.ascii ⟨fun _ => 15, fun _ => false⟩ ⟨"mysql"⟩ "t" 2 10 [] 0
      = some ⟨"t", [⟨"id", "BIGINT", 0, false⟩, ⟨"col_1", "TEXT", 1024, false⟩], 10⟩
    ∧ GenerateSchema Strings.ascii ⟨fun _ => 15, fun _ => false⟩ ⟨"mysql"⟩ "t" 2 10 [] 100
      = some ⟨"t", [⟨"id", "BIGINT", 0, false⟩, ⟨"col_1", "TEXT", 100, false⟩], 10⟩
    ∧ "TEXT" ∈ largeObjectTypes := by decide

/-- C4 as amended: run `GenerateSchema` twice on the same inputs and draws, without a cap
and with a cap `maxFieldSize > 0`. Field by field, the run without a cap shows the drawn
type. A numeric or temporal drawn type is emitted under the cap with the same SQL type
and the same `MaxSize`; a large-object drawn type keeps its SQL type and its `MaxSize`
1024 becomes `min 1024 maxFieldSize`; the SQL type differs from the drawn one only for a
type containing `VARCHAR`. -/
theorem GenerateSchema_cap_frame (S : Strings) (rnd : rand.Source) (m : DatabaseTypeMapper)
    (tableName : String) (fieldCount rowCount : Int) (fieldTypes : List String)
    (maxFieldSize : Int) (hcap : 0 < maxFieldSize) :
    ∃ extra0 extraC : List FieldType,
      GenerateSchema S rnd m tableName fieldCount rowCount fieldTypes 0
        = some { TableName := tableName, Fields := keyField :: extra0, RowCount := rowCount }
      ∧ GenerateSchema S rnd m tableName fieldCount rowCount fieldTypes maxFieldSize
        = some { TableName := tableName, Fields := keyField :: extraC, RowCount := rowCount }
      ∧ extra0.length = extraC.length
      ∧ ∀ (j : Nat) (f0 fc : FieldType), extra0[j]? = some f0 → extraC[j]? = some fc →
          (f0.SQLType ∈ numericTemporalTypes →
            fc.SQLType = f0.SQLType ∧ fc.MaxSize = f0.MaxSize)
          ∧ (f0.SQLType ∈ largeObjectTypes →
            fc.SQLType = f0.SQLType ∧ f0.MaxSize = 1024 ∧ fc.MaxSize = min 1024 maxFieldSize)
          ∧ (fc.SQLType ≠ f0.SQLType → strings.Contains f0.SQLType "VARCHAR" = true) := by
  obtain ⟨extra0, a1, a2, a3⟩ :=
    GenerateSchema_spec S rnd m tableName fieldCount rowCount fieldTypes 0
  obtain ⟨extraC, c1, c2, c3⟩ :=
    GenerateSchema_spec S rnd m tableName fieldCount rowCount fieldTypes maxFieldSize
  refine ⟨extra0, extraC, a1, c1, by rw [a2, c2], ?_⟩
  intro j f0 fc h0 hc
  have hj0 : j < extra0.length := by
    by_contra hcon
    rw [List.getElem?_eq_none (by omega)] at h0
    cases h0
  obtain ⟨t, ht, hf0⟩ := a3 j hj0
  obtain ⟨t2, ht2, hfc⟩ := c3 j (by rw [c2, ← a2]; exact hj0)
  rw [ht] at ht2
  cases ht2
  rw [h0] at hf0
  rw [hc] at hfc
  cases hf0
  cases hfc
  rw [field_no_cap]
  dsimp only
  refine ⟨?_, ?_, ?_⟩
  · intro hnum
    have hv := numericTemporal_not_varchar t hnum
    have hs := numericTemporal_maxSize t hnum
    rw [← getMaxSizeForType_mapper m ⟨""⟩] at hs
    constructor
    · rcases field_SQLType_cases m maxFieldSize (1 + j) t (rnd.float32Lt03 (1 + j)) with h | h
      · exact h
      · rw [hv] at h
        exact absurd h.2.2.1 (by decide)
    · rw [field_MaxSize_cases _ _ _ _ _ hcap, hs]
      exact min_eq_left (le_of_lt hcap)
  · intro hlob
    have hv := largeObject_not_varchar t hlob
    have hs := largeObject_maxSize t hlob
    rw [← getMaxSizeForType_mapper m ⟨""⟩] at hs
    refine ⟨?_, hs, ?_⟩
    · rcases field_SQLType_cases m maxFieldSize (1 + j) t (rnd.float32Lt03 (1 + j)) with h | h
      · exact h
      · rw [hv] at h
        exact absurd h.2.2.1 (by decide)
    · rw [field_MaxSize_cases _ _ _ _ _ hcap, hs]
  · intro hne
    rcases field_SQLType_cases m maxFieldSize (1 + j) t (rnd.float32Lt03 (1 + j)) with h | h
    · exact absurd h hne
    · exact h.2.2.1

/-- Witness of the amended C4: the two runs of the MySQL generator with a drawn `TEXT`,
without a cap and under the cap 100. -/
theorem GenerateSchema_cap_frame_witness :
    (0 : Int) < 100
    ∧ ∃ extra0 extraC : List FieldType,
      GenerateSchema Strings.ascii ⟨fun _ => 15, fun _ => false⟩ ⟨"mysql"⟩ "t" 2 10 [] 0
        = some { TableName := "t", Fields := keyField :: extra0, RowCount := 10 }
      ∧ GenerateSchema Strings.ascii ⟨fun _ => 15, fun _ => false⟩ ⟨"mysql"⟩ "t" 2 10 [] 100
        = some { TableName := "t", Fields := keyField :: extraC, RowCount := 10 }
      ∧ extra0 = [⟨"col_1", "TEXT", 1024, false⟩]
      ∧ extraC = [⟨"col_1", "TEXT", 100, false⟩] := by
  obtain ⟨extra0, extraC, h0, hc, -, -⟩ := GenerateSchema_cap_frame Strings.ascii
    ⟨fun _ => 15, fun _ => false⟩ ⟨"mysql"⟩ "t" 2 10 [] 100 (by decide)
  have e0 : GenerateSchema Strings.ascii ⟨fun _ => 15, fun _ => false⟩ ⟨"mysql"⟩ "t" 2 10 [] 0
      = some ⟨"t", [⟨"id", "BIGINT", 0, false⟩, ⟨"col_1", "TEXT", 1024, false⟩], 10⟩ := by
    decide
  have ec : GenerateSchema Strings.ascii ⟨fun _ => 15, fun _ => false⟩ ⟨"mysql"⟩ "t" 2 10 [] 100
      = some ⟨"t", [⟨"id", "BIGINT", 0, false⟩, ⟨"col_1", "TEXT", 100, false⟩], 10⟩ := by
    decide
  refine ⟨by decide, extra0, extraC, h0, hc, ?_, ?_⟩
  · rw [e0] at h0
    simp only [keyField, Option.some.injEq, SchemaDefinition.mk.injEq, List.cons.injEq,
      true_and, and_true] at h0
    exact h0.symm
  · rw [ec] at hc
    simp only [keyField, Option.some.injEq, SchemaDefinition.mk.injEq, List.cons.injEq,
      true_and, and_true] at hc
    exact hc.symm

end generators

namespace generators

theorem getTemplateTypeMap_keys_nodup (m : DatabaseTypeMapper) :
    ((getTemplateTypeMap m).map Prod.fst).Nodup := by
  unfold getTemplateTypeMap
  split <;> decide

theorem lookup_of_mem_of_nodup {l : List (String × String)}
    (hnd : (l.map Prod.fst).Nodup) {k v : String} (h : (k, v) ∈ l) :
    l.lookup k = some v := by
  induction l with
  | nil => cases h
  | cons p l ih =>
    obtain ⟨a, b⟩ := p
    rw [List.map_cons, List.nodup_cons] at hnd
    rcases List.mem_cons.mp h with heq | hmem
    · cases heq
      simp [List.lookup]
    · have hk : k ∈ l.map Prod.fst := List.mem_map.mpr ⟨(k, v), hmem, rfl⟩
      have hne : k ≠ a := by
        rintro rfl
        exact hnd.1 hk
      have hb : (k == a) = false := by simpa using hne
      rw [List.lookup, hb]
      exact ih hnd.2 hmem

/-- C5: `mapTemplateTypesToSQLTypes` is element-wise and sees a hint only through
`ToLower(TrimSpace(hint))`. For every dialect: the result has as many elements as the
hint list; element `i` is the result of mapping the single hint `h[i]`; two hint lists
whose hints agree after normalisation give the same result; and a hint whose normalised
token is a key of the lookup table of the dialect is mapped to the value of that key. -/
theorem mapTemplateTypesToSQLTypes_elementwise (S : Strings) (m : DatabaseTypeMapper) :
    (∀ h : List String, (mapTemplateTypesToSQLTypes S m h).length = h.length)
    ∧ (∀ (h : List String) (i : Nat) (t : String), h[i]? = some t →
        ∃ r, (mapTemplateTypesToSQLTypes S m h)[i]? = some r
          ∧ mapTemplateTypesToSQLTypes S m [t] = [r])
    ∧ (∀ h h2 : List String,
        h.map (fun t => S.ToLower (S.TrimSpace t)) = h2.map (fun t => S.ToLower (S.TrimSpace t)) →
        mapTemplateTypesToSQLTypes S m h = mapTemplateTypesToSQLTypes S m h2)
    ∧ (∀ t k v : String, (k, v) ∈ getTemplateTypeMap m → S.ToLower (S.TrimSpace t) = k →
        mapTemplateTypesToSQLTypes S m [t] = [v]) := by
  refine ⟨?_, ?_, ?_, ?_⟩
  · intro h
    rw [mapTemplateTypesToSQLTypes_eq_map, List.length_map]
  · intro h i t hi
    refine ⟨mapTemplateTypesToSQLTypes.step S m (getTemplateTypeMap m) t, ?_, ?_⟩
    · rw [mapTemplateTypesToSQLTypes_eq_map, List.getElem?_map, hi]
      rfl
    · rw [mapTemplateTypesToSQLTypes_eq_map]
      rfl
  · intro h h2 hn
    rw [mapTemplateTypesToSQLTypes_eq_map, mapTemplateTypesToSQLTypes_eq_map]
    have hstep : mapTemplateTypesToSQLTypes.step S m (getTemplateTypeMap m)
        = (fun k => match (getTemplateTypeMap m).lookup k with
            | some sqlType => sqlType
            | none => getDefaultTypeForTemplateType m k) ∘ (fun t => S.ToLower (S.TrimSpace t)) := by
      funext t
      rfl
    rw [hstep, ← List.map_map, ← List.map_map, hn]
  · intro t k v hmem hk
    rw [mapTemplateTypesToSQLTypes_eq_map]
    have hl := lookup_of_mem_of_nodup (getTemplateTypeMap_keys_nodup m) hmem
    simp only [List.map_cons, List.map_nil, mapTemplateTypesToSQLTypes.step, hk, hl]

/-- Witness of C5: on the MySQL table the hints `"  INT "` and `"int"` agree after
normalisation and both map to `INT`, the value of the key `int`. -/
theorem mapTemplateTypesToSQLTypes_elementwise_witness :
    (mapTemplateTypesToSQLTypes Strings.ascii ⟨"mysql"⟩ ["  INT ", "Text"])[1]? = some "TEXT"
    ∧ mapTemplateTypesToSQLTypes Strings.ascii ⟨"mysql"⟩ ["Text"] = ["TEXT"]
    ∧ mapTemplateTypesToSQLTypes Strings.ascii ⟨"mysql"⟩ ["  INT "]
        = mapTemplateTypesToSQLTypes Strings.ascii ⟨"mysql"⟩ ["int"]
    ∧ mapTemplateTypesToSQLTypes Strings.ascii ⟨"mysql"⟩ ["  INT "] = ["INT"] := by
  obtain ⟨-, h2, h3, h4⟩ := mapTemplateTypesToSQLTypes_elementwise Strings.ascii ⟨"mysql"⟩
  obtain ⟨r, hr1, hr2⟩ := h2 ["  INT ", "Text"] 1 "Text" (by decide)
  have hr : r = "TEXT" := by
    have e : (mapTemplateTypesToSQLTypes Strings.ascii ⟨"mysql"⟩ ["  INT ", "Text"])[1]?
        = some "TEXT" := by decide
    rw [e] at hr1
    exact (Option.some.inj hr1).symm
  subst hr
  exact ⟨hr1, hr2, h3 ["  INT "] ["int"] (by decide),
    h4 "  INT " "int" "INT" (by decide) (by decide)⟩

/-- C6: for every dialect string, field count, cap and random outcome, `GenerateSchema`
returns (the pool drawn from is never empty), and the SQL type of every field at an index
`≥ 1` is an element `t` of the pool in force, the fixed pool `getFieldTypePool` for an
empty hint list and the mapped hints otherwise, or, when `t` contains `VARCHAR` and its
size exceeds a cap `> 0`, the rewritten type `VARCHAR(<cap>)`. -/
theorem GenerateSchema_type_from_pool (S : Strings) (rnd : rand.Source) (m : DatabaseTypeMapper)
    (tableName : String) (fieldCount rowCount : Int) (fieldTypes : List String)
    (maxFieldSize : Int) :
    getFieldTypePool m ≠ []
    ∧ (fieldTypes ≠ [] → mapTemplateTypesToSQLTypes S m fieldTypes ≠ [])
    ∧ ∃ schema : SchemaDefinition,
      GenerateSchema S rnd m tableName fieldCount rowCount fieldTypes maxFieldSize = some schema
      ∧ ∀ (i : Nat) (f : FieldType), 1 ≤ i → schema.Fields[i]? = some f →
        ∃ t : String,
          ((fieldTypes = [] ∧ t ∈ getFieldTypePool m)
            ∨ (fieldTypes ≠ [] ∧ t ∈ mapTemplateTypesToSQLTypes S m fieldTypes
                ∧ ∃ h ∈ fieldTypes, mapTemplateTypesToSQLTypes S m [h] = [t]))
          ∧ (f.SQLType = t
            ∨ (0 < maxFieldSize ∧ maxFieldSize < getMaxSizeForType m t
                ∧ strings.Contains t "VARCHAR" = true
                ∧ f.SQLType = "VARCHAR(" ++ fmt.formatInt maxFieldSize ++ ")")) := by
  have hne : fieldTypes ≠ [] → mapTemplateTypesToSQLTypes S m fieldTypes ≠ [] := by
    intro h h0
    have := congrArg List.length h0
    rw [mapTemplateTypesToSQLTypes_eq_map, List.length_map] at this
    exact h (List.length_eq_zero.mp this)
  refine ⟨getFieldTypePool_ne_nil m, hne, ?_⟩
  obtain ⟨extra, h1, -, h3⟩ :=
    GenerateSchema_spec S rnd m tableName fieldCount rowCount fieldTypes maxFieldSize
  refine ⟨_, h1, ?_⟩
  intro i f hi hf
  obtain ⟨j, rfl⟩ : ∃ j, i = j + 1 := ⟨i - 1, by omega⟩
  simp only [List.getElem?_cons_succ] at hf
  obtain ⟨j2, t, ht, rfl⟩ := mem_extra_field h3 (List.getElem?_mem hf)
  refine ⟨t, ?_, field_SQLType_cases m maxFieldSize _ t _⟩
  unfold generateFields.typePool at ht
  by_cases hft : fieldTypes = []
  · subst hft
    exact Or.inl ⟨rfl, by simpa using ht⟩
  · have hlen : fieldTypes.length > 0 := List.length_pos.mpr hft
    rw [if_pos hlen] at ht
    refine Or.inr ⟨hft, ht, ?_⟩
    rw [mapTemplateTypesToSQLTypes_eq_map] at ht
    obtain ⟨h, hh, rfl⟩ := List.mem_map.mp ht
    exact ⟨h, hh, by rw [mapTemplateTypesToSQLTypes_eq_map]; rfl⟩

/-- Witness of C6: field 2 of a MySQL schema under the cap 100 is the pool element
`VARCHAR(1024)` rewritten to `VARCHAR(100)`. -/
theorem GenerateSchema_type_from_pool_witness :
    ∃ t : String, t ∈ getFieldTypePool ⟨"mysql"⟩
      ∧ (("VARCHAR(100)" : String) = t
        ∨ ((0 : Int) < 100 ∧ 100 < getMaxSizeForType ⟨"mysql"⟩ t
            ∧ strings.Contains t "VARCHAR" = true
            ∧ ("VARCHAR(100)" : String) = "VARCHAR(" ++ fmt.formatInt 100 ++ ")")) := by
  obtain ⟨-, -, s, h, hall⟩ := GenerateSchema_type_from_pool Strings.ascii
    ⟨fun i => 7 * i, fun _ => false⟩ ⟨"mysql"⟩ "t" 3 10 [] 100
  have he : GenerateSchema Strings.ascii ⟨fun i => 7 * i, fun _ => false⟩ ⟨"mysql"⟩ "t" 3 10 []
      100 = some ⟨"t", [⟨"id", "BIGINT", 0, false⟩, ⟨"col_1", "DECIMAL(10,2)", 0, false⟩,
                        ⟨"col_2", "VARCHAR(100)", 100, false⟩], 10⟩ := by decide
  rw [he] at h
  cases h
  obtain ⟨t, ht, hty⟩ := hall 2 ⟨"col_2", "VARCHAR(100)", 100, false⟩ (by decide) (by decide)
  rcases ht with ht | ht
  · exact ⟨t, ht.2, hty⟩
  · exact absurd rfl ht.1

end generators

/-! ## Properties of the tolerance check -/

namespace Float64

theorem log2_go_pow_le (k : Nat) : ∀ n : Nat, 0 < n → 2 ^ log2.go k n ≤ n := by
  induction k with
  | zero => intro n hn; simpa [log2.go] using hn
  | succ k ih =>
    intro n hn
    unfold log2.go
    split_ifs with h
    · simpa using hn
    · have h2 : 0 < n / 2 := Nat.div_pos (by omega) (by decide)
      have := ih (n / 2) h2
      rw [pow_succ]
      omega

theorem log2_pow_le (n : Nat) (hn : 0 < n) : 2 ^ log2 n ≤ n :=
  log2_go_pow_le n n hn

theorem scalePow2_div_pos (n : Nat) (hn : 0 < n) (e : Int) (he : e ≤ (log2 n : Int)) :
    0 < (scalePow2 n 1 e).1 / (scalePow2 n 1 e).2 := by
  unfold scalePow2
  split_ifs with h
  · dsimp only
    rw [one_mul]
    apply Nat.div_pos _ (by positivity)
    calc 2 ^ e.toNat ≤ 2 ^ log2 n := Nat.pow_le_pow_right (by decide) (by omega)
      _ ≤ n := log2_pow_le n hn
  · dsimp only
    rw [Nat.div_one]
    positivity

/-- The conversion of a non-zero integer is a finite non-zero value. -/
theorem ofInt_ne_zero (n : Int) (hn : n ≠ 0) :
    ∃ m e : Int, ofInt n = finite m e ∧ m ≠ 0 := by
  have hpos : 0 < n.natAbs := Int.natAbs_pos.mpr hn
  have hl1 : log2 1 = 0 := rfl
  unfold ofInt roundNearestEven
  rw [if_neg (by simp [hn])]
  dsimp only
  refine ⟨_, _, rfl, ?_⟩
  rw [hl1]
  set e : Int := if (scalePow2 n.natAbs 1 ((log2 n.natAbs : Int) - ((0 : Nat) : Int) - 52)).1
      < 2 ^ 52 * (scalePow2 n.natAbs 1 ((log2 n.natAbs : Int) - ((0 : Nat) : Int) - 52)).2
    then (log2 n.natAbs : Int) - ((0 : Nat) : Int) - 52 - 1
    else (log2 n.natAbs : Int) - ((0 : Nat) : Int) - 52 with he
  have hle : e ≤ (log2 n.natAbs : Int) := by
    rw [he]; split_ifs <;> omega
  have hq := scalePow2_div_pos n.natAbs hpos e hle
  split_ifs <;> omega

theorem roundNearestEven_zero (den : Nat) : roundNearestEven 0 den = finite 0 0 := by
  unfold roundNearestEven
  rw [if_pos (Or.inl rfl)]

theorem scalePow2_zero (d : Nat) (e : Int) : (scalePow2 0 d e).1 = 0 := by
  unfold scalePow2
  split_ifs <;> simp

/-- Zero divided by a finite non-zero value is zero. -/
theorem div_zero_left (m e : Int) (hm : m ≠ 0) : div (finite 0 0) (finite m e) = finite 0 0 := by
  simp only [div, if_neg hm]
  simp [scalePow2_zero, roundNearestEven_zero]

/-- Zero times a finite value is zero. -/
theorem mul_zero_left (m e : Int) : mul (finite 0 0) (finite m e) = finite 0 0 := by
  simp only [mul]
  simp [scalePow2_zero, roundNearestEven_zero]

end Float64

namespace testcases

/-- A row count equal to a non-zero expected count passes the tolerance check. -/
theorem withinTolerance_self (n : Int) (hn : n ≠ 0) : setup.withinTolerance n n = true := by
  obtain ⟨m, e, hme, hm⟩ := Float64.ofInt_ne_zero n hn
  have h100 : ∃ m2 e2 : Int, Float64.ofInt 100 = Float64.finite m2 e2 :=
    ⟨_, _, (Float64.ofInt_ne_zero 100 (by decide)).choose_spec.choose_spec.1⟩
  obtain ⟨m2, e2, h2⟩ := h100
  have h0 : Float64.ofInt (int64.wrap (n - n)) = Float64.finite 0 0 := by
    rw [sub_self]
    decide
  unfold setup.withinTolerance
  rw [h0, hme, Float64.div_zero_left m e hm, h2, Float64.mul_zero_left]
  decide

end testcases

namespace Float64

theorem log2_go_lt_pow (k : Nat) : ∀ n : Nat, n ≤ k → n < 2 ^ (log2.go k n + 1) := by
  induction k with
  | zero => intro n hn; simp [log2.go]; omega
  | succ k ih =>
    intro n hn
    unfold log2.go
    split_ifs with h
    · simpa using h
    · have h2 : n / 2 ≤ k := by omega
      have := ih (n / 2) h2
      rw [pow_succ]
      omega

theorem log2_lt_pow (n : Nat) : n < 2 ^ (log2 n + 1) := log2_go_lt_pow n n le_rfl

theorem scalePow2_ratio (n d : Nat) (e : Int) :
    ((scalePow2 n d e).1 : ℚ) / ((scalePow2 n d e).2 : ℚ)
      = (n : ℚ) / (d : ℚ) * (2 : ℚ) ^ (-e) := by
  unfold scalePow2
  split_ifs with h
  · dsimp only
    obtain ⟨k, rfl⟩ := Int.eq_ofNat_of_zero_le h
    rw [zpow_neg, zpow_natCast, Int.toNat_ofNat]
    push_cast
    rw [div_mul_eq_div_div, div_eq_mul_inv ((n : ℚ) / d)]
  · dsimp only
    obtain ⟨k, hk⟩ := Int.eq_ofNat_of_zero_le (show 0 ≤ -e by omega)
    rw [hk, zpow_natCast, Int.toNat_ofNat]
    push_cast
    ring

theorem scalePow2_fst_pos (n d : Nat) (e : Int) (hn : 0 < n) : 0 < (scalePow2 n d e).1 := by
  unfold scalePow2
  split_ifs
  · exact hn
  · dsimp only; positivity

theorem scalePow2_snd_pos (n d : Nat) (e : Int) (hd : 0 < d) : 0 < (scalePow2 n d e).2 := by
  unfold scalePow2
  split_ifs
  · dsimp only; positivity
  · exact hd

end Float64

namespace Float64

/-- The quotient of `n` by `den`, scaled by the first exponent that `roundNearestEven`
tries, lies strictly between `2 ^ 51` and `2 ^ 53`. -/
theorem scaled_bounds (n den : Nat) (hn : 0 < n) (hd : 0 < den) :
    (2 : ℚ) ^ 51 < (n : ℚ) / den * 2 ^ (-((log2 n : Int) - (log2 den : Int) - 52))
    ∧ (n : ℚ) / den * 2 ^ (-((log2 n : Int) - (log2 den : Int) - 52)) < 2 ^ 53 := by
  have hA1 : ((2 : ℚ) ^ log2 n) ≤ n := by exact_mod_cast log2_pow_le n hn
  have hA2 : (n : ℚ) < 2 * 2 ^ log2 n := by
    have := log2_lt_pow n
    rw [pow_succ] at this
    have h2 : ((n : ℕ) : ℚ) < ((2 ^ log2 n * 2 : ℕ) : ℚ) := by exact_mod_cast this
    push_cast at h2
    linarith
  have hB1 : ((2 : ℚ) ^ log2 den) ≤ den := by exact_mod_cast log2_pow_le den hd
  have hB2 : (den : ℚ) < 2 * 2 ^ log2 den := by
    have := log2_lt_pow den
    rw [pow_succ] at this
    have h2 : ((den : ℕ) : ℚ) < ((2 ^ log2 den * 2 : ℕ) : ℚ) := by exact_mod_cast this
    push_cast at h2
    linarith
  have hApos : (0 : ℚ) < 2 ^ log2 n := by positivity
  have hBpos : (0 : ℚ) < 2 ^ log2 den := by positivity
  have hnpos : (0 : ℚ) < n := by exact_mod_cast hn
  have hdpos : (0 : ℚ) < den := by exact_mod_cast hd
  have hexp : (2 : ℚ) ^ (-((log2 n : Int) - (log2 den : Int) - 52))
      = 2 ^ log2 den * 2 ^ 52 / 2 ^ log2 n := by
    rw [show -((log2 n : Int) - (log2 den : Int) - 52)
        = ((log2 den : Int) + ((52 : Nat) : Int)) - (log2 n : Int) by push_cast; ring,
      zpow_sub₀ (by norm_num), zpow_add₀ (by norm_num), zpow_natCast, zpow_natCast,
      zpow_natCast]
  rw [hexp]
  have hform : (n : ℚ) / den * (2 ^ log2 den * 2 ^ 52 / 2 ^ log2 n)
      = (n * 2 ^ log2 den) / (den * 2 ^ log2 n) * 2 ^ 52 := by
    field_simp
    ring
  rw [hform]
  have hden : (0 : ℚ) < den * 2 ^ log2 n := by positivity
  constructor
  · have : (1 : ℚ) / 2 < (n * 2 ^ log2 den) / (den * 2 ^ log2 n) := by
      rw [lt_div_iff₀ hden]
      nlinarith
    have h52 : (2 : ℚ) ^ 51 = 1 / 2 * 2 ^ 52 := by norm_num
    rw [h52]
    exact mul_lt_mul_of_pos_right this (by positivity)
  · have : (n * 2 ^ log2 den) / (den * 2 ^ log2 n) < (2 : ℚ) := by
      rw [div_lt_iff₀ hden]
      nlinarith
    have h53 : (2 : ℚ) ^ 53 = 2 * 2 ^ 52 := by norm_num
    rw [h53]
    exact mul_lt_mul_of_pos_right this (by positivity)

/-- Outcome of Go's rounding: for a non-zero quotient `roundNearestEven` returns a finite value
with the sign of `num` whose mantissa and exponent round `|num| / den`. -/
theorem roundNearestEven_spec (num : Int) (den : Nat) (hn : num ≠ 0) (hd : den ≠ 0) :
    ∃ (q : Nat) (e : Int),
      roundNearestEven num den = finite (if num < 0 then -(q : Int) else (q : Int)) e
      ∧ roundsTo ((num.natAbs : ℚ) / den) q e := by
  have hnpos : 0 < num.natAbs := Int.natAbs_pos.mpr hn
  have hdpos : 0 < den := Nat.pos_of_ne_zero hd
  obtain ⟨hb1, hb2⟩ := scaled_bounds num.natAbs den hnpos hdpos
  unfold roundNearestEven
  rw [if_neg (by simp [hn, hd])]
  dsimp only
  set e0 : Int := (log2 num.natAbs : Int) - (log2 den : Int) - 52 with he0
  set e : Int := if (scalePow2 num.natAbs den e0).1 < 2 ^ 52 * (scalePow2 num.natAbs den e0).2
    then e0 - 1 else e0 with he
  set x : ℚ := (num.natAbs : ℚ) / den with hx
  have hs0pos : (0 : ℚ) < ((scalePow2 num.natAbs den e0).2 : ℚ) := by
    exact_mod_cast scalePow2_snd_pos num.natAbs den e0 hdpos
  have htest : (scalePow2 num.natAbs den e0).1 < 2 ^ 52 * (scalePow2 num.natAbs den e0).2
      ↔ x * 2 ^ (-e0) < 2 ^ 52 := by
    rw [← scalePow2_ratio, div_lt_iff₀ hs0pos]
    constructor
    · intro h; exact_mod_cast h
    · intro h; exact_mod_cast h
  have hnorm : (2 : ℚ) ^ 52 ≤ x * 2 ^ (-e) ∧ x * 2 ^ (-e) < 2 ^ 53 := by
    by_cases hc : (scalePow2 num.natAbs den e0).1 < 2 ^ 52 * (scalePow2 num.natAbs den e0).2
    · have hlt := htest.mp hc
      have hee : e = e0 - 1 := by rw [he, if_pos hc]
      have h2 : (2 : ℚ) ^ (-e) = 2 * 2 ^ (-e0) := by
        rw [hee, show -(e0 - 1) = 1 + -e0 by ring, zpow_add₀ (by norm_num), zpow_one]
      rw [h2]
      constructor
      · have h52 : (2 : ℚ) ^ 52 = 2 * 2 ^ 51 := by norm_num
        rw [h52]; linarith
      · have h53 : (2 : ℚ) ^ 53 = 2 * 2 ^ 52 := by norm_num
        rw [h53]; linarith
    · have hge : ¬ x * 2 ^ (-e0) < 2 ^ 52 := fun h => hc (htest.mpr h)
      have hee : e = e0 := by rw [he, if_neg hc]
      rw [hee]
      exact ⟨not_lt.mp hge, hb2⟩
  set s := scalePow2 num.natAbs den e with hs
  have hspos : 0 < s.2 := scalePow2_snd_pos num.natAbs den e hdpos
  have hsposq : (0 : ℚ) < (s.2 : ℚ) := by exact_mod_cast hspos
  have hS : x * 2 ^ (-e) = (s.1 / s.2 : ℕ) + ((s.1 % s.2 : ℕ) : ℚ) / s.2 := by
    rw [← scalePow2_ratio, ← hs]
    have := Nat.div_add_mod s.1 s.2
    have h2 : (s.1 : ℚ) = (s.2 : ℚ) * ((s.1 / s.2 : ℕ) : ℚ) + ((s.1 % s.2 : ℕ) : ℚ) := by
      exact_mod_cast this.symm
    rw [div_eq_iff (ne_of_gt hsposq), add_mul, div_mul_cancel₀ _ (ne_of_gt hsposq)]
    linarith
  have hrlt : ((s.1 % s.2 : ℕ) : ℚ) < s.2 := by exact_mod_cast Nat.mod_lt s.1 hspos
  have hr0 : (0 : ℚ) ≤ ((s.1 % s.2 : ℕ) : ℚ) := by positivity
  refine ⟨_, e, rfl, hnorm.1, hnorm.2, ?_⟩
  rw [hS]
  split_ifs with hup
  · have h2r : s.2 ≤ 2 * (s.1 % s.2) := by
      rcases hup with h | ⟨h, -⟩
      · omega
      · omega
    have h2rq : (s.2 : ℚ) ≤ 2 * ((s.1 % s.2 : ℕ) : ℚ) := by exact_mod_cast h2r
    have hfrac : (1 : ℚ) / 2 ≤ ((s.1 % s.2 : ℕ) : ℚ) / s.2 := by
      rw [le_div_iff₀ hsposq]; linarith
    have hfrac2 : ((s.1 % s.2 : ℕ) : ℚ) / s.2 < 1 := by
      rw [div_lt_one hsposq]; exact hrlt
    push_cast
    rw [abs_le]
    constructor <;> linarith
  · have h2r : 2 * (s.1 % s.2) ≤ s.2 := by
      by_contra hcon
      exact hup (Or.inl (by omega))
    have h2rq : 2 * ((s.1 % s.2 : ℕ) : ℚ) ≤ (s.2 : ℚ) := by exact_mod_cast h2r
    have hfrac : ((s.1 % s.2 : ℕ) : ℚ) / s.2 ≤ 1 / 2 := by
      rw [div_le_iff₀ hsposq]; linarith
    have hfrac2 : 0 ≤ ((s.1 % s.2 : ℕ) : ℚ) / s.2 := by positivity
    rw [abs_le]
    constructor <;> linarith

end Float64

namespace Float64

/-- A rounding of `x` is at least `K * 2 ^ E` when `x` lies above the midpoint below that
value. -/
theorem roundsTo_lower (x : ℚ) (q : Nat) (e : Int) (hr : roundsTo x q e)
    (K : Nat) (E : Int) (hK1 : 2 ^ 52 < K) (hK2 : K ≤ 2 ^ 53)
    (h : ((K : ℚ) - 1 / 2) * 2 ^ E < x) :
    (K : ℚ) * 2 ^ E ≤ (q : ℚ) * 2 ^ e := by
  obtain ⟨h1, h2, h3⟩ := hr
  rw [abs_le] at h3
  have hK1q : (2 : ℚ) ^ 52 + 1 ≤ K := by exact_mod_cast hK1
  have hK2q : (K : ℚ) ≤ 2 ^ 53 := by exact_mod_cast hK2
  have hEpos : (0 : ℚ) < 2 ^ E := by positivity
  have hepos : (0 : ℚ) < 2 ^ (-e) := by positivity
  have hmul : ((K : ℚ) - 1 / 2) * 2 ^ (E - e) < x * 2 ^ (-e) := by
    rw [sub_eq_add_neg E e, zpow_add₀ (by norm_num), ← mul_assoc]
    exact mul_lt_mul_of_pos_right h hepos
  rcases lt_trichotomy e E with hlt | heq | hgt
  · exfalso
    have hp : (2 : ℚ) ^ (1 : Int) ≤ 2 ^ (E - e) :=
      zpow_le_zpow_right₀ (by norm_num) (by omega)
    rw [zpow_one] at hp
    have hK : (0 : ℚ) < (K : ℚ) - 1 / 2 := by linarith [show (0 : ℚ) < 2 ^ 52 by positivity]
    have : ((K : ℚ) - 1 / 2) * 2 ≤ ((K : ℚ) - 1 / 2) * 2 ^ (E - e) :=
      mul_le_mul_of_nonneg_left hp hK.le
    have h53 : (2 : ℚ) ^ 53 = 2 * 2 ^ 52 := by norm_num
    linarith
  · subst heq
    rw [sub_self, zpow_zero, mul_one] at hmul
    have hq : (K : ℚ) < (q : ℚ) + 1 := by linarith
    have hq2 : K < q + 1 := by exact_mod_cast hq
    have hq3 : (K : ℚ) ≤ q := by exact_mod_cast Nat.lt_succ_iff.mp hq2
    exact mul_le_mul_of_nonneg_right hq3 (by positivity)
  · have hq : (2 : ℚ) ^ 52 < (q : ℚ) + 1 := by linarith
    have hq2 : 2 ^ 52 < q + 1 := by exact_mod_cast hq
    have hq3 : (2 : ℚ) ^ 52 ≤ q := by exact_mod_cast Nat.lt_succ_iff.mp hq2
    have hp : (2 : ℚ) ^ (E + 1) ≤ 2 ^ e := zpow_le_zpow_right₀ (by norm_num) (by omega)
    rw [zpow_add₀ (by norm_num), zpow_one] at hp
    have h53 : (2 : ℚ) ^ 53 = 2 ^ 52 * 2 := by norm_num
    calc (K : ℚ) * 2 ^ E ≤ 2 ^ 53 * 2 ^ E := mul_le_mul_of_nonneg_right hK2q hEpos.le
      _ = 2 ^ 52 * (2 ^ E * 2) := by rw [h53]; ring
      _ ≤ 2 ^ 52 * 2 ^ e := mul_le_mul_of_nonneg_left hp (by positivity)
      _ ≤ (q : ℚ) * 2 ^ e := mul_le_mul_of_nonneg_right hq3 (by positivity)

/-- A rounding of `x` is at most `K * 2 ^ E` when `x` lies below the midpoint above that
value. -/
theorem roundsTo_upper (x : ℚ) (q : Nat) (e : Int) (hr : roundsTo x q e)
    (K : Nat) (E : Int) (hK1 : 2 ^ 52 ≤ K) (hK2 : K < 2 ^ 53)
    (h : x < ((K : ℚ) + 1 / 2) * 2 ^ E) :
    (q : ℚ) * 2 ^ e ≤ (K : ℚ) * 2 ^ E := by
  obtain ⟨h1, h2, h3⟩ := hr
  rw [abs_le] at h3
  have hK1q : (2 : ℚ) ^ 52 ≤ K := by exact_mod_cast hK1
  have hK2q : (K : ℚ) + 1 ≤ 2 ^ 53 := by exact_mod_cast hK2
  have hEpos : (0 : ℚ) < 2 ^ E := by positivity
  have hepos : (0 : ℚ) < 2 ^ (-e) := by positivity
  have hmul : x * 2 ^ (-e) < ((K : ℚ) + 1 / 2) * 2 ^ (E - e) := by
    rw [sub_eq_add_neg E e, zpow_add₀ (by norm_num), ← mul_assoc]
    exact mul_lt_mul_of_pos_right h hepos
  rcases lt_trichotomy e E with hlt | heq | hgt
  · have hq : (q : ℚ) < 2 ^ 53 + 1 := by linarith
    have hq2 : q < 2 ^ 53 + 1 := by exact_mod_cast hq
    have hq3 : (q : ℚ) ≤ 2 ^ 53 := by exact_mod_cast Nat.lt_succ_iff.mp hq2
    have hp : (2 : ℚ) ^ (e + 1) ≤ 2 ^ E := zpow_le_zpow_right₀ (by norm_num) (by omega)
    rw [zpow_add₀ (by norm_num), zpow_one] at hp
    have h53 : (2 : ℚ) ^ 53 = 2 ^ 52 * 2 := by norm_num
    calc (q : ℚ) * 2 ^ e ≤ 2 ^ 53 * 2 ^ e := mul_le_mul_of_nonneg_right hq3 (by positivity)
      _ = 2 ^ 52 * (2 ^ e * 2) := by rw [h53]; ring
      _ ≤ 2 ^ 52 * 2 ^ E := mul_le_mul_of_nonneg_left hp (by positivity)
      _ ≤ (K : ℚ) * 2 ^ E := mul_le_mul_of_nonneg_right hK1q hEpos.le
  · subst heq
    rw [sub_self, zpow_zero, mul_one] at hmul
    have hq : (q : ℚ) < (K : ℚ) + 1 := by linarith
    have hq2 : q < K + 1 := by exact_mod_cast hq
    have hq3 : (q : ℚ) ≤ K := by exact_mod_cast Nat.lt_succ_iff.mp hq2
    exact mul_le_mul_of_nonneg_right hq3 (by positivity)
  · exfalso
    have hp : (2 : ℚ) ^ (E - e) ≤ 2 ^ (-1 : Int) :=
      zpow_le_zpow_right₀ (by norm_num) (by omega)
    have hhalf : (2 : ℚ) ^ (-1 : Int) = 1 / 2 := by norm_num
    rw [hhalf] at hp
    have hK : (0 : ℚ) < (K : ℚ) + 1 / 2 := by positivity
    have : ((K : ℚ) + 1 / 2) * 2 ^ (E - e) ≤ ((K : ℚ) + 1 / 2) * (1 / 2) :=
      mul_le_mul_of_nonneg_left hp hK.le
    have h53 : (2 : ℚ) ^ 53 = 2 * 2 ^ 52 := by norm_num
    linarith

/-- The mantissa of a rounding is positive. -/
theorem roundsTo_pos (x : ℚ) (q : Nat) (e : Int) (hr : roundsTo x q e) : 0 < q := by
  obtain ⟨h1, h2, h3⟩ := hr
  rw [abs_le] at h3
  have hq : (0 : ℚ) < q := by linarith [show (1 : ℚ) ≤ 2 ^ 52 by norm_num]
  exact_mod_cast hq

/-- Comparison of finite values is comparison of the rationals they denote. -/
theorem le_finite_iff (m1 e1 m2 e2 : Int) :
    le (finite m1 e1) (finite m2 e2) = true ↔ (m1 : ℚ) * 2 ^ e1 ≤ (m2 : ℚ) * 2 ^ e2 := by
  simp only [le, decide_eq_true_eq]
  set e := min e1 e2 with he
  have h1 : 0 ≤ e1 - e := by have := min_le_left e1 e2; omega
  have h2 : 0 ≤ e2 - e := by have := min_le_right e1 e2; omega
  obtain ⟨k1, hk1⟩ := Int.eq_ofNat_of_zero_le h1
  obtain ⟨k2, hk2⟩ := Int.eq_ofNat_of_zero_le h2
  rw [hk1, hk2, Int.toNat_ofNat, Int.toNat_ofNat]
  have he1 : e1 = e + k1 := by omega
  have he2 : e2 = e + k2 := by omega
  have hepos : (0 : ℚ) < 2 ^ e := by positivity
  have hl : (m1 : ℚ) * 2 ^ e1 = ((m1 * 2 ^ k1 : Int) : ℚ) * 2 ^ e := by
    rw [he1, zpow_add₀ (by norm_num), zpow_natCast]; push_cast; ring
  have hr : (m2 : ℚ) * 2 ^ e2 = ((m2 * 2 ^ k2 : Int) : ℚ) * 2 ^ e := by
    rw [he2, zpow_add₀ (by norm_num), zpow_natCast]; push_cast; ring
  rw [hl, hr, mul_le_mul_right hepos, Int.cast_le]

end Float64

namespace Float64

/-- The conversion of a non-zero integer below `2 ^ 53` in magnitude is exact. -/
theorem ofInt_exact (n : Int) (hn : n ≠ 0) (hb : n.natAbs < 2 ^ 53) :
    ∃ (q : Nat) (e : Int),
      ofInt n = finite (if n < 0 then -(q : Int) else (q : Int)) e
      ∧ (q : ℚ) * 2 ^ e = n.natAbs ∧ 0 < q := by
  obtain ⟨q, e, h1, hr⟩ := roundNearestEven_spec n 1 hn (by decide)
  refine ⟨q, e, h1, ?_, roundsTo_pos _ _ _ hr⟩
  obtain ⟨h2, h3, h4⟩ := hr
  rw [Nat.cast_one, div_one] at h2 h3 h4
  have hbq : (n.natAbs : ℚ) < 2 ^ 53 := by exact_mod_cast hb
  have hn0 : (0 : ℚ) ≤ (n.natAbs : ℚ) := by positivity
  have he : e ≤ 0 := by
    by_contra hc
    have hp : (2 : ℚ) ^ (-e) ≤ 2 ^ (-1 : Int) := zpow_le_zpow_right₀ (by norm_num) (by omega)
    have hhalf : (2 : ℚ) ^ (-1 : Int) = 1 / 2 := by norm_num
    rw [hhalf] at hp
    have : (n.natAbs : ℚ) * 2 ^ (-e) ≤ (n.natAbs : ℚ) * (1 / 2) :=
      mul_le_mul_of_nonneg_left hp hn0
    have h53 : (2 : ℚ) ^ 53 = 2 * 2 ^ 52 := by norm_num
    linarith
  obtain ⟨k, hk⟩ := Int.eq_ofNat_of_zero_le (show 0 ≤ -e by omega)
  rw [hk, zpow_natCast, abs_le] at h4
  have hN : ((n.natAbs * 2 ^ k : ℕ) : ℚ) = (n.natAbs : ℚ) * 2 ^ k := by push_cast; ring
  rw [← hN] at h4
  have ha : n.natAbs * 2 ^ k < q + 1 := by
    have : ((n.natAbs * 2 ^ k : ℕ) : ℚ) < (q : ℚ) + 1 := by linarith
    exact_mod_cast this
  have hb2 : q < n.natAbs * 2 ^ k + 1 := by
    have : (q : ℚ) < ((n.natAbs * 2 ^ k : ℕ) : ℚ) + 1 := by linarith
    exact_mod_cast this
  have hq : q = n.natAbs * 2 ^ k := by omega
  have he2 : e = -(k : Int) := by omega
  rw [he2, zpow_neg, zpow_natCast, hq]
  push_cast
  field_simp

/-- Rounding of a signed quotient with a positive numerator magnitude. -/
theorem roundNearestEven_signed (c : Prop) [Decidable c] (s d : Nat) (hs : 0 < s)
    (hd : 0 < d) :
    ∃ (q : Nat) (e : Int),
      roundNearestEven (if c then -(s : Int) else (s : Int)) d
        = finite (if c then -(q : Int) else (q : Int)) e
      ∧ roundsTo ((s : ℚ) / d) q e := by
  by_cases h : c
  · obtain ⟨q, e, h1, h2⟩ := roundNearestEven_spec (-(s : Int)) d (by omega) (by omega)
    refine ⟨q, e, ?_, ?_⟩
    · rw [if_pos h, if_pos h, h1, if_pos (by omega)]
    · simpa using h2
  · obtain ⟨q, e, h1, h2⟩ := roundNearestEven_spec (s : Int) d (by omega) (by omega)
    refine ⟨q, e, ?_, ?_⟩
    · rw [if_neg h, if_neg h, h1, if_neg (by omega)]
    · simpa using h2

/-- Quotient of a signed non-zero finite value by a positive one: the result has the
sign of the dividend and rounds the quotient of the magnitudes. -/
theorem div_spec (c : Prop) [Decidable c] (q1 q2 : Nat) (e1 e2 : Int) (h1 : 0 < q1)
    (h2 : 0 < q2) :
    ∃ (q : Nat) (e : Int),
      div (finite (if c then -(q1 : Int) else (q1 : Int)) e1) (finite (q2 : Int) e2)
        = finite (if c then -(q : Int) else (q : Int)) e
      ∧ roundsTo (((q1 : ℚ) * 2 ^ e1) / ((q2 : ℚ) * 2 ^ e2)) q e := by
  obtain ⟨q, e, h3, h4⟩ := roundNearestEven_signed c
    (scalePow2 q1 q2 (e2 - e1)).1 (scalePow2 q1 q2 (e2 - e1)).2
    (scalePow2_fst_pos _ _ _ h1) (scalePow2_snd_pos _ _ _ h2)
  refine ⟨q, e, ?_, ?_⟩
  · rw [← h3]
    have hq2 : ¬ ((q2 : Int) = 0) := by omega
    have hq2n : ¬ ((q2 : Int) < 0) := by omega
    simp only [div, if_neg hq2, if_neg hq2n]
    by_cases h : c
    · simp only [if_pos h]
      rw [if_pos (by omega)]
      simp
    · simp only [if_neg h]
      rw [if_neg (by omega)]
      simp
  · rw [scalePow2_ratio] at h4
    have : (q1 : ℚ) / q2 * 2 ^ (-(e2 - e1)) = ((q1 : ℚ) * 2 ^ e1) / ((q2 : ℚ) * 2 ^ e2) := by
      rw [show -(e2 - e1) = e1 - e2 by ring, zpow_sub₀ (by norm_num)]
      have hq2 : (q2 : ℚ) ≠ 0 := by positivity
      have hp : (2 : ℚ) ^ e2 ≠ 0 := by positivity
      field_simp
    rw [← this]
    exact h4

/-- Product of a signed non-zero finite value and a positive one: the result has the
sign of the first factor and rounds the product of the magnitudes. -/
theorem mul_spec (c : Prop) [Decidable c] (q1 q2 : Nat) (e1 e2 : Int) (h1 : 0 < q1)
    (h2 : 0 < q2) :
    ∃ (q : Nat) (e : Int),
      mul (finite (if c then -(q1 : Int) else (q1 : Int)) e1) (finite (q2 : Int) e2)
        = finite (if c then -(q : Int) else (q : Int)) e
      ∧ roundsTo (((q1 : ℚ) * 2 ^ e1) * ((q2 : ℚ) * 2 ^ e2)) q e := by
  have hpos : 0 < q1 * q2 := Nat.mul_pos h1 h2
  obtain ⟨q, e, h3, h4⟩ := roundNearestEven_signed c
    (scalePow2 (q1 * q2) 1 (-(e1 + e2))).1 (scalePow2 (q1 * q2) 1 (-(e1 + e2))).2
    (scalePow2_fst_pos _ _ _ hpos) (scalePow2_snd_pos _ _ _ (by decide))
  refine ⟨q, e, ?_, ?_⟩
  · rw [← h3]
    simp only [mul]
    have hposz : (0 : Int) < (q1 : Int) * (q2 : Int) := by exact_mod_cast hpos
    by_cases h : c
    · simp only [if_pos h]
      have hneg : -(q1 : Int) * (q2 : Int) < 0 := by linarith
      have hab : (-(q1 : Int) * (q2 : Int)).natAbs = q1 * q2 := by
        rw [neg_mul, Int.natAbs_neg]; exact_mod_cast Int.natAbs_ofNat (q1 * q2)
      rw [if_pos hneg, hab]
    · simp only [if_neg h]
      have hneg : ¬ ((q1 : Int) * (q2 : Int) < 0) := by linarith
      have hab : ((q1 : Int) * (q2 : Int)).natAbs = q1 * q2 := by
        exact_mod_cast Int.natAbs_ofNat (q1 * q2)
      rw [if_neg hneg, hab]
  · rw [scalePow2_ratio] at h4
    have : ((q1 * q2 : ℕ) : ℚ) / ((1 : ℕ) : ℚ) * 2 ^ (-(-(e1 + e2)))
        = ((q1 : ℚ) * 2 ^ e1) * ((q2 : ℚ) * 2 ^ e2) := by
      rw [neg_neg, zpow_add₀ (by norm_num)]
      push_cast
      ring
    rw [← this]
    exact h4

end Float64

namespace Float64

/-- The conversion of an integer of magnitude `2 ^ 53` or more is a finite value of
magnitude at least `2 ^ 53`. -/
theorem ofInt_large (n : Int) (hb : 2 ^ 53 ≤ n.natAbs) :
    ∃ (q : Nat) (e : Int),
      ofInt n = finite (if n < 0 then -(q : Int) else (q : Int)) e
      ∧ (2 : ℚ) ^ 53 ≤ (q : ℚ) * 2 ^ e ∧ 0 < q := by
  have hn : n ≠ 0 := by
    rintro rfl
    simp at hb
  obtain ⟨q, e, h1, hr⟩ := roundNearestEven_spec n 1 hn (by decide)
  refine ⟨q, e, h1, ?_, roundsTo_pos _ _ _ hr⟩
  have hbq : (2 : ℚ) ^ 53 ≤ (n.natAbs : ℚ) := by exact_mod_cast hb
  have := roundsTo_lower _ q e hr (2 ^ 53) 0 (by norm_num) le_rfl (by
    rw [zpow_zero, mul_one, Nat.cast_one, div_one]
    push_cast
    linarith)
  rw [zpow_zero, mul_one] at this
  push_cast at this
  exact this

end Float64

namespace testcases

/-- The value that the tolerance check of `setup` compares, for an expected count `n` of
at most `7 * 10 ^ 15` rows and a different observed count `a` of the `int64` range: the
conversion `float64(a - n)` has magnitude `v`, equal to `|a - n|` below `2 ^ 53` and at
least `2 ^ 53` otherwise, the quotient is a rounding of `v / n` and the product a rounding
of one hundred times that quotient, with the sign of `a - n`. -/
theorem withinTolerance_diff (a n : Int) (hn : 0 < n) (hnb : n ≤ 7000000000000000)
    (ha : 0 ≤ a) (hab : a ≤ 9223372036854775807) (hne : a ≠ n) :
    ∃ (v : ℚ) (q3 : Nat) (e3 : Int) (q4 : Nat) (e4 : Int),
      ((a - n).natAbs < 2 ^ 53 → v = (a - n).natAbs)
      ∧ (2 ^ 53 ≤ (a - n).natAbs → (2 : ℚ) ^ 53 ≤ v)
      ∧ Float64.roundsTo (v / (n.natAbs : ℚ)) q3 e3
      ∧ Float64.roundsTo ((q3 : ℚ) * 2 ^ e3 * 100) q4 e4
      ∧ Float64.mul
          (Float64.div (Float64.ofInt (int64.wrap (a - n))) (Float64.ofInt n))
          (Float64.ofInt 100)
        = Float64.finite (if a - n < 0 then -(q4 : Int) else (q4 : Int)) e4 := by
  have hw : int64.wrap (a - n) = a - n := by
    unfold int64.wrap
    omega
  have h53 : (2 : ℕ) ^ 53 = 9007199254740992 := by norm_num
  have hd : ∃ (q1 : Nat) (e1 : Int),
      Float64.ofInt (a - n)
        = Float64.finite (if a - n < 0 then -(q1 : Int) else (q1 : Int)) e1
      ∧ 0 < q1
      ∧ ((a - n).natAbs < 2 ^ 53 → (q1 : ℚ) * 2 ^ e1 = (a - n).natAbs)
      ∧ (2 ^ 53 ≤ (a - n).natAbs → (2 : ℚ) ^ 53 ≤ (q1 : ℚ) * 2 ^ e1) := by
    by_cases hsmall : (a - n).natAbs < 2 ^ 53
    · obtain ⟨q1, e1, hd1, hv1, hq1⟩ :=
        Float64.ofInt_exact (a - n) (sub_ne_zero.mpr hne) hsmall
      exact ⟨q1, e1, hd1, hq1, fun _ => hv1, fun h => absurd hsmall (not_lt.mpr h)⟩
    · obtain ⟨q1, e1, hd1, hv1, hq1⟩ := Float64.ofInt_large (a - n) (not_lt.mp hsmall)
      exact ⟨q1, e1, hd1, hq1, fun h => absurd h hsmall, fun _ => hv1⟩
  obtain ⟨q1, e1, hd1, hq1, hv1, hv1b⟩ := hd
  obtain ⟨q2, e2, hd2, hv2, hq2⟩ := Float64.ofInt_exact n (ne_of_gt hn) (by rw [h53]; omega)
  rw [if_neg (not_lt.mpr hn.le)] at hd2
  obtain ⟨q3, e3, h3, hr3⟩ := Float64.div_spec (a - n < 0) q1 q2 e1 e2 hq1 hq2
  rw [hv2] at hr3
  have h100 : Float64.ofInt 100 = Float64.finite ((7036874417766400 : ℕ) : Int) (-46) := by
    decide
  obtain ⟨q4, e4, h4, hr4⟩ := Float64.mul_spec (a - n < 0) q3 7036874417766400 e3 (-46)
    (Float64.roundsTo_pos _ _ _ hr3) (by norm_num)
  have hprod : (q3 : ℚ) * 2 ^ e3 * (((7036874417766400 : ℕ) : ℚ) * 2 ^ (-46 : Int))
      = (q3 : ℚ) * 2 ^ e3 * 100 := by
    have : (((7036874417766400 : ℕ) : ℚ) * 2 ^ (-46 : Int)) = 100 := by norm_num
    rw [this]
  rw [hprod] at hr4
  refine ⟨(q1 : ℚ) * 2 ^ e1, q3, e3, q4, e4, hv1, hv1b, hr3, hr4, ?_⟩
  rw [hw, hd1, hd2, h3, h100, h4]

/-- An observed count more than 0.1% away from the expected count fails the tolerance
check, for an expected count of at most `7 * 10 ^ 15` rows and every non-negative
observed count of the `int64` range. -/
theorem withinTolerance_outside (a n : Int) (hn : 0 < n) (hnb : n ≤ 7000000000000000)
    (ha : 0 ≤ a) (hab : a ≤ 9223372036854775807) (h : n < |a - n| * 1000) :
    setup.withinTolerance a n = false := by
  have hne : a ≠ n := by
    rintro rfl
    simp at h
    omega
  obtain ⟨v, q3, e3, q4, e4, hv1, hv2, hr3, hr4, hdiff⟩ :=
    withinTolerance_diff a n hn hnb ha hab hne
  have hN : ((n.natAbs : ℕ) : ℚ) ≤ 7000000000000000 := by
    have : n.natAbs ≤ 7000000000000000 := by omega
    exact_mod_cast this
  have hNpos : (0 : ℚ) < ((n.natAbs : ℕ) : ℚ) := by
    have : 0 < n.natAbs := by omega
    exact_mod_cast this
  have hD : ((n.natAbs : ℕ) : ℚ) + 1 ≤ (((a - n).natAbs : ℕ) : ℚ) * 1000 := by
    have : n.natAbs + 1 ≤ (a - n).natAbs * 1000 := by
      rw [Int.abs_eq_natAbs] at h
      omega
    exact_mod_cast this
  have h62 : (2 : ℚ) ^ (-62 : Int) = 1 / 4611686018427387904 := by norm_num
  have h56 : (2 : ℚ) ^ (-56 : Int) = 1 / 72057594037927936 := by norm_num
  have hv : ((n.natAbs : ℕ) : ℚ) + 1 ≤ v * 1000 := by
    by_cases hsmall : (a - n).natAbs < 2 ^ 53
    · rw [hv1 hsmall]; exact hD
    · have := hv2 (not_lt.mp hsmall)
      have h53 : (2 : ℚ) ^ 53 = 9007199254740992 := by norm_num
      rw [h53] at this
      linarith
  have hq3 := Float64.roundsTo_lower _ q3 e3 hr3 4611686018427389 (-62) (by norm_num)
    (by norm_num) (by
      rw [lt_div_iff₀ hNpos, h62]
      push_cast
      linarith)
  have hq4 := Float64.roundsTo_lower _ q4 e4 hr4 7205759403792795 (-56) (by norm_num)
    (by norm_num) (by
      rw [h62] at hq3
      rw [h56]
      push_cast at hq3 ⊢
      linarith)
  rw [h56] at hq4
  push_cast at hq4
  have hc1 : Float64.ofRatio 1 10 = Float64.finite 7205759403792794 (-56) := by decide
  have hc2 : Float64.ofRatio (-1) 10 = Float64.finite (-7205759403792794) (-56) := by decide
  unfold setup.withinTolerance
  dsimp only
  rw [hdiff, hc1, hc2]
  by_cases hneg : a - n < 0
  · rw [if_pos hneg]
    have : Float64.ge (Float64.finite (-(q4 : Int)) e4)
        (Float64.finite (-7205759403792794) (-56)) = false := by
      rw [Bool.eq_false_iff]
      intro hle
      unfold Float64.ge at hle
      rw [Float64.le_finite_iff, h56] at hle
      push_cast at hle
      linarith
    rw [this, Bool.false_and]
  · rw [if_neg hneg]
    have : Float64.le (Float64.finite (q4 : Int) e4)
        (Float64.finite 7205759403792794 (-56)) = false := by
      rw [Bool.eq_false_iff]
      intro hle
      rw [Float64.le_finite_iff, h56] at hle
      push_cast at hle
      linarith
    rw [this, Bool.and_false]

/-- An observed count within 0.1% of the expected count passes the tolerance check, for
an expected count of at most `7 * 10 ^ 15` rows. -/
theorem withinTolerance_inside (a n : Int) (hn : 0 < n) (hnb : n ≤ 7000000000000000)
    (h : |a - n| * 1000 ≤ n) :
    setup.withinTolerance a n = true := by
  by_cases hne : a = n
  · rw [hne]
    exact withinTolerance_self n (ne_of_gt hn)
  have hnat : (a - n).natAbs * 1000 ≤ n.natAbs := by
    rw [Int.abs_eq_natAbs] at h
    omega
  have ha : 0 ≤ a := by omega
  have hab : a ≤ 9223372036854775807 := by omega
  obtain ⟨v, q3, e3, q4, e4, hv1, -, hr3, hr4, hdiff⟩ :=
    withinTolerance_diff a n hn hnb ha hab hne
  have hsmall : (a - n).natAbs < 2 ^ 53 := by
    have h53 : (2 : ℕ) ^ 53 = 9007199254740992 := by norm_num
    rw [h53]
    omega
  rw [hv1 hsmall] at hr3
  have hNpos : (0 : ℚ) < ((n.natAbs : ℕ) : ℚ) := by
    have : 0 < n.natAbs := by omega
    exact_mod_cast this
  have hD : (((a - n).natAbs : ℕ) : ℚ) * 1000 ≤ ((n.natAbs : ℕ) : ℚ) := by
    exact_mod_cast hnat
  have h62 : (2 : ℚ) ^ (-62 : Int) = 1 / 4611686018427387904 := by norm_num
  have h56 : (2 : ℚ) ^ (-56 : Int) = 1 / 72057594037927936 := by norm_num
  have hq3 := Float64.roundsTo_upper _ q3 e3 hr3 4611686018427388 (-62) (by norm_num)
    (by norm_num) (by
      rw [div_lt_iff₀ hNpos, h62]
      push_cast
      linarith)
  have hq4 := Float64.roundsTo_upper _ q4 e4 hr4 7205759403792794 (-56) (by norm_num)
    (by norm_num) (by
      rw [h62] at hq3
      rw [h56]
      push_cast at hq3 ⊢
      linarith)
  rw [h56] at hq4
  push_cast at hq4
  have hq4pos : (0 : ℚ) ≤ (q4 : ℚ) * 2 ^ e4 := by positivity
  have hc1 : Float64.ofRatio 1 10 = Float64.finite 7205759403792794 (-56) := by decide
  have hc2 : Float64.ofRatio (-1) 10 = Float64.finite (-7205759403792794) (-56) := by decide
  unfold setup.withinTolerance
  dsimp only
  rw [hdiff, hc1, hc2, Bool.and_eq_true]
  unfold Float64.ge
  rw [Float64.le_finite_iff, Float64.le_finite_iff, h56]
  by_cases hneg : a - n < 0
  · rw [if_pos hneg]
    push_cast
    constructor <;> linarith
  · rw [if_neg hneg]
    push_cast
    constructor <;> linarith

end testcases

/-! ## Properties of the orchestrator -/

namespace testcases

theorem resolveNames_tableName (te : TestExecutor) :
    (setup.resolveNames te).tableName = resolvedTableName te := by
  unfold setup.resolveNames resolvedTableName
  by_cases h1 : te.template.Schema.TableName = "" <;>
    by_cases h2 : te.template.Schema.AssetName = "" <;> simp [h1, h2]

theorem resolveNames_assetName (te : TestExecutor) :
    (setup.resolveNames te).assetName = resolvedAssetName te := by
  unfold setup.resolveNames resolvedAssetName
  by_cases h1 : te.template.Schema.TableName = "" <;>
    by_cases h2 : te.template.Schema.AssetName = "" <;> simp [h1, h2]

theorem resolveNames_template (te : TestExecutor) :
    (setup.resolveNames te).template = te.template := by
  unfold setup.resolveNames
  by_cases h1 : te.template.Schema.TableName = "" <;>
    by_cases h2 : te.template.Schema.AssetName = "" <;> simp [h1, h2]

theorem resolveNames_strategy (te : TestExecutor) :
    (setup.resolveNames te).strategy = te.strategy := by
  unfold setup.resolveNames
  by_cases h1 : te.template.Schema.TableName = "" <;>
    by_cases h2 : te.template.Schema.AssetName = "" <;> simp [h1, h2]

/-- Registration leaves the names, the template and the strategy of the executor
alone and makes registration calls only; the asset request carries the table name
and the asset name of the executor. -/
theorem registerToIDAService_spec (te : TestExecutor) (strategy : strategies.DatabaseStrategy)
    (log : List Call) :
    (te.registerToIDAService strategy log).te.tableName = te.tableName
    ∧ (te.registerToIDAService strategy log).te.assetName = te.assetName
    ∧ (te.registerToIDAService strategy log).te.template = te.template
    ∧ (te.registerToIDAService strategy log).te.strategy = te.strategy
    ∧ ∃ new : List Call, (te.registerToIDAService strategy log).log = log ++ new
        ∧ ∀ c ∈ new, c.isRegistration = true ∧ Call.names te.tableName te.assetName c := by
  unfold TestExecutor.registerToIDAService
  dsimp only
  split
  · exact ⟨rfl, rfl, rfl, rfl, [], by simp, by simp⟩
  · split
    · exact ⟨rfl, rfl, rfl, rfl, _, rfl, by simp [Call.isRegistration, Call.names]⟩
    · split_ifs
      · exact ⟨rfl, rfl, rfl, rfl, _, rfl, by simp [Call.isRegistration, Call.names]⟩
      · split
        · exact ⟨rfl, rfl, rfl, rfl, _, by rw [List.append_assoc],
            by simp [Call.isRegistration, Call.names]⟩
        · split_ifs
          · exact ⟨rfl, rfl, rfl, rfl, _, by rw [List.append_assoc],
              by simp [Call.isRegistration, Call.names]⟩
          · exact ⟨rfl, rfl, rfl, rfl, _, by rw [List.append_assoc],
              by simp [Call.isRegistration, Call.names]⟩

/-- The tail of `setup`, common to the two branches of `if !tableExists`. -/
theorem register_tail_spec (te : TestExecutor) (strategy : strategies.DatabaseStrategy)
    (log : List Call) :
    ∃ (out : Outcome (Option String)) (new : List Call),
      (match te.registerToIDAService strategy log with
        | ⟨te, log5, some err⟩ =>
          (⟨te, log5, some ("注册到IDA-service失败: " ++ err)⟩ : Outcome (Option String))
        | ⟨te, log5, none⟩ => ⟨te, log5, none⟩) = out
      ∧ out.te.tableName = te.tableName ∧ out.te.assetName = te.assetName
      ∧ out.te.template = te.template ∧ out.te.strategy = te.strategy
      ∧ out.log = log ++ new
      ∧ ∀ c ∈ new, c.isRegistration = true ∧ Call.names te.tableName te.assetName c := by
  obtain ⟨h1, h2, h3, h4, new, h5, h6⟩ := registerToIDAService_spec te strategy log
  rcases hr : te.registerToIDAService strategy log with ⟨te2, log5, ret⟩
  rw [hr] at h1 h2 h3 h4 h5
  cases ret <;> exact ⟨_, new, rfl, h1, h2, h3, h4, h5, h6⟩

/-- Once the strategy is set, the connection is up and the schema is generated,
`setup` is `setup.afterSchema` on the executor with its names resolved. -/
theorem setup_eq_afterSchema (w : World) (te : TestExecutor) (log : List Call)
    (strategy : strategies.DatabaseStrategy) (hs : te.strategy = some strategy)
    (hc : strategy.Connect log = none) :
    ∃ schema : generators.SchemaDefinition,
      schema.TableName = resolvedTableName te
      ∧ schema.RowCount = te.template.Data.RowCount
      ∧ te.setup w log
          = some (setup.afterSchema w (setup.resolveNames te) strategy (log ++ [Call.Connect])
              schema) := by
  obtain ⟨extra, hg, -, -⟩ := generators.GenerateSchema_spec w.S w.rnd
    (generators.NewDatabaseTypeMapper (setup.resolveNames te).template.Database.Type_)
    (setup.resolveNames te).tableName (setup.resolveNames te).template.Schema.FieldCount
    (setup.resolveNames te).template.Data.RowCount (setup.resolveNames te).template.Schema.FieldTypes
    (setup.resolveNames te).template.Schema.MaxFieldSize
  refine ⟨{ TableName := (setup.resolveNames te).tableName,
            Fields := generators.keyField :: extra,
            RowCount := (setup.resolveNames te).template.Data.RowCount }, ?_, ?_, ?_⟩
  · exact resolveNames_tableName te
  · simp only [resolveNames_template]
  · unfold TestExecutor.setup
    simp only [hs, hc, hg]
    unfold setup.afterSchema
    dsimp only
    split
    · rfl
    · split
      · rfl
      · split_ifs
        · split
          · rfl
          · split <;> rfl
        · split <;> rfl

theorem reconcile_names (te : TestExecutor) (strategy : strategies.DatabaseStrategy)
    (log : List Call) (b : Bool) :
    ∃ new : List Call, (setup.reconcile te strategy log b).1 = log ++ new
      ∧ ∀ c ∈ new, Call.names te.tableName te.assetName c := by
  unfold setup.reconcile
  split_ifs
  · dsimp only
    split
    · exact ⟨_, rfl, by simp [Call.names]⟩
    · split_ifs
      · exact ⟨_, rfl, by simp [Call.names]⟩
      · split
        · exact ⟨_, by rw [List.append_assoc], by simp [Call.names]⟩
        · exact ⟨_, by rw [List.append_assoc], by simp [Call.names]⟩
  · exact ⟨[], by simp, by simp⟩

/-- Every call `setup.afterSchema` makes carries the table name and the asset name
of the executor, and the executor keeps both. -/
theorem afterSchema_names (w : World) (te : TestExecutor)
    (strategy : strategies.DatabaseStrategy) (log1 : List Call)
    (schema : generators.SchemaDefinition) (hschema : schema.TableName = te.tableName) :
    (setup.afterSchema w te strategy log1 schema).te.tableName = te.tableName
    ∧ (setup.afterSchema w te strategy log1 schema).te.assetName = te.assetName
    ∧ (setup.afterSchema w te strategy log1 schema).te.template = te.template
    ∧ (setup.afterSchema w te strategy log1 schema).te.strategy = te.strategy
    ∧ ∃ new : List Call, (setup.afterSchema w te strategy log1 schema).log = log1 ++ new
        ∧ ∀ c ∈ new, Call.names te.tableName te.assetName c := by
  unfold setup.afterSchema
  dsimp only
  split
  · exact ⟨rfl, rfl, rfl, rfl, _, rfl, by simp [Call.names]⟩
  · rename_i tableExists hte
    obtain ⟨new1, hn1, hn2⟩ :=
      reconcile_names te strategy (log1 ++ [Call.TableExists te.tableName]) tableExists
    split
    · rename_i log3 err hrec
      rw [hrec] at hn1
      dsimp only at hn1
      refine ⟨rfl, rfl, rfl, rfl, Call.TableExists te.tableName :: new1, by rw [hn1]; simp, ?_⟩
      intro c hc
      rcases List.mem_cons.mp hc with rfl | hc
      · simp [Call.names]
      · exact hn2 c hc
    · rename_i log3 tableExists2 hrec
      rw [hrec] at hn1
      dsimp only at hn1
      split_ifs
      · split
        · refine ⟨rfl, rfl, rfl, rfl, Call.TableExists te.tableName :: (new1 ++ [Call.GenerateAndInsert schema]),
            by rw [hn1]; simp, ?_⟩
          intro c hc
          rcases List.mem_cons.mp hc with rfl | hc
          · simp [Call.names]
          · rcases List.mem_append.mp hc with hc | hc
            · exact hn2 c hc
            · rw [List.mem_singleton.mp hc]
              exact hschema
        · obtain ⟨out, new2, he, h1, h2, h3, h4, h5, h6⟩ :=
            register_tail_spec te strategy (log3 ++ [Call.GenerateAndInsert schema])
          rw [he]
          refine ⟨h1, h2, h3, h4, Call.TableExists te.tableName :: (new1 ++ [Call.GenerateAndInsert schema]
            ++ new2), by rw [h5, hn1]; simp, ?_⟩
          intro c hc
          rcases List.mem_cons.mp hc with rfl | hc
          · simp [Call.names]
          · rcases List.mem_append.mp hc with hc | hc
            · rcases List.mem_append.mp hc with hc | hc
              · exact hn2 c hc
              · rw [List.mem_singleton.mp hc]
                exact hschema
            · exact (h6 c hc).2
      · obtain ⟨out, new2, he, h1, h2, h3, h4, h5, h6⟩ := register_tail_spec te strategy log3
        rw [he]
        refine ⟨h1, h2, h3, h4, Call.TableExists te.tableName :: (new1 ++ new2),
          by rw [h5, hn1]; simp, ?_⟩
        intro c hc
        rcases List.mem_cons.mp hc with rfl | hc
        · simp [Call.names]
        · rcases List.mem_append.mp hc with hc | hc
          · exact hn2 c hc
          · exact (h6 c hc).2

/-- C9: naming policy. For every run of `setup` on an executor with a strategy, every
call made carries the resolved table name (the schema given to the data generator,
`TableExists`, `GetRowCount`, `Cleanup`, the asset registration) and the asset
registration carries the resolved asset name; once `Connect` has succeeded the
executor holds both names. The resolved table name is `template.Schema.TableName`
verbatim when that is non-empty and `GenerateTableName(namespace, "test_table")`
otherwise; the resolved asset name is `template.Schema.AssetName` verbatim when
non-empty and `GenerateAssetName(namespace, template.Name)` otherwise. -/
theorem setup_naming_policy (w : World) (te : TestExecutor) (log : List Call)
    (strategy : strategies.DatabaseStrategy) (hs : te.strategy = some strategy) :
    ∃ (out : Outcome (Option String)) (new : List Call),
      te.setup w log = some out
      ∧ out.log = log ++ new
      ∧ (∀ c ∈ new, Call.names (resolvedTableName te) (resolvedAssetName te) c)
      ∧ (strategy.Connect log = none →
          out.te.tableName = resolvedTableName te ∧ out.te.assetName = resolvedAssetName te)
      ∧ (te.template.Schema.TableName ≠ "" →
          resolvedTableName te = te.template.Schema.TableName)
      ∧ (te.template.Schema.TableName = "" →
          resolvedTableName te = te.namespaceMgr.GenerateTableName te.namespace_ "test_table")
      ∧ (te.template.Schema.AssetName ≠ "" →
          resolvedAssetName te = te.template.Schema.AssetName)
      ∧ (te.template.Schema.AssetName = "" →
          resolvedAssetName te
            = te.namespaceMgr.GenerateAssetName te.namespace_ te.template.Name) := by
  have hn : (te.template.Schema.TableName ≠ "" →
          resolvedTableName te = te.template.Schema.TableName)
      ∧ (te.template.Schema.TableName = "" →
          resolvedTableName te = te.namespaceMgr.GenerateTableName te.namespace_ "test_table")
      ∧ (te.template.Schema.AssetName ≠ "" →
          resolvedAssetName te = te.template.Schema.AssetName)
      ∧ (te.template.Schema.AssetName = "" →
          resolvedAssetName te
            = te.namespaceMgr.GenerateAssetName te.namespace_ te.template.Name) := by
    unfold resolvedTableName resolvedAssetName
    refine ⟨?_, ?_, ?_, ?_⟩ <;> intro h <;> simp [h]
  cases hc : strategy.Connect log with
  | some err =>
    refine ⟨⟨te, log ++ [Call.Connect], some ("连接数据库失败: " ++ err)⟩, [Call.Connect], ?_, rfl,
      by simp [Call.names], fun h => Option.noConfusion h, hn⟩
    unfold TestExecutor.setup
    simp only [hs, hc]
  | none =>
    obtain ⟨schema, h1, -, h3⟩ := setup_eq_afterSchema w te log strategy hs hc
    obtain ⟨a1, a2, -, -, new, a3, a4⟩ := afterSchema_names w (setup.resolveNames te) strategy
      (log ++ [Call.Connect]) schema (by rw [h1, resolveNames_tableName])
    rw [resolveNames_tableName] at a1 a4
    rw [resolveNames_assetName] at a2 a4
    refine ⟨_, Call.Connect :: new, h3, by rw [a3]; simp, ?_, fun _ => ⟨a1, a2⟩, hn⟩
    intro c hc
    rcases List.mem_cons.mp hc with rfl | hc
    · simp [Call.names]
    · exact a4 c hc

/-- Witness of C9: a template that names the table `orders` and no asset. -/
theorem setup_naming_policy_witness :
    (fixtureExecutor "orders" "" false 1000 (fixtureStrategy false 0)).strategy
      = some (fixtureStrategy false 0)
    ∧ ∃ out : Outcome (Option String),
        (fixtureExecutor "orders" "" false 1000 (fixtureStrategy false 0)).setup fixtureWorld []
          = some out
        ∧ out.te.tableName = "orders" ∧ out.te.assetName = "ns_demo"
        ∧ ∀ c ∈ out.log, Call.names "orders" "ns_demo" c := by
  obtain ⟨out, new, h1, h2, h3, h4, -⟩ := setup_naming_policy fixtureWorld
    (fixtureExecutor "orders" "" false 1000 (fixtureStrategy false 0)) []
    (fixtureStrategy false 0) rfl
  have ht : resolvedTableName (fixtureExecutor "orders" "" false 1000 (fixtureStrategy false 0))
      = "orders" := by decide
  have ha : resolvedAssetName (fixtureExecutor "orders" "" false 1000 (fixtureStrategy false 0))
      = "ns_demo" := by decide
  rw [ht, ha] at h3 h4
  refine ⟨rfl, out, h1, (h4 rfl).1, (h4 rfl).2, ?_⟩
  rw [h2, List.nil_append]
  exact h3

/-- An existing table whose row count passes the check: `setup.afterSchema` asks
for the existence and the row count and goes on to the registration. -/
theorem afterSchema_keep (w : World) (te : TestExecutor)
    (strategy : strategies.DatabaseStrategy) (log1 : List Call)
    (schema : generators.SchemaDefinition) (a : Int)
    (hte : strategy.TableExists log1 te.tableName = .ok true)
    (hrow : strategy.GetRowCount (log1 ++ [Call.TableExists te.tableName]) te.tableName = .ok a)
    (hin : setup.withinTolerance a te.template.Data.RowCount = true) :
    ∃ rest : List Call,
      (setup.afterSchema w te strategy log1 schema).log
        = log1 ++ [Call.TableExists te.tableName, Call.GetRowCount te.tableName] ++ rest
      ∧ ∀ c ∈ rest, c.isRegistration = true := by
  have hr : setup.reconcile te strategy (log1 ++ [Call.TableExists te.tableName]) true
      = (log1 ++ [Call.TableExists te.tableName] ++ [Call.GetRowCount te.tableName], .ok true) := by
    simp [setup.reconcile, hrow, hin]
  unfold setup.afterSchema
  simp only [hte, hr]
  obtain ⟨out, new2, he, -, -, -, -, h5, h6⟩ := register_tail_spec te strategy
    (log1 ++ [Call.TableExists te.tableName] ++ [Call.GetRowCount te.tableName])
  simp only [Bool.not_true, Bool.false_eq_true, if_false]
  rw [he, h5]
  exact ⟨new2, by simp, fun c hc => (h6 c hc).1⟩

/-- An existing table whose row count fails the check and whose drop fails: `setup`
stops with the error of the drop. -/
theorem afterSchema_drop_fails (w : World) (te : TestExecutor)
    (strategy : strategies.DatabaseStrategy) (log1 : List Call)
    (schema : generators.SchemaDefinition) (a : Int) (err : String)
    (hte : strategy.TableExists log1 te.tableName = .ok true)
    (hrow : strategy.GetRowCount (log1 ++ [Call.TableExists te.tableName]) te.tableName = .ok a)
    (hout : setup.withinTolerance a te.template.Data.RowCount = false)
    (hcl : strategy.Cleanup
      (log1 ++ [Call.TableExists te.tableName, Call.GetRowCount te.tableName]) te.tableName
        = some err) :
    (setup.afterSchema w te strategy log1 schema).log
        = log1 ++ [Call.TableExists te.tableName, Call.GetRowCount te.tableName,
            Call.Cleanup te.tableName]
    ∧ (setup.afterSchema w te strategy log1 schema).ret = some ("清理旧表失败: " ++ err) := by
  have hr : setup.reconcile te strategy (log1 ++ [Call.TableExists te.tableName]) true
      = (log1 ++ [Call.TableExists te.tableName] ++ [Call.GetRowCount te.tableName]
          ++ [Call.Cleanup te.tableName], .error ("清理旧表失败: " ++ err)) := by
    simp [setup.reconcile, hrow, hout, hcl]
  unfold setup.afterSchema
  simp only [hte, hr]
  constructor <;> simp

/-- The data generation and what follows it in `setup.afterSchema`. -/
theorem generate_tail_spec (w : World) (te : TestExecutor)
    (strategy : strategies.DatabaseStrategy) (log3 : List Call)
    (schema : generators.SchemaDefinition) :
    ∃ (out : Outcome (Option String)) (rest : List Call),
      (match w.GenerateAndInsert log3 schema with
        | some err =>
          (⟨te, log3 ++ [Call.GenerateAndInsert schema], some ("生成数据失败: " ++ err)⟩ :
            Outcome (Option String))
        | none =>
          match te.registerToIDAService strategy (log3 ++ [Call.GenerateAndInsert schema]) with
          | ⟨te, log5, some err⟩ => ⟨te, log5, some ("注册到IDA-service失败: " ++ err)⟩
          | ⟨te, log5, none⟩ => ⟨te, log5, none⟩) = out
      ∧ out.log = log3 ++ [Call.GenerateAndInsert schema] ++ rest
      ∧ ∀ c ∈ rest, c.isRegistration = true := by
  cases hg : w.GenerateAndInsert log3 schema with
  | some err => exact ⟨_, [], rfl, by simp, by simp⟩
  | none =>
    obtain ⟨out, new2, he, -, -, -, -, h5, h6⟩ :=
      register_tail_spec te strategy (log3 ++ [Call.GenerateAndInsert schema])
    exact ⟨out, new2, he, h5, fun c hc => (h6 c hc).1⟩

/-- An existing table whose row count fails the check and whose drop succeeds:
the data generator runs right after the drop. -/
theorem afterSchema_regenerate (w : World) (te : TestExecutor)
    (strategy : strategies.DatabaseStrategy) (log1 : List Call)
    (schema : generators.SchemaDefinition) (a : Int)
    (hte : strategy.TableExists log1 te.tableName = .ok true)
    (hrow : strategy.GetRowCount (log1 ++ [Call.TableExists te.tableName]) te.tableName = .ok a)
    (hout : setup.withinTolerance a te.template.Data.RowCount = false)
    (hcl : strategy.Cleanup
      (log1 ++ [Call.TableExists te.tableName, Call.GetRowCount te.tableName]) te.tableName
        = none) :
    ∃ rest : List Call,
      (setup.afterSchema w te strategy log1 schema).log
        = log1 ++ [Call.TableExists te.tableName, Call.GetRowCount te.tableName,
            Call.Cleanup te.tableName, Call.GenerateAndInsert schema] ++ rest
      ∧ ∀ c ∈ rest, c.isRegistration = true := by
  have hr : setup.reconcile te strategy (log1 ++ [Call.TableExists te.tableName]) true
      = (log1 ++ [Call.TableExists te.tableName] ++ [Call.GetRowCount te.tableName]
          ++ [Call.Cleanup te.tableName], .ok false) := by
    simp [setup.reconcile, hrow, hout, hcl]
  unfold setup.afterSchema
  simp only [hte, hr]
  obtain ⟨out, rest, he, h5, h6⟩ := generate_tail_spec w te strategy
    (log1 ++ [Call.TableExists te.tableName] ++ [Call.GetRowCount te.tableName]
          ++ [Call.Cleanup te.tableName]) schema
  simp only [Bool.not_false, if_true]
  rw [he, h5]
  exact ⟨rest, by simp, h6⟩

/-- An absent table: the data generator runs right after the existence check. -/
theorem afterSchema_absent (w : World) (te : TestExecutor)
    (strategy : strategies.DatabaseStrategy) (log1 : List Call)
    (schema : generators.SchemaDefinition)
    (hte : strategy.TableExists log1 te.tableName = .ok false) :
    ∃ rest : List Call,
      (setup.afterSchema w te strategy log1 schema).log
        = log1 ++ [Call.TableExists te.tableName, Call.GenerateAndInsert schema] ++ rest
      ∧ ∀ c ∈ rest, c.isRegistration = true := by
  have hr : setup.reconcile te strategy (log1 ++ [Call.TableExists te.tableName]) false
      = (log1 ++ [Call.TableExists te.tableName], .ok false) := by
    simp [setup.reconcile]
  unfold setup.afterSchema
  simp only [hte, hr]
  obtain ⟨out, rest, he, h5, h6⟩ := generate_tail_spec w te strategy
    (log1 ++ [Call.TableExists te.tableName]) schema
  simp only [Bool.not_false, if_true]
  rw [he, h5]
  exact ⟨rest, by simp, h6⟩

end testcases

namespace testcases

/-- The bound on the expected row count in `withinTolerance_outside` and
`withinTolerance_inside` cannot be dropped altogether: near `10 ^ 18` rows, where
`float64(n)` is no longer exact, the check departs from the exact ratio, in both
directions. -/
theorem withinTolerance_beyond_exact_range :
    ((999999999999999999 + 1000000000000000 - 999999999999999999 : Int) * 1000
      > 999999999999999999
      ∧ setup.withinTolerance (999999999999999999 + 1000000000000000) 999999999999999999
        = true)
    ∧ ((9084143813672311259 + 9084143813672311 - 9084143813672311259 : Int) * 1000
      ≤ 9084143813672311259
      ∧ setup.withinTolerance (9084143813672311259 + 9084143813672311) 9084143813672311259
        = false) := by
  decide

/-- C7, the code at the failing input: the template expects 0 rows and the table exists
with 0 rows, a count equal to the expected one. The quotient of the check is `0 / 0`, a
NaN that fails both comparisons, so `setup` calls `Cleanup` and then `GenerateAndInsert`:
it drops the table and regenerates, on every run, where the claim has it keep the table
and regenerate nothing. -/
theorem setup_zero_rows_regenerates :
    setup.withinTolerance 0 0 = false
    ∧ ((fixtureExecutor "" "" false 0 (fixtureStrategy true 0)).setup fixtureWorld []).map
        (fun o => o.log)
      = some [Call.Connect, Call.TableExists "ns_test_table", Call.GetRowCount "ns_test_table",
          Call.Cleanup "ns_test_table",
          Call.GenerateAndInsert ⟨"ns_test_table", [⟨"id", "BIGINT", 0, false⟩], 0⟩,
          Call.CreateDataSource
            ⟨"test_datasource_ns", "127.0.0.1", 3306, 1, "root", "secret", "testdb"⟩,
          Call.CreateAsset ⟨"demo", "ns_demo", 1000, "testdb", "ns_test_table"⟩] := by
  decide

/-- Away from an expected row count of 0 the reconciliation keeps a matching table: for
every strategy, if `Connect` succeeds, `TableExists` reports true and `GetRowCount`
reports a count `a` equal to the template row count `n ≠ 0`, or a count with
`|a - n| / n ≤ 0.1%` where `0 < n` and `n` is at most `7 * 10 ^ 15`, then after
the three calls `Connect`, `TableExists`, `GetRowCount` the method `setup` only registers
with the catalog, so it calls neither `Cleanup` nor `GenerateAndInsert`. -/
theorem setup_keeps_matching_table (w : World) (te : TestExecutor) (log : List Call)
    (strategy : strategies.DatabaseStrategy) (a : Int)
    (hs : te.strategy = some strategy)
    (hc : strategy.Connect log = none)
    (hte : strategy.TableExists (log ++ [Call.Connect]) (resolvedTableName te) = .ok true)
    (hrow : strategy.GetRowCount
      (log ++ [Call.Connect, Call.TableExists (resolvedTableName te)]) (resolvedTableName te)
        = .ok a)
    (hkeep : (a = te.template.Data.RowCount ∧ te.template.Data.RowCount ≠ 0)
      ∨ (0 < te.template.Data.RowCount ∧ te.template.Data.RowCount ≤ 7000000000000000
          ∧ |a - te.template.Data.RowCount| * 1000 ≤ te.template.Data.RowCount)) :
    ∃ (out : Outcome (Option String)) (rest : List Call),
      te.setup w log = some out
      ∧ out.log = log ++ [Call.Connect, Call.TableExists (resolvedTableName te),
          Call.GetRowCount (resolvedTableName te)] ++ rest
      ∧ (∀ c ∈ rest, c.isRegistration = true)
      ∧ (∀ c ∈ rest, (∀ t, c ≠ Call.Cleanup t) ∧ (∀ sch, c ≠ Call.GenerateAndInsert sch)) := by
  have hin : setup.withinTolerance a te.template.Data.RowCount = true := by
    rcases hkeep with ⟨rfl, hn⟩ | ⟨hn, hnb, h⟩
    · exact withinTolerance_self _ hn
    · exact withinTolerance_inside a _ hn hnb h
  obtain ⟨schema, -, -, h3⟩ := setup_eq_afterSchema w te log strategy hs hc
  obtain ⟨rest, h4, h5⟩ := afterSchema_keep w (setup.resolveNames te) strategy
    (log ++ [Call.Connect]) schema a
    (by rw [resolveNames_tableName]; exact hte)
    (by rw [resolveNames_tableName]; simpa using hrow)
    (by rw [resolveNames_template]; exact hin)
  rw [resolveNames_tableName] at h4
  refine ⟨_, rest, h3, by rw [h4]; simp, h5, ?_⟩
  intro c hc
  have := h5 c hc
  constructor
  · rintro t rfl
    simp [Call.isRegistration] at this
  · rintro sch rfl
    simp [Call.isRegistration] at this

/-- An existing table with 1001 rows, within 0.1% of the 1000 rows of the template, is
kept. -/
theorem setup_keeps_matching_table_witness :
    ∃ (out : Outcome (Option String)) (rest : List Call),
      (fixtureExecutor "" "" false 1000 (fixtureStrategy true 1001)).setup fixtureWorld []
        = some out
      ∧ out.log = [Call.Connect, Call.TableExists "ns_test_table",
          Call.GetRowCount "ns_test_table"] ++ rest
      ∧ (∀ c ∈ rest, c.isRegistration = true) := by
  obtain ⟨out, rest, h1, h2, h3, -⟩ := setup_keeps_matching_table fixtureWorld
    (fixtureExecutor "" "" false 1000 (fixtureStrategy true 1001)) []
    (fixtureStrategy true 1001) 1001 rfl rfl rfl rfl
    (Or.inr ⟨by decide, by decide, by decide⟩)
  have ht : resolvedTableName (fixtureExecutor "" "" false 1000 (fixtureStrategy true 1001))
      = "ns_test_table" := by decide
  rw [ht, List.nil_append] at h2
  exact ⟨out, rest, h1, h2, h3⟩

/-- C8: let `Connect` succeed and let `n` be the row count of the template. If
`TableExists` reports true and `GetRowCount` reports a count `a` outside the tolerance,
`|a - n| / n > 0.1%`, where `0 < n`, `n` is at most `7 * 10 ^ 15` and `a` is a
non-negative `int64` (the check is computed in `float64` as
`float64(a - n) / float64(n) * 100`, and on this range it is proved to reject every such
count), then `setup` calls `Cleanup` on the resolved table
once, right after `GetRowCount`; if `Cleanup` returns an error `setup` returns an error
and makes no further call, so the generator is not run, and if it succeeds the data
generator runs next, on a schema with the resolved table name and row count `n`, and only
registration calls follow. If `TableExists` reports false, the data generator runs right
after `TableExists` and only registration calls follow, so neither `GetRowCount` nor
`Cleanup` is called. -/
theorem setup_regenerates_mismatching_table (w : World) (te : TestExecutor) (log : List Call)
    (strategy : strategies.DatabaseStrategy)
    (hs : te.strategy = some strategy)
    (hc : strategy.Connect log = none) :
    (∀ a : Int,
      strategy.TableExists (log ++ [Call.Connect]) (resolvedTableName te) = .ok true →
      strategy.GetRowCount (log ++ [Call.Connect, Call.TableExists (resolvedTableName te)])
        (resolvedTableName te) = .ok a →
      0 < te.template.Data.RowCount → te.template.Data.RowCount ≤ 7000000000000000 →
      0 ≤ a → a ≤ 9223372036854775807 →
      te.template.Data.RowCount < |a - te.template.Data.RowCount| * 1000 →
      (∀ err : String,
        strategy.Cleanup (log ++ [Call.Connect, Call.TableExists (resolvedTableName te),
          Call.GetRowCount (resolvedTableName te)]) (resolvedTableName te) = some err →
        ∃ out : Outcome (Option String),
          te.setup w log = some out
          ∧ out.ret ≠ none
          ∧ out.log = log ++ [Call.Connect, Call.TableExists (resolvedTableName te),
              Call.GetRowCount (resolvedTableName te), Call.Cleanup (resolvedTableName te)])
      ∧ (strategy.Cleanup (log ++ [Call.Connect, Call.TableExists (resolvedTableName te),
          Call.GetRowCount (resolvedTableName te)]) (resolvedTableName te) = none →
        ∃ (out : Outcome (Option String)) (schema : generators.SchemaDefinition)
          (rest : List Call),
          te.setup w log = some out
          ∧ schema.TableName = resolvedTableName te
          ∧ schema.RowCount = te.template.Data.RowCount
          ∧ out.log = log ++ [Call.Connect, Call.TableExists (resolvedTableName te),
              Call.GetRowCount (resolvedTableName te), Call.Cleanup (resolvedTableName te),
              Call.GenerateAndInsert schema] ++ rest
          ∧ ∀ c ∈ rest, c.isRegistration = true))
    ∧ (strategy.TableExists (log ++ [Call.Connect]) (resolvedTableName te) = .ok false →
        ∃ (out : Outcome (Option String)) (schema : generators.SchemaDefinition)
          (rest : List Call),
          te.setup w log = some out
          ∧ schema.TableName = resolvedTableName te
          ∧ schema.RowCount = te.template.Data.RowCount
          ∧ out.log = log ++ [Call.Connect, Call.TableExists (resolvedTableName te),
              Call.GenerateAndInsert schema] ++ rest
          ∧ ∀ c ∈ rest, c.isRegistration = true) := by
  obtain ⟨schema, hsn, hsr, h3⟩ := setup_eq_afterSchema w te log strategy hs hc
  refine ⟨?_, ?_⟩
  · intro a hte hrow hn hnb ha hab hfar
    have hout : setup.withinTolerance a te.template.Data.RowCount = false :=
      withinTolerance_outside a _ hn hnb ha hab hfar
    have hte2 : strategy.TableExists (log ++ [Call.Connect]) (setup.resolveNames te).tableName
        = .ok true := by rw [resolveNames_tableName]; exact hte
    have hrow2 : strategy.GetRowCount
        (log ++ [Call.Connect] ++ [Call.TableExists (setup.resolveNames te).tableName])
        (setup.resolveNames te).tableName = .ok a := by
      rw [resolveNames_tableName]; simpa using hrow
    have hout2 : setup.withinTolerance a (setup.resolveNames te).template.Data.RowCount = false := by
      rw [resolveNames_template]; exact hout
    refine ⟨?_, ?_⟩
    · intro err hcl
      obtain ⟨h4, h5⟩ := afterSchema_drop_fails w (setup.resolveNames te) strategy
        (log ++ [Call.Connect]) schema a err hte2 hrow2 hout2
        (by rw [resolveNames_tableName]; simpa using hcl)
      rw [resolveNames_tableName] at h4
      exact ⟨_, h3, by rw [h5]; simp, by rw [h4]; simp⟩
    · intro hcl
      obtain ⟨rest, h4, h5⟩ := afterSchema_regenerate w (setup.resolveNames te) strategy
        (log ++ [Call.Connect]) schema a hte2 hrow2 hout2
        (by rw [resolveNames_tableName]; simpa using hcl)
      rw [resolveNames_tableName] at h4
      exact ⟨_, schema, rest, h3, hsn, hsr, by rw [h4]; simp, h5⟩
  · intro hte
    obtain ⟨rest, h4, h5⟩ := afterSchema_absent w (setup.resolveNames te) strategy
      (log ++ [Call.Connect]) schema (by rw [resolveNames_tableName]; exact hte)
    rw [resolveNames_tableName] at h4
    exact ⟨_, schema, rest, h3, hsn, hsr, by rw [h4]; simp, h5⟩

/-- Witness of C8: the template asks for 1000 rows and the table holds 500, which is 50%
off; the table is dropped and the generator runs on a schema of 1000 rows. -/
theorem setup_regenerates_mismatching_table_witness :
    ((1000 : Int) < |500 - 1000| * 1000)
    ∧ ∃ (out : Outcome (Option String)) (schema : generators.SchemaDefinition)
        (rest : List Call),
        (fixtureExecutor "" "" false 1000 (fixtureStrategy true 500)).setup fixtureWorld []
          = some out
        ∧ schema.TableName = "ns_test_table"
        ∧ schema.RowCount = 1000
        ∧ out.log = [Call.Connect, Call.TableExists "ns_test_table",
            Call.GetRowCount "ns_test_table", Call.Cleanup "ns_test_table",
            Call.GenerateAndInsert schema] ++ rest
        ∧ ∀ c ∈ rest, c.isRegistration = true := by
  have hfar : ((1000 : Int) < |500 - 1000| * 1000) := by decide
  obtain ⟨out, schema, rest, h1, h2, h3, h4, h5⟩ :=
    ((setup_regenerates_mismatching_table fixtureWorld
      (fixtureExecutor "" "" false 1000 (fixtureStrategy true 500)) []
      (fixtureStrategy true 500) rfl rfl).1 500 rfl rfl (by decide) (by decide) (by decide)
      (by decide) hfar).2 rfl
  have ht : resolvedTableName (fixtureExecutor "" "" false 1000 (fixtureStrategy true 500))
      = "ns_test_table" := by decide
  rw [ht] at h2 h4
  rw [List.nil_append] at h4
  exact ⟨hfar, out, schema, rest, h1, h2, h3, h4, h5⟩

/-- C10, the claim as stated fails: the template names the asset `shared_asset`, no
table, and leaves keep-table off; the run of `Execute` ends with the drop of the
table. -/
theorem Execute_drops_table_of_named_asset :
    ((fixtureExecutor "" "shared_asset" false 1000 (fixtureStrategy false 0)).Execute
        fixtureWorld []).map (fun o => o.log)
      = some [Call.Connect, Call.TableExists "ns_test_table",
          Call.GenerateAndInsert ⟨"ns_test_table", [⟨"id", "BIGINT", 0, false⟩], 1000⟩,
          Call.CreateDataSource
            ⟨"test_datasource_ns", "127.0.0.1", 3306, 1, "root", "secret", "testdb"⟩,
          Call.CreateAsset ⟨"demo", "shared_asset", 1000, "testdb", "ns_test_table"⟩,
          Call.Cleanup "ns_test_table"] := by
  decide

/-- C10 as amended: `cleanup` makes no call when the template names a table or sets the
keep-table flag. When the template names no table and keep-table is off, `cleanup` on an
executor with a strategy makes exactly one call, `Cleanup` on the table name of the
executor, whether or not the template names an asset; after a `setup` that went past
`Connect` that name is `GenerateTableName(namespace, "test_table")`. -/
theorem cleanup_policy (te : TestExecutor) (log : List Call) :
    ((te.template.Schema.TableName ≠ "" ∨ te.template.Data.KeepTable = true) →
      te.cleanup log = log)
    ∧ (∀ strategy : strategies.DatabaseStrategy, te.strategy = some strategy →
        te.template.Schema.TableName = "" → te.template.Data.KeepTable = false →
        te.cleanup log = log ++ [Call.Cleanup te.tableName])
    ∧ (∀ (w : World) (log0 : List Call) (strategy : strategies.DatabaseStrategy)
        (out : Outcome (Option String)),
        te.strategy = some strategy → strategy.Connect log0 = none →
        te.setup w log0 = some out →
        te.template.Schema.TableName = "" → te.template.Data.KeepTable = false →
        out.te.cleanup log
          = log ++ [Call.Cleanup (te.namespaceMgr.GenerateTableName te.namespace_ "test_table")])
    := by
  have key : ∀ (te : TestExecutor) (strategy : strategies.DatabaseStrategy),
      te.strategy = some strategy →
      te.template.Schema.TableName = "" → te.template.Data.KeepTable = false →
      te.cleanup log = log ++ [Call.Cleanup te.tableName] := by
    intro te strategy hs ht hk
    unfold TestExecutor.cleanup
    simp [hs, ht, hk]
  refine ⟨?_, key te, ?_⟩
  · intro h
    unfold TestExecutor.cleanup
    rcases h with h | h
    · simp [h]
    · simp [h]
  · intro w log0 strategy out hs hc hsetup ht hk
    obtain ⟨schema, h1, -, h3⟩ := setup_eq_afterSchema w te log0 strategy hs hc
    obtain ⟨a1, -, a3, a4, -⟩ := afterSchema_names w (setup.resolveNames te) strategy
      (log0 ++ [Call.Connect]) schema (by rw [h1, resolveNames_tableName])
    rw [hsetup] at h3
    cases h3
    rw [resolveNames_template] at a3
    rw [resolveNames_strategy] at a4
    rw [resolveNames_tableName] at a1
    rw [key _ strategy (by rw [a4]; exact hs) (by rw [a3]; exact ht) (by rw [a3]; exact hk), a1]
    unfold resolvedTableName
    rw [if_pos ht]

/-- Witness of the amended C10: the executor of a template that names only an asset
drops its table, and one whose template names the table `orders` does not. -/
theorem cleanup_policy_witness :
    (fixtureExecutor "orders" "" false 1000 (fixtureStrategy false 0)).cleanup [] = []
    ∧ ∃ out : Outcome (Option String),
        (fixtureExecutor "" "shared_asset" false 1000 (fixtureStrategy false 0)).setup
          fixtureWorld [] = some out
        ∧ out.te.cleanup [] = [Call.Cleanup "ns_test_table"] := by
  refine ⟨(cleanup_policy _ []).1 (Or.inl (by decide)), ?_⟩
  obtain ⟨schema, -, -, h3⟩ := setup_eq_afterSchema fixtureWorld
    (fixtureExecutor "" "shared_asset" false 1000 (fixtureStrategy false 0)) []
    (fixtureStrategy false 0) rfl rfl
  exact ⟨_, h3, (cleanup_policy _ []).2.2 fixtureWorld [] (fixtureStrategy false 0) _ rfl rfl h3
    rfl rfl⟩

end testcases

/-! ## Properties of the assertion loop -/

namespace testcases

theorem testRead_spec (w : World) (te : TestExecutor) (log : List Call) (test : TestConfig)
    (strategy : strategies.DatabaseStrategy) (hs : te.strategy = some strategy) :
    ∃ r : SingleTestResult,
      te.testRead w log test = some (log ++ [Call.GetRowCount te.tableName], r)
      ∧ r.Expected = test.Expected ∧ r.TestType = "read" := by
  unfold TestExecutor.testRead
  simp only [hs]
  split
  · exact ⟨_, rfl, rfl, rfl⟩
  · split
    · exact ⟨_, rfl, rfl, rfl⟩
    · exact ⟨_, rfl, rfl, rfl⟩

theorem testWrite_spec (w : World) (te : TestExecutor) (log : List Call) (test : TestConfig)
    (strategy : strategies.DatabaseStrategy) (hs : te.strategy = some strategy) :
    ∃ r : SingleTestResult,
      te.testWrite w log test = some (log ++ [Call.ValidateWriteResult te.tableName], r)
      ∧ r.Expected = test.Expected ∧ r.TestType = "write" := by
  unfold TestExecutor.testWrite
  simp only [hs]
  split
  · exact ⟨_, rfl, rfl, rfl⟩
  · exact ⟨_, rfl, rfl, rfl⟩

/-- With a strategy every assertion returns; its result carries the expected count of
the assertion and its calls are row count queries on the table of the executor. -/
theorem executeTest_spec (w : World) (te : TestExecutor) (log : List Call) (test : TestConfig)
    (strategy : strategies.DatabaseStrategy) (hs : te.strategy = some strategy) :
    ∃ (new : List Call) (r : SingleTestResult),
      te.executeTest w log test = some (log ++ new, r)
      ∧ r.Expected = test.Expected
      ∧ ∀ c ∈ new, c = Call.GetRowCount te.tableName
          ∨ c = Call.ValidateWriteResult te.tableName := by
  unfold TestExecutor.executeTest
  dsimp only
  split
  · obtain ⟨r, h1, h2, -⟩ := testRead_spec w te log test strategy hs
    exact ⟨_, r, h1, h2, by simp⟩
  · obtain ⟨r, h1, h2, -⟩ := testWrite_spec w te log test strategy hs
    exact ⟨_, r, h1, h2, by simp⟩
  · obtain ⟨wr, h1, h2, -⟩ := testWrite_spec w te log test strategy hs
    rw [h1]
    dsimp only
    split_ifs
    · exact ⟨_, wr, rfl, h2, by simp⟩
    · obtain ⟨r, h3, h4, -⟩ := testRead_spec w te
        (log ++ [Call.ValidateWriteResult te.tableName]) test strategy hs
      rw [h3]
      exact ⟨[Call.ValidateWriteResult te.tableName, Call.GetRowCount te.tableName], r,
        by simp, h4, by simp⟩
  · exact ⟨[], unknownKindResult test, by simp [unknownKindResult], rfl, by simp⟩

/-- The loop of `Execute` runs the assertions in order, appends their results to the
report and raises `HasFailure` when one of them did not pass. -/
theorem loop_eq_inOrder (w : World) (te : TestExecutor) :
    ∀ (tests : List TestConfig) (log : List Call) (result : TestResult),
      Execute.loop w te tests log result
        = (Execute.inOrder w te tests log).map (fun p =>
            (p.1, { result with
                    TestResults := result.TestResults ++ p.2
                    HasFailure := result.HasFailure || p.2.any (fun r => !r.Passed) })) := by
  intro tests
  induction tests with
  | nil =>
    intro log result
    simp [Execute.loop, Execute.inOrder]
  | cons test rest ih =>
    intro log result
    unfold Execute.loop Execute.inOrder
    cases h : te.executeTest w log test with
    | none => rfl
    | some p =>
      obtain ⟨log1, r⟩ := p
      dsimp only
      rw [ih]
      cases h2 : Execute.inOrder w te rest log1 with
      | none => rfl
      | some q =>
        obtain ⟨log2, rs⟩ := q
        simp only [Option.map_some', Option.some.injEq, Prod.mk.injEq, true_and]
        cases hp : r.Passed <;> simp [hp, Bool.or_assoc]

/-- With a strategy the assertions all run: one result per assertion, and only row
count queries on the table of the executor are made. -/
theorem inOrder_spec (w : World) (te : TestExecutor)
    (strategy : strategies.DatabaseStrategy) (hs : te.strategy = some strategy) :
    ∀ (tests : List TestConfig) (log : List Call),
      ∃ (new : List Call) (results : List SingleTestResult),
        Execute.inOrder w te tests log = some (log ++ new, results)
        ∧ results.length = tests.length
        ∧ ∀ c ∈ new, c = Call.GetRowCount te.tableName
            ∨ c = Call.ValidateWriteResult te.tableName := by
  intro tests
  induction tests with
  | nil => intro log; exact ⟨[], [], by simp [Execute.inOrder], rfl, by simp⟩
  | cons test rest ih =>
    intro log
    obtain ⟨new1, r, h1, -, h3⟩ := executeTest_spec w te log test strategy hs
    obtain ⟨new2, rs, h4, h5, h6⟩ := ih (log ++ new1)
    refine ⟨new1 ++ new2, r :: rs, ?_, by simp [h5], ?_⟩
    · unfold Execute.inOrder
      rw [h1]
      dsimp only
      rw [h4, List.append_assoc]
    · intro c hc
      rcases List.mem_append.mp hc with hc | hc
      · exact h3 c hc
      · exact h6 c hc

/-- Running a list of assertions in order runs the assertion at any position after
exactly the assertions before it and before the assertions after it. -/
theorem inOrder_split (w : World) (te : TestExecutor) :
    ∀ (ts1 : List TestConfig) (t : TestConfig) (ts2 : List TestConfig) (log log2 : List Call)
      (results : List SingleTestResult),
      Execute.inOrder w te (ts1 ++ t :: ts2) log = some (log2, results) →
      ∃ (la lb : List Call) (rs1 : List SingleTestResult) (r : SingleTestResult)
        (rs2 : List SingleTestResult),
        Execute.inOrder w te ts1 log = some (la, rs1)
        ∧ te.executeTest w la t = some (lb, r)
        ∧ Execute.inOrder w te ts2 lb = some (log2, rs2)
        ∧ results = rs1 ++ r :: rs2
        ∧ rs1.length = ts1.length := by
  intro ts1
  induction ts1 with
  | nil =>
    intro t ts2 log log2 results h
    simp only [List.nil_append] at h
    unfold Execute.inOrder at h
    cases h1 : te.executeTest w log t with
    | none => rw [h1] at h; cases h
    | some p =>
      obtain ⟨lb, r⟩ := p
      rw [h1] at h
      dsimp only at h
      cases h2 : Execute.inOrder w te ts2 lb with
      | none => rw [h2] at h; cases h
      | some q =>
        obtain ⟨l2, rs2⟩ := q
        rw [h2] at h
        simp only [Option.some.injEq, Prod.mk.injEq] at h
        obtain ⟨rfl, rfl⟩ := h
        exact ⟨log, lb, [], r, rs2, by simp [Execute.inOrder], h1, h2, rfl, rfl⟩
  | cons x xs ih =>
    intro t ts2 log log2 results h
    simp only [List.cons_append] at h
    unfold Execute.inOrder at h
    cases h1 : te.executeTest w log x with
    | none => rw [h1] at h; cases h
    | some p =>
      obtain ⟨l1, r0⟩ := p
      rw [h1] at h
      dsimp only at h
      cases h2 : Execute.inOrder w te (xs ++ t :: ts2) l1 with
      | none => rw [h2] at h; cases h
      | some q =>
        obtain ⟨l2, rs⟩ := q
        rw [h2] at h
        simp only [Option.some.injEq, Prod.mk.injEq] at h
        obtain ⟨rfl, rfl⟩ := h
        obtain ⟨la, lb, rs1, r, rs2, a1, a2, a3, a4, a5⟩ := ih t ts2 l1 l2 rs h2
        refine ⟨la, lb, r0 :: rs1, r, rs2, ?_, a2, a3, by rw [a4]; rfl, by simp [a5]⟩
        unfold Execute.inOrder
        rw [h1]
        dsimp only
        rw [a1]

end testcases

namespace testcases

theorem setup_some_strategy (w : World) (te : TestExecutor) (log : List Call)
    (so : Outcome (Option String)) (h : te.setup w log = some so) :
    ∃ strategy, te.strategy = some strategy := by
  cases hs : te.strategy with
  | none =>
    unfold TestExecutor.setup at h
    simp only [hs] at h
    cases h
  | some strategy => exact ⟨strategy, rfl⟩

/-- With a strategy `setup` returns; it leaves the strategy and the template of the
executor alone, and after a `setup` that returned nil the executor holds the resolved
table name. -/
theorem setup_frame (w : World) (te : TestExecutor) (log : List Call)
    (strategy : strategies.DatabaseStrategy) (hs : te.strategy = some strategy) :
    ∃ so : Outcome (Option String),
      te.setup w log = some so
      ∧ so.te.strategy = te.strategy
      ∧ so.te.template = te.template
      ∧ (so.ret = none → so.te.tableName = resolvedTableName te) := by
  cases hc : strategy.Connect log with
  | some err =>
    refine ⟨⟨te, log ++ [Call.Connect], some ("连接数据库失败: " ++ err)⟩, ?_, rfl, rfl, ?_⟩
    · unfold TestExecutor.setup
      simp only [hs, hc]
    · intro h
      cases h
  | none =>
    obtain ⟨schema, h1, -, h3⟩ := setup_eq_afterSchema w te log strategy hs hc
    obtain ⟨a1, -, a3, a4, -⟩ := afterSchema_names w (setup.resolveNames te) strategy
      (log ++ [Call.Connect]) schema (by rw [h1, resolveNames_tableName])
    rw [resolveNames_tableName] at a1
    rw [resolveNames_template] at a3
    rw [resolveNames_strategy] at a4
    exact ⟨_, h3, a4, a3, fun _ => a1⟩

/-- `Execute` in terms of the outcome of `setup`: an error of `setup` is returned at
once; otherwise the assertions run in order, then the deferred `cleanup`. -/
theorem Execute_of_setup (w : World) (te : TestExecutor) (log : List Call)
    (so : Outcome (Option String)) (h : te.setup w log = some so) :
    (∀ err, so.ret = some err →
      te.Execute w log = some ⟨so.te, so.log, .error ("准备阶段失败: " ++ err)⟩)
    ∧ (so.ret = none →
      te.Execute w log
        = (Execute.inOrder w so.te so.te.template.Tests so.log).map (fun p =>
            (⟨so.te, so.te.cleanup p.1,
              .ok { TemplateName := te.template.Name, Namespace := te.namespace_,
                    TestResults := p.2,
                    HasFailure := p.2.any (fun r => !r.Passed) }⟩ :
              Outcome (Except String TestResult)))) := by
  obtain ⟨te2, log1, ret⟩ := so
  constructor
  · intro err herr
    dsimp only at herr
    subst herr
    unfold TestExecutor.Execute
    simp only [h]
  · intro hok
    dsimp only at hok
    subst hok
    unfold TestExecutor.Execute
    simp only [h, loop_eq_inOrder]
    cases Execute.inOrder w te2 te2.template.Tests log1 with
    | none => rfl
    | some p => simp

/-- C13: for every template whose `setup` succeeds, `Execute` returns a report whose
`HasFailure` is true if and only if one of its per-assertion results has
`Passed = false`; for a template without assertions `HasFailure` is false. -/
theorem Execute_HasFailure (w : World) (te : TestExecutor) (log : List Call)
    (so : Outcome (Option String)) (hsetup : te.setup w log = some so)
    (hok : so.ret = none) :
    ∃ (out : Outcome (Except String TestResult)) (report : TestResult),
      te.Execute w log = some out
      ∧ out.ret = .ok report
      ∧ (report.HasFailure = true ↔ ∃ r ∈ report.TestResults, r.Passed = false)
      ∧ (te.template.Tests = [] → report.HasFailure = false) := by
  obtain ⟨strategy, hs⟩ := setup_some_strategy w te log so hsetup
  obtain ⟨so2, f1, f2, f3, -⟩ := setup_frame w te log strategy hs
  rw [hsetup] at f1
  cases f1
  obtain ⟨new, results, h1, h2, -⟩ := inOrder_spec w so.te strategy (by rw [f2, hs])
    so.te.template.Tests so.log
  have hE := (Execute_of_setup w te log so hsetup).2 hok
  rw [h1] at hE
  refine ⟨_, _, hE, rfl, ?_, ?_⟩
  · simp
  · intro hnil
    rw [f3, hnil] at h2
    have : results = [] := List.length_eq_zero.mp h2
    subst this
    rfl

/-- C14: for every template whose `setup` succeeds, `Execute` returns a report with
exactly one entry per assertion, and the entries are those of running the assertions
one after the other in template order: the assertion at any position runs after exactly
the assertions before it and before those after it, and the entry at its position is
its result, carrying its expected row count, whether or not earlier assertions
passed. -/
theorem Execute_runs_assertions_in_order (w : World) (te : TestExecutor) (log : List Call)
    (so : Outcome (Option String)) (hsetup : te.setup w log = some so)
    (hok : so.ret = none) :
    ∃ (out : Outcome (Except String TestResult)) (report : TestResult) (log2 : List Call),
      te.Execute w log = some out
      ∧ out.ret = .ok report
      ∧ Execute.inOrder w so.te te.template.Tests so.log = some (log2, report.TestResults)
      ∧ report.TestResults.length = te.template.Tests.length
      ∧ ∀ (ts1 : List TestConfig) (t : TestConfig) (ts2 : List TestConfig),
          te.template.Tests = ts1 ++ t :: ts2 →
          ∃ (la lb : List Call) (rs1 : List SingleTestResult) (r : SingleTestResult)
            (rs2 : List SingleTestResult),
            Execute.inOrder w so.te ts1 so.log = some (la, rs1)
            ∧ so.te.executeTest w la t = some (lb, r)
            ∧ Execute.inOrder w so.te ts2 lb = some (log2, rs2)
            ∧ report.TestResults = rs1 ++ r :: rs2
            ∧ rs1.length = ts1.length
            ∧ report.TestResults[ts1.length]? = some r
            ∧ r.Expected = t.Expected := by
  obtain ⟨strategy, hs⟩ := setup_some_strategy w te log so hsetup
  obtain ⟨so2, f1, f2, f3, -⟩ := setup_frame w te log strategy hs
  rw [hsetup] at f1
  cases f1
  have hs2 : so.te.strategy = some strategy := by rw [f2, hs]
  obtain ⟨new, results, h1, h2, -⟩ := inOrder_spec w so.te strategy hs2
    so.te.template.Tests so.log
  have hE := (Execute_of_setup w te log so hsetup).2 hok
  rw [h1] at hE
  rw [f3] at h1 h2
  refine ⟨_, _, so.log ++ new, hE, rfl, h1, h2, ?_⟩
  intro ts1 t ts2 hsplit
  rw [hsplit] at h1
  obtain ⟨la, lb, rs1, r, rs2, a1, a2, a3, a4, a5⟩ :=
    inOrder_split w so.te ts1 t ts2 so.log (so.log ++ new) results h1
  obtain ⟨new3, r3, b1, b2, -⟩ := executeTest_spec w so.te la t strategy hs2
  rw [a2] at b1
  simp only [Option.some.injEq, Prod.mk.injEq] at b1
  refine ⟨la, lb, rs1, r, rs2, a1, a2, a3, a4, a5, ?_, by rw [b1.2]; exact b2⟩
  show results[ts1.length]? = some r
  rw [a4, ← a5, List.getElem?_append_right (le_refl _)]
  simp

/-- The outcome of `setup` on the fixture with three assertions. -/
theorem fixtureAsserting_setup :
    ∃ so : Outcome (Option String),
      fixtureAssertingExecutor.setup fixtureWorld [] = some so ∧ so.ret = none := by
  have hd : (fixtureAssertingExecutor.setup fixtureWorld []).map (fun o => o.ret) = some none := by
    decide
  cases h : fixtureAssertingExecutor.setup fixtureWorld [] with
  | none => rw [h] at hd; cases hd
  | some so =>
    rw [h] at hd
    exact ⟨so, rfl, by simpa using hd⟩

/-- Witness of C13: the run of the fixture with three assertions, whose second assertion
does not pass. -/
theorem Execute_HasFailure_witness :
    ∃ (out : Outcome (Except String TestResult)) (report : TestResult),
      fixtureAssertingExecutor.Execute fixtureWorld [] = some out
      ∧ out.ret = .ok report
      ∧ report.HasFailure = true
      ∧ ∃ r ∈ report.TestResults, r.Passed = false := by
  obtain ⟨so, h1, h2⟩ := fixtureAsserting_setup
  obtain ⟨out, report, hE, hr, hiff, -⟩ :=
    Execute_HasFailure fixtureWorld fixtureAssertingExecutor [] so h1 h2
  have hd : (fixtureAssertingExecutor.Execute fixtureWorld []).map
      (fun o => match o.ret with
        | .ok r => r.HasFailure
        | .error _ => false) = some true := by decide
  rw [hE] at hd
  simp only [Option.map_some', hr, Option.some.injEq] at hd
  exact ⟨out, report, hE, hr, hd, hiff.mp hd⟩

/-- Witness of C14: in the run of the fixture with three assertions the entry at
position 1 is the result of the second assertion, with its expected count 5. -/
theorem Execute_runs_assertions_in_order_witness :
    ∃ (out : Outcome (Except String TestResult)) (report : TestResult) (r : SingleTestResult),
      fixtureAssertingExecutor.Execute fixtureWorld [] = some out
      ∧ out.ret = .ok report
      ∧ report.TestResults.length = 3
      ∧ report.TestResults[1]? = some r
      ∧ r.Expected = 5 := by
  obtain ⟨so, h1, h2⟩ := fixtureAsserting_setup
  obtain ⟨out, report, log2, hE, hr, -, hlen, hsplit⟩ :=
    Execute_runs_assertions_in_order fixtureWorld fixtureAssertingExecutor [] so h1 h2
  obtain ⟨la, lb, rs1, r, rs2, -, -, -, -, -, hidx, hexp⟩ :=
    hsplit [⟨"read", 1000, Float64.ofRatio 1 10⟩] ⟨"bogus", 5, Float64.ofRatio 1 10⟩
      [⟨"read_write", 1000, Float64.ofRatio 1 10⟩] rfl
  exact ⟨out, report, r, hE, hr, hlen, hidx, hexp⟩

/-- C15: for every assertion of kind `read_write` whose write sub-test returns a result
with `Passed = false`, `executeTest` returns that result of the write sub-test as it is,
and the only call made for the assertion is the write validation: the read sub-test does
not run and no `GetRowCount` is issued. -/
theorem executeTest_read_write_short_circuit (w : World) (te : TestExecutor)
    (log log1 : List Call) (test : TestConfig) (writeResult : SingleTestResult)
    (hkind : test.Type_ = "read_write")
    (hwrite : te.testWrite w log test = some (log1, writeResult))
    (hfail : writeResult.Passed = false) :
    te.executeTest w log test = some (log1, writeResult)
    ∧ log1 = log ++ [Call.ValidateWriteResult te.tableName]
    ∧ (∀ c ∈ [Call.ValidateWriteResult te.tableName], ∀ t, c ≠ Call.GetRowCount t)
    ∧ (∀ (la lb : List Call) (r : SingleTestResult),
        te.testRead w la test = some (lb, r) → Call.GetRowCount te.tableName ∈ lb) := by
  have hs : ∃ strategy, te.strategy = some strategy := by
    cases h : te.strategy with
    | none =>
      unfold TestExecutor.testWrite at hwrite
      simp only [h] at hwrite
      cases hwrite
    | some strategy => exact ⟨strategy, rfl⟩
  obtain ⟨strategy, hs⟩ := hs
  refine ⟨?_, ?_, ?_, ?_⟩
  · unfold TestExecutor.executeTest
    dsimp only
    split
    · rename_i h; rw [hkind] at h; exact absurd h (by decide)
    · rename_i h; rw [hkind] at h; exact absurd h (by decide)
    · rw [hwrite]
      simp [hfail]
    · rename_i h1 h2 h3; exact absurd hkind h3
  · obtain ⟨r, h1, -, -⟩ := testWrite_spec w te log test strategy hs
    rw [hwrite] at h1
    simp only [Option.some.injEq, Prod.mk.injEq] at h1
    exact h1.1
  · simp
  · intro la lb r hread
    obtain ⟨r2, h1, -, -⟩ := testRead_spec w te la test strategy hs
    rw [hread] at h1
    simp only [Option.some.injEq, Prod.mk.injEq] at h1
    rw [h1.1]
    simp

/-- Witness of C15: a `read_write` assertion on a world whose write validation does
not pass. -/
theorem executeTest_read_write_short_circuit_witness :
    (setup.resolveNames (fixtureExecutor "orders" "" false 1000 (fixtureStrategy true 7))).executeTest
        fixtureWorldWriteFails [] ⟨"read_write", 1000, Float64.ofRatio 1 10⟩
      = some ([Call.ValidateWriteResult "orders"],
          { TestType := "write", Expected := 1000, Actual := 7, Diff := -993,
            DiffPercent := Float64.finite 0 0, Passed := false,
            Message := "row count mismatch", Error := "" }) :=
  (executeTest_read_write_short_circuit fixtureWorldWriteFails
    (setup.resolveNames (fixtureExecutor "orders" "" false 1000 (fixtureStrategy true 7)))
    [] [Call.ValidateWriteResult "orders"] ⟨"read_write", 1000, Float64.ofRatio 1 10⟩
    { TestType := "write", Expected := 1000, Actual := 7, Diff := -993,
      DiffPercent := Float64.finite 0 0, Passed := false,
      Message := "row count mismatch", Error := "" }
    rfl (by decide) rfl).1

end testcases

/-! ## Failures during `setup` -/

theorem Run.clean_append (F : List Call → Call → Prop) :
    ∀ (xs : List Call) (hist ys : List Call),
      Run.clean F hist (xs ++ ys) ↔ Run.clean F hist xs ∧ Run.clean F (hist ++ xs) ys := by
  intro xs
  induction xs with
  | nil => intro hist ys; simp [Run.clean]
  | cons x xs ih =>
    intro hist ys
    have e : hist ++ [x] ++ xs = hist ++ x :: xs := by simp
    show (¬ F hist x ∧ Run.clean F (hist ++ [x]) (xs ++ ys))
      ↔ (¬ F hist x ∧ Run.clean F (hist ++ [x]) xs) ∧ Run.clean F (hist ++ x :: xs) ys
    rw [ih, e, and_assoc]

theorem Run.clean_no_failure (F : List Call → Call → Prop) :
    ∀ (pre : List Call) (hist new : List Call) (c : Call) (post : List Call),
      Run.clean F hist new → new = pre ++ c :: post → ¬ F (hist ++ pre) c := by
  intro pre hist new c post hclean hsplit
  rw [hsplit, Run.clean_append] at hclean
  exact hclean.2.1

theorem Run.clean_snoc_failure (F : List Call → Call → Prop) :
    ∀ (pre0 : List Call) (hist : List Call) (c0 : Call) (pre : List Call) (c : Call)
      (post : List Call),
      Run.clean F hist pre0 → pre0 ++ [c0] = pre ++ c :: post → F (hist ++ pre) c →
      post = [] := by
  intro pre0
  induction pre0 with
  | nil =>
    intro hist c0 pre c post _ hsplit _
    cases pre with
    | nil => simp at hsplit; exact hsplit.2
    | cons y ys =>
      simp only [List.nil_append, List.cons_append, List.cons.injEq] at hsplit
      have := congrArg List.length hsplit.2
      simp at this
      omega
  | cons x xs ih =>
    intro hist c0 pre c post hclean hsplit hF
    cases pre with
    | nil =>
      simp only [List.cons_append, List.nil_append, List.cons.injEq] at hsplit
      rw [← hsplit.1] at hF
      simp only [List.append_nil] at hF
      exact absurd hF hclean.1
    | cons y ys =>
      simp only [List.cons_append, List.cons.injEq] at hsplit
      obtain ⟨rfl, hrest⟩ := hsplit
      have e : hist ++ x :: ys = hist ++ [x] ++ ys := by simp
      rw [e] at hF
      exact ih (hist ++ [x]) c0 ys c post hclean.2 hrest hF

/-- In a run that stops at its first failure, a failed call is the last call and the
run is a failed run. -/
theorem Run.stopsAtFailure_split (F : List Call → Call → Prop) (hist new : List Call)
    (failedRun : Prop) (h : Run.stopsAtFailure F hist new failedRun)
    (pre : List Call) (c : Call) (post : List Call) (hsplit : new = pre ++ c :: post)
    (hF : F (hist ++ pre) c) : post = [] ∧ failedRun := by
  by_cases hp : failedRun
  · refine ⟨?_, hp⟩
    obtain ⟨pre0, hclean, hnew | ⟨c0, hnew⟩⟩ := h.1 hp
    · exact absurd hF (Run.clean_no_failure F pre hist new c post (hnew ▸ hclean) hsplit)
    · exact Run.clean_snoc_failure F pre0 hist c0 pre c post hclean (hnew ▸ hsplit) hF
  · exact absurd hF (Run.clean_no_failure F pre hist new c post (h.2 hp) hsplit)

/-- A run that follows calls without failure stops at its first failure together
with them. -/
theorem Run.stopsAtFailure_prepend (F : List Call → Call → Prop) (hist xs ys : List Call)
    (failedRun : Prop) (hx : Run.clean F hist xs)
    (h : Run.stopsAtFailure F (hist ++ xs) ys failedRun) :
    Run.stopsAtFailure F hist (xs ++ ys) failedRun := by
  constructor
  · intro hp
    obtain ⟨pre0, hclean, hnew | ⟨c0, hnew⟩⟩ := h.1 hp
    · exact ⟨xs ++ pre0, (Run.clean_append F xs hist pre0).mpr ⟨hx, hclean⟩,
        Or.inl (by rw [hnew])⟩
    · exact ⟨xs ++ pre0, (Run.clean_append F xs hist pre0).mpr ⟨hx, hclean⟩,
        Or.inr ⟨c0, by rw [hnew, List.append_assoc]⟩⟩
  · intro hp
    exact (Run.clean_append F xs hist ys).mpr ⟨hx, h.2 hp⟩

/-- A single call that fails ends a failed run. -/
theorem Run.stopsAtFailure_last (F : List Call → Call → Prop) (hist : List Call) (c : Call)
    (failedRun : Prop) (hp : failedRun) : Run.stopsAtFailure F hist [c] failedRun :=
  ⟨fun _ => ⟨[], trivial, Or.inr ⟨c, rfl⟩⟩, fun hn => absurd hp hn⟩

/-- A run without failure that is not a failed run stops at its first failure. -/
theorem Run.stopsAtFailure_clean (F : List Call → Call → Prop) (hist new : List Call)
    (failedRun : Prop) (hn : ¬ failedRun) (hc : Run.clean F hist new) :
    Run.stopsAtFailure F hist new failedRun :=
  ⟨fun hp => absurd hp hn, fun _ => hc⟩

theorem Run.stopsAtFailure_congr (F : List Call → Call → Prop) (hist new : List Call)
    (P Q : Prop) (hpq : P ↔ Q) (h : Run.stopsAtFailure F hist new P) :
    Run.stopsAtFailure F hist new Q :=
  ⟨fun hq => h.1 (hpq.mpr hq), fun hq => h.2 (fun hp => hq (hpq.mp hp))⟩

namespace testcases

/-- The registration stops at its first failure, and an unsupported dialect code
fails it before any call. -/
theorem registerToIDAService_verdict (w : World) (te : TestExecutor)
    (strategy : strategies.DatabaseStrategy) (hist : List Call) :
    ∃ new : List Call, (te.registerToIDAService strategy hist).log = hist ++ new
      ∧ Run.stopsAtFailure (Call.failed te.idaClient w strategy) hist new
          ((te.registerToIDAService strategy hist).ret ≠ none)
      ∧ (List.lookup strategy.GetConnectionInfo.Type_
            [("mysql", (1 : Int)), ("kingbase", 2), ("gbase", 3), ("vastbase", 4)] = none →
          (te.registerToIDAService strategy hist).ret ≠ none ∧ new = []) := by
  unfold TestExecutor.registerToIDAService
  dsimp only
  split
  · rename_i hl
    exact ⟨[], by simp, ⟨fun _ => ⟨[], trivial, Or.inl rfl⟩, fun hn => absurd (by simp) hn⟩,
      fun _ => ⟨by simp, rfl⟩⟩
  · rename_i dbType hl
    split
    · exact ⟨_, rfl, Run.stopsAtFailure_last _ _ _ _ (by simp),
        fun h => by rw [hl] at h; cases h⟩
    · rename_i dsResp hds
      split_ifs with hsucc
      · exact ⟨_, rfl, Run.stopsAtFailure_last _ _ _ _ (by simp),
          fun h => by rw [hl] at h; cases h⟩
      · have hclean1 : Run.clean (Call.failed te.idaClient w strategy) hist
            [Call.CreateDataSource
              { Name := "test_datasource_" ++ te.namespace_,
                Host := strategy.GetConnectionInfo.Host,
                Port := int32.wrap strategy.GetConnectionInfo.Port, DBType := dbType,
                Username := strategy.GetConnectionInfo.User,
                Password := strategy.GetConnectionInfo.Password,
                DatabaseName := strategy.GetConnectionInfo.Database }] := by
          simp only [Run.clean, Call.failed, hds, and_true]
          intro h
          have := h dsResp rfl
          simp [this] at hsucc
        split
        · refine ⟨_, by rw [List.append_assoc], ?_, fun h => by rw [hl] at h; cases h⟩
          exact Run.stopsAtFailure_prepend _ _ _ _ _ hclean1
            (Run.stopsAtFailure_last _ _ _ _ (by simp))
        · rename_i assetResp hasset
          split_ifs with hsucc2
          · refine ⟨_, by rw [List.append_assoc], ?_, fun h => by rw [hl] at h; cases h⟩
            exact Run.stopsAtFailure_prepend _ _ _ _ _ hclean1
              (Run.stopsAtFailure_last _ _ _ _ (by simp))
          · refine ⟨_, by rw [List.append_assoc], ?_, fun h => by rw [hl] at h; cases h⟩
            refine Run.stopsAtFailure_prepend _ _ _ _ _ hclean1 ⟨fun h => absurd rfl h, fun _ => ?_⟩
            simp only [Run.clean, Call.failed, and_true]
            intro h
            have := h assetResp hasset
            simp [this] at hsucc2

theorem register_tail_verdict (w : World) (te : TestExecutor)
    (strategy : strategies.DatabaseStrategy) (hist : List Call) :
    ∃ (out : Outcome (Option String)) (new : List Call),
      (match te.registerToIDAService strategy hist with
        | ⟨te, log5, some err⟩ =>
          (⟨te, log5, some ("注册到IDA-service失败: " ++ err)⟩ : Outcome (Option String))
        | ⟨te, log5, none⟩ => ⟨te, log5, none⟩) = out
      ∧ out.log = hist ++ new
      ∧ Run.stopsAtFailure (Call.failed te.idaClient w strategy) hist new (out.ret ≠ none)
      ∧ (List.lookup strategy.GetConnectionInfo.Type_
            [("mysql", (1 : Int)), ("kingbase", 2), ("gbase", 3), ("vastbase", 4)] = none →
          out.ret ≠ none) := by
  obtain ⟨new, h1, h2, h3⟩ := registerToIDAService_verdict w te strategy hist
  rcases hr : te.registerToIDAService strategy hist with ⟨te2, log5, ret⟩
  rw [hr] at h1 h2 h3
  cases ret with
  | none => exact ⟨_, new, rfl, h1, h2, fun h => (h3 h).1⟩
  | some err =>
    exact ⟨_, new, rfl, h1,
      Run.stopsAtFailure_congr _ _ _ _ _ (by simp) h2, fun _ => by simp⟩

theorem reconcile_verdict (w : World) (te : TestExecutor)
    (strategy : strategies.DatabaseStrategy) (hist : List Call) (b : Bool) :
    ∃ new : List Call, (setup.reconcile te strategy hist b).1 = hist ++ new
      ∧ Run.stopsAtFailure (Call.failed te.idaClient w strategy) hist new
          (∃ err, (setup.reconcile te strategy hist b).2 = .error err) := by
  unfold setup.reconcile
  split_ifs
  · dsimp only
    split
    · exact ⟨_, rfl, Run.stopsAtFailure_last _ _ _ _ ⟨_, rfl⟩⟩
    · rename_i a hrow
      have hclean1 : Run.clean (Call.failed te.idaClient w strategy) hist
          [Call.GetRowCount te.tableName] := by
        simp [Run.clean, Call.failed, hrow]
      split_ifs
      · exact ⟨_, rfl, Run.stopsAtFailure_clean _ _ _ _ (fun ⟨e, he⟩ => by cases he) hclean1⟩
      · split
        · refine ⟨_, by rw [List.append_assoc], ?_⟩
          exact Run.stopsAtFailure_prepend _ _ _ _ _ hclean1
            (Run.stopsAtFailure_last _ _ _ _ ⟨_, rfl⟩)
        · rename_i hcl
          refine ⟨_, by rw [List.append_assoc],
            Run.stopsAtFailure_clean _ _ _ _ (fun ⟨e, he⟩ => by cases he) ?_⟩
          refine (Run.clean_append _ _ _ _).mpr ⟨hclean1, ?_⟩
          simp [Run.clean, Call.failed, hcl]
  · exact ⟨[], by simp, Run.stopsAtFailure_clean _ _ _ _ (fun ⟨e, he⟩ => by cases he) trivial⟩

/-- The data generation and what follows it stop at their first failure. -/
theorem generate_tail_verdict (w : World) (te : TestExecutor)
    (strategy : strategies.DatabaseStrategy) (log3 : List Call)
    (schema : generators.SchemaDefinition) :
    ∃ (out : Outcome (Option String)) (new : List Call),
      (match w.GenerateAndInsert log3 schema with
        | some err =>
          (⟨te, log3 ++ [Call.GenerateAndInsert schema], some ("生成数据失败: " ++ err)⟩ :
            Outcome (Option String))
        | none =>
          match te.registerToIDAService strategy (log3 ++ [Call.GenerateAndInsert schema]) with
          | ⟨te, log5, some err⟩ => ⟨te, log5, some ("注册到IDA-service失败: " ++ err)⟩
          | ⟨te, log5, none⟩ => ⟨te, log5, none⟩) = out
      ∧ out.log = log3 ++ new
      ∧ Run.stopsAtFailure (Call.failed te.idaClient w strategy) log3 new (out.ret ≠ none)
      ∧ (List.lookup strategy.GetConnectionInfo.Type_
            [("mysql", (1 : Int)), ("kingbase", 2), ("gbase", 3), ("vastbase", 4)] = none →
          out.ret ≠ none) := by
  cases hg : w.GenerateAndInsert log3 schema with
  | some err =>
    exact ⟨_, [Call.GenerateAndInsert schema], rfl, rfl,
      Run.stopsAtFailure_last _ _ _ _ (by simp), fun _ => by simp⟩
  | none =>
    obtain ⟨out, new2, he, h1, h2, h3⟩ :=
      register_tail_verdict w te strategy (log3 ++ [Call.GenerateAndInsert schema])
    refine ⟨out, Call.GenerateAndInsert schema :: new2, he, by rw [h1]; simp, ?_, h3⟩
    have hclean : Run.clean (Call.failed te.idaClient w strategy) log3
        [Call.GenerateAndInsert schema] := by
      simp [Run.clean, Call.failed, hg]
    exact Run.stopsAtFailure_prepend _ log3 [Call.GenerateAndInsert schema] new2 _ hclean h2

/-- `setup.afterSchema` stops at its first failure, and an unsupported dialect code
fails it. -/
theorem afterSchema_verdict (w : World) (te : TestExecutor)
    (strategy : strategies.DatabaseStrategy) (log1 : List Call)
    (schema : generators.SchemaDefinition) :
    ∃ new : List Call, (setup.afterSchema w te strategy log1 schema).log = log1 ++ new
      ∧ Run.stopsAtFailure (Call.failed te.idaClient w strategy) log1 new
          ((setup.afterSchema w te strategy log1 schema).ret ≠ none)
      ∧ (List.lookup strategy.GetConnectionInfo.Type_
            [("mysql", (1 : Int)), ("kingbase", 2), ("gbase", 3), ("vastbase", 4)] = none →
          (setup.afterSchema w te strategy log1 schema).ret ≠ none) := by
  unfold setup.afterSchema
  dsimp only
  split
  · exact ⟨_, rfl, Run.stopsAtFailure_last _ _ _ _ (by simp), fun _ => by simp⟩
  · rename_i tableExists hte
    have hclean0 : Run.clean (Call.failed te.idaClient w strategy) log1
        [Call.TableExists te.tableName] := by
      simp [Run.clean, Call.failed, hte]
    obtain ⟨new1, hn1, hv1⟩ :=
      reconcile_verdict w te strategy (log1 ++ [Call.TableExists te.tableName]) tableExists
    split
    · rename_i log3 err hrec
      rw [hrec] at hn1 hv1
      dsimp only at hn1 hv1
      refine ⟨Call.TableExists te.tableName :: new1, by rw [hn1]; simp, ?_, fun _ => by simp⟩
      exact Run.stopsAtFailure_prepend _ log1 [Call.TableExists te.tableName] new1 _ hclean0
        (Run.stopsAtFailure_congr _ _ _ _ _ (by simp) hv1)
    · rename_i log3 tableExists2 hrec
      rw [hrec] at hn1 hv1
      dsimp only at hn1 hv1
      have hclean1 : Run.clean (Call.failed te.idaClient w strategy)
          (log1 ++ [Call.TableExists te.tableName]) new1 :=
        hv1.2 (fun ⟨e, he⟩ => by cases he)
      have hclean01 : Run.clean (Call.failed te.idaClient w strategy) log1
          ([Call.TableExists te.tableName] ++ new1) :=
        (Run.clean_append _ _ _ _).mpr ⟨hclean0, hclean1⟩
      have hlog3 : log3 = log1 ++ ([Call.TableExists te.tableName] ++ new1) := by
        rw [hn1]; simp
      split_ifs
      · obtain ⟨out, new2, he, h1, h2, h3⟩ := generate_tail_verdict w te strategy log3 schema
        rw [he]
        refine ⟨[Call.TableExists te.tableName] ++ new1 ++ new2, by rw [h1, hlog3]; simp, ?_, h3⟩
        rw [hlog3] at h2
        exact Run.stopsAtFailure_prepend _ log1 _ new2 _ hclean01 h2
      · obtain ⟨out, new2, he, h1, h2, h3⟩ := register_tail_verdict w te strategy log3
        rw [he]
        refine ⟨[Call.TableExists te.tableName] ++ new1 ++ new2, by rw [h1, hlog3]; simp, ?_, h3⟩
        rw [hlog3] at h2
        exact Run.stopsAtFailure_prepend _ log1 _ new2 _ hclean01 h2

end testcases

namespace testcases

theorem resolveNames_idaClient (te : TestExecutor) :
    (setup.resolveNames te).idaClient = te.idaClient := by
  unfold setup.resolveNames
  by_cases h1 : te.template.Schema.TableName = "" <;>
    by_cases h2 : te.template.Schema.AssetName = "" <;> simp [h1, h2]

/-- C12: fatal setup. On an executor with a strategy `setup` returns, and a call of
`setup` whose answer is a failure (an error of `Connect`, `TableExists`, `GetRowCount`,
the `Cleanup` before regeneration or the data generator, an error or `Success = false` of
`CreateDataSource` or `CreateAsset`) is the last call `setup` makes and makes `setup`
return an error; so does an unsupported dialect code. In particular after a failed
`Connect` no other call is made, and after a failed `CreateDataSource` no `CreateAsset`.
When `setup` returns an error, `Execute` returns an error and no report, with the calls
of `setup` and no other: no assertion runs. -/
theorem Execute_fatal_setup (w : World) (te : TestExecutor) (log : List Call)
    (strategy : strategies.DatabaseStrategy) (hs : te.strategy = some strategy) :
    ∃ (so : Outcome (Option String)) (new : List Call),
      te.setup w log = some so
      ∧ so.log = log ++ new
      ∧ (∀ (pre : List Call) (c : Call) (post : List Call), new = pre ++ c :: post →
          Call.failed te.idaClient w strategy (log ++ pre) c → post = [] ∧ so.ret ≠ none)
      ∧ (strategy.Connect log ≠ none → new = [Call.Connect])
      ∧ (List.lookup strategy.GetConnectionInfo.Type_
            [("mysql", (1 : Int)), ("kingbase", 2), ("gbase", 3), ("vastbase", 4)] = none →
          so.ret ≠ none)
      ∧ (∀ err, so.ret = some err →
          te.Execute w log = some ⟨so.te, so.log, .error ("准备阶段失败: " ++ err)⟩) := by
  have key : ∃ (so : Outcome (Option String)) (new : List Call),
      te.setup w log = some so
      ∧ so.log = log ++ new
      ∧ Run.stopsAtFailure (Call.failed te.idaClient w strategy) log new (so.ret ≠ none)
      ∧ (strategy.Connect log ≠ none → new = [Call.Connect])
      ∧ (List.lookup strategy.GetConnectionInfo.Type_
            [("mysql", (1 : Int)), ("kingbase", 2), ("gbase", 3), ("vastbase", 4)] = none →
          so.ret ≠ none) := by
    cases hc : strategy.Connect log with
    | some err =>
      refine ⟨⟨te, log ++ [Call.Connect], some ("连接数据库失败: " ++ err)⟩, [Call.Connect], ?_, rfl,
        Run.stopsAtFailure_last _ _ _ _ (by simp), fun _ => rfl, fun _ => by simp⟩
      unfold TestExecutor.setup
      simp only [hs, hc]
    | none =>
      obtain ⟨schema, -, -, h3⟩ := setup_eq_afterSchema w te log strategy hs hc
      obtain ⟨new, a1, a2, a3⟩ := afterSchema_verdict w (setup.resolveNames te) strategy
        (log ++ [Call.Connect]) schema
      rw [resolveNames_idaClient] at a2
      refine ⟨_, Call.Connect :: new, h3, by rw [a1]; simp, ?_, fun h => absurd rfl h, a3⟩
      have hclean : Run.clean (Call.failed te.idaClient w strategy) log [Call.Connect] := by
        simp [Run.clean, Call.failed, hc]
      exact Run.stopsAtFailure_prepend _ log [Call.Connect] new _ hclean a2
  obtain ⟨so, new, h1, h2, h3, h4, h5⟩ := key
  refine ⟨so, new, h1, h2, ?_, h4, h5, (Execute_of_setup w te log so h1).1⟩
  intro pre c post hsplit hF
  exact Run.stopsAtFailure_split _ log new _ h3 pre c post hsplit hF

/-- Witness of C12: the database refuses the connection. -/
theorem Execute_fatal_setup_witness :
    ∃ so : Outcome (Option String),
      (fixtureExecutor "" "" false 1000 fixtureStrategyDown).setup fixtureWorld [] = some so
      ∧ so.log = [Call.Connect]
      ∧ so.ret = some "连接数据库失败: connection refused"
      ∧ (fixtureExecutor "" "" false 1000 fixtureStrategyDown).Execute fixtureWorld []
          = some ⟨so.te, so.log, .error "准备阶段失败: 连接数据库失败: connection refused"⟩ := by
  obtain ⟨so, new, h1, h2, -, h4, -, h6⟩ := Execute_fatal_setup fixtureWorld
    (fixtureExecutor "" "" false 1000 fixtureStrategyDown) [] fixtureStrategyDown rfl
  have hnew : new = [Call.Connect] := h4 (by decide)
  have hd : ((fixtureExecutor "" "" false 1000 fixtureStrategyDown).setup fixtureWorld []).map
      (fun o => o.ret) = some (some "连接数据库失败: connection refused") := by decide
  rw [h1] at hd
  simp only [Option.map_some', Option.some.injEq] at hd
  refine ⟨so, h1, by rw [h2, hnew]; rfl, hd, ?_⟩
  rw [h6 _ hd]
  rfl

theorem string_append_ne_empty (s t : String) (hs : s ≠ "") : s ++ t ≠ "" := by
  intro h
  apply hs
  have h2 := congrArg String.data h
  rw [String.data_append] at h2
  have h3 : s.data = [] := (List.append_eq_nil.mp h2).1
  exact String.ext h3

/-- The result of an assertion of an unknown kind, on any executor. -/
theorem executeTest_unknown (w : World) (te : TestExecutor) (log : List Call)
    (test : TestConfig) (h1 : test.Type_ ≠ "read") (h2 : test.Type_ ≠ "write")
    (h3 : test.Type_ ≠ "read_write") :
    te.executeTest w log test = some (log, unknownKindResult test) := by
  unfold TestExecutor.executeTest unknownKindResult
  dsimp only
  split
  · rename_i h; exact absurd h h1
  · rename_i h; exact absurd h h2
  · rename_i h; exact absurd h h3
  · rfl

/-- C16: an assertion whose kind is none of `read`, `write`, `read_write` gets a result
with `Passed = false` and the non-empty `Error` that names the kind, and no call is made
for it. The run goes on: when `setup` succeeded and the template holds such an
assertion, `Execute` returns a report, not an error, with one entry per assertion of the
template, the result of that assertion among them, and `HasFailure = true`. -/
theorem executeTest_unknown_kind (w : World) (te : TestExecutor) (test : TestConfig)
    (h1 : test.Type_ ≠ "read") (h2 : test.Type_ ≠ "write")
    (h3 : test.Type_ ≠ "read_write") :
    (∀ log : List Call, ∃ r : SingleTestResult,
      te.executeTest w log test = some (log, r)
      ∧ r.Passed = false
      ∧ r.Error = "未知的测试类型: " ++ test.Type_
      ∧ r.Error ≠ ""
      ∧ r.TestType = test.Type_
      ∧ r.Expected = test.Expected)
    ∧ (∀ (log : List Call) (so : Outcome (Option String)),
      te.setup w log = some so → so.ret = none → test ∈ te.template.Tests →
      ∃ (out : Outcome (Except String TestResult)) (report : TestResult),
        te.Execute w log = some out
        ∧ out.ret = .ok report
        ∧ report.HasFailure = true
        ∧ report.TestResults.length = te.template.Tests.length
        ∧ ∃ r ∈ report.TestResults,
            r.Passed = false ∧ r.Error = "未知的测试类型: " ++ test.Type_) := by
  constructor
  · intro log
    exact ⟨unknownKindResult test, executeTest_unknown w te log test h1 h2 h3, rfl, rfl,
      string_append_ne_empty _ _ (by decide), rfl, rfl⟩
  · intro log so hsetup hok hmem
    obtain ⟨strategy, hs⟩ := setup_some_strategy w te log so hsetup
    obtain ⟨so2, f1, f2, f3, -⟩ := setup_frame w te log strategy hs
    rw [hsetup] at f1
    cases f1
    have hs2 : so.te.strategy = some strategy := by rw [f2, hs]
    obtain ⟨new, results, i1, i2, -⟩ := inOrder_spec w so.te strategy hs2
      so.te.template.Tests so.log
    have hE := (Execute_of_setup w te log so hsetup).2 hok
    rw [i1] at hE
    rw [f3] at i1 i2
    obtain ⟨ts1, ts2, hsplit⟩ := List.append_of_mem hmem
    rw [hsplit] at i1
    obtain ⟨la, lb, rs1, r, rs2, -, a2, -, a4, -⟩ :=
      inOrder_split w so.te ts1 test ts2 so.log (so.log ++ new) results i1
    rw [executeTest_unknown w so.te la test h1 h2 h3] at a2
    simp only [Option.some.injEq, Prod.mk.injEq] at a2
    have hr : r = unknownKindResult test := a2.2.symm
    have hin : unknownKindResult test ∈ results := by
      rw [a4, hr]; simp
    refine ⟨_, _, hE, rfl, ?_, i2, unknownKindResult test, hin, rfl, rfl⟩
    show (results.any fun r => !r.Passed) = true
    rw [List.any_eq_true]
    exact ⟨unknownKindResult test, hin, rfl⟩

/-- Witness of C16: the assertion of kind `bogus` in the run of the fixture with three
assertions. -/
theorem executeTest_unknown_kind_witness :
    ∃ (out : Outcome (Except String TestResult)) (report : TestResult),
      fixtureAssertingExecutor.Execute fixtureWorld [] = some out
      ∧ out.ret = .ok report
      ∧ report.HasFailure = true
      ∧ report.TestResults.length = 3
      ∧ ∃ r ∈ report.TestResults, r.Passed = false ∧ r.Error = "未知的测试类型: bogus" := by
  obtain ⟨so, h1, h2⟩ := fixtureAsserting_setup
  exact (executeTest_unknown_kind fixtureWorld fixtureAssertingExecutor
    ⟨"bogus", 5, Float64.ofRatio 1 10⟩ (by decide) (by decide) (by decide)).2 [] so h1 h2
    (by decide)

end testcases

/-! ## The drop of the table over a whole run -/

namespace testcases

theorem filter_isCleanup_registration (rest : List Call)
    (h : ∀ c ∈ rest, c.isRegistration = true) : rest.filter Call.isCleanup = [] := by
  rw [List.filter_eq_nil_iff]
  intro c hc
  have := h c hc
  cases c <;> simp [Call.isRegistration, Call.isCleanup] at this ⊢

theorem filter_isCleanup_queries (tableName : String) (new : List Call)
    (h : ∀ c ∈ new, c = Call.GetRowCount tableName ∨ c = Call.ValidateWriteResult tableName) :
    new.filter Call.isCleanup = [] := by
  rw [List.filter_eq_nil_iff]
  intro c hc
  rcases h c hc with rfl | rfl <;> simp [Call.isCleanup]

theorem afterSchema_tableExists_fails (w : World) (te : TestExecutor)
    (strategy : strategies.DatabaseStrategy) (log1 : List Call)
    (schema : generators.SchemaDefinition) (err : String)
    (hte : strategy.TableExists log1 te.tableName = .error err) :
    (setup.afterSchema w te strategy log1 schema).log
      = log1 ++ [Call.TableExists te.tableName] := by
  unfold setup.afterSchema
  simp only [hte]

theorem afterSchema_rowCount_fails (w : World) (te : TestExecutor)
    (strategy : strategies.DatabaseStrategy) (log1 : List Call)
    (schema : generators.SchemaDefinition) (err : String)
    (hte : strategy.TableExists log1 te.tableName = .ok true)
    (hrow : strategy.GetRowCount (log1 ++ [Call.TableExists te.tableName]) te.tableName
      = .error err) :
    (setup.afterSchema w te strategy log1 schema).log
      = log1 ++ [Call.TableExists te.tableName, Call.GetRowCount te.tableName] := by
  have hr : setup.reconcile te strategy (log1 ++ [Call.TableExists te.tableName]) true
      = (log1 ++ [Call.TableExists te.tableName] ++ [Call.GetRowCount te.tableName],
          .error ("查询表行数失败: " ++ err)) := by
    simp [setup.reconcile, hrow]
  unfold setup.afterSchema
  simp only [hte, hr]
  simp

/-- The drops `setup` makes: none, or exactly one, of the resolved table, and then the
table exists with a row count that fails the tolerance check. -/
theorem setup_cleanup_calls (w : World) (te : TestExecutor) (log : List Call)
    (strategy : strategies.DatabaseStrategy) (hs : te.strategy = some strategy) :
    ∃ (so : Outcome (Option String)) (new : List Call),
      te.setup w log = some so
      ∧ so.log = log ++ new
      ∧ (new.filter Call.isCleanup = []
        ∨ (new.filter Call.isCleanup = [Call.Cleanup (resolvedTableName te)]
            ∧ strategy.Connect log = none
            ∧ strategy.TableExists (log ++ [Call.Connect]) (resolvedTableName te) = .ok true
            ∧ ∃ a, strategy.GetRowCount
                (log ++ [Call.Connect, Call.TableExists (resolvedTableName te)])
                (resolvedTableName te) = .ok a
              ∧ setup.withinTolerance a te.template.Data.RowCount = false)) := by
  cases hc : strategy.Connect log with
  | some err =>
    refine ⟨⟨te, log ++ [Call.Connect], some ("连接数据库失败: " ++ err)⟩, [Call.Connect], ?_, rfl,
      Or.inl (by simp [Call.isCleanup])⟩
    unfold TestExecutor.setup
    simp only [hs, hc]
  | none =>
    obtain ⟨schema, -, -, h3⟩ := setup_eq_afterSchema w te log strategy hs hc
    have ht := resolveNames_tableName te
    have hn := resolveNames_template te
    cases hte : strategy.TableExists (log ++ [Call.Connect]) (resolvedTableName te) with
    | error err =>
      have h4 := afterSchema_tableExists_fails w (setup.resolveNames te) strategy
        (log ++ [Call.Connect]) schema err (by rw [ht]; exact hte)
      exact ⟨_, [Call.Connect, Call.TableExists (setup.resolveNames te).tableName], h3,
        by rw [h4]; simp, Or.inl (by simp [Call.isCleanup])⟩
    | ok b =>
      cases b with
      | false =>
        obtain ⟨rest, h4, h5⟩ := afterSchema_absent w (setup.resolveNames te) strategy
          (log ++ [Call.Connect]) schema (by rw [ht]; exact hte)
        refine ⟨_, [Call.Connect, Call.TableExists (setup.resolveNames te).tableName,
          Call.GenerateAndInsert schema] ++ rest, h3, by rw [h4]; simp, Or.inl ?_⟩
        rw [List.filter_append, filter_isCleanup_registration rest h5]
        simp [Call.isCleanup]
      | true =>
        have hte2 : strategy.TableExists (log ++ [Call.Connect])
            (setup.resolveNames te).tableName = .ok true := by rw [ht]; exact hte
        cases hrow : strategy.GetRowCount
            (log ++ [Call.Connect, Call.TableExists (resolvedTableName te)])
            (resolvedTableName te) with
        | error err =>
          have h4 := afterSchema_rowCount_fails w (setup.resolveNames te) strategy
            (log ++ [Call.Connect]) schema err hte2 (by rw [ht]; simpa using hrow)
          exact ⟨_, [Call.Connect, Call.TableExists (setup.resolveNames te).tableName,
            Call.GetRowCount (setup.resolveNames te).tableName], h3,
            by rw [h4]; simp, Or.inl (by simp [Call.isCleanup])⟩
        | ok a =>
          have hrow2 : strategy.GetRowCount
              (log ++ [Call.Connect] ++ [Call.TableExists (setup.resolveNames te).tableName])
              (setup.resolveNames te).tableName = .ok a := by
            rw [ht]; simpa using hrow
          cases hin : setup.withinTolerance a te.template.Data.RowCount with
          | true =>
            obtain ⟨rest, h4, h5⟩ := afterSchema_keep w (setup.resolveNames te) strategy
              (log ++ [Call.Connect]) schema a hte2 hrow2 (by rw [hn]; exact hin)
            refine ⟨_, [Call.Connect, Call.TableExists (setup.resolveNames te).tableName,
              Call.GetRowCount (setup.resolveNames te).tableName] ++ rest, h3,
              by rw [h4]; simp, Or.inl ?_⟩
            rw [List.filter_append, filter_isCleanup_registration rest h5]
            simp [Call.isCleanup]
          | false =>
            have hout2 : setup.withinTolerance a
                (setup.resolveNames te).template.Data.RowCount = false := by rw [hn]; exact hin
            cases hcl : strategy.Cleanup
                (log ++ [Call.Connect, Call.TableExists (resolvedTableName te),
                  Call.GetRowCount (resolvedTableName te)]) (resolvedTableName te) with
            | some err =>
              obtain ⟨h4, -⟩ := afterSchema_drop_fails w (setup.resolveNames te) strategy
                (log ++ [Call.Connect]) schema a err hte2 hrow2 hout2
                (by rw [ht]; simpa using hcl)
              refine ⟨_, [Call.Connect, Call.TableExists (setup.resolveNames te).tableName,
                Call.GetRowCount (setup.resolveNames te).tableName,
                Call.Cleanup (setup.resolveNames te).tableName], h3, by rw [h4]; simp,
                Or.inr ⟨?_, rfl, rfl, a, rfl, hin⟩⟩
              rw [ht]
              simp [Call.isCleanup]
            | none =>
              obtain ⟨rest, h4, h5⟩ := afterSchema_regenerate w (setup.resolveNames te)
                strategy (log ++ [Call.Connect]) schema a hte2 hrow2 hout2
                (by rw [ht]; simpa using hcl)
              refine ⟨_, [Call.Connect, Call.TableExists (setup.resolveNames te).tableName,
                Call.GetRowCount (setup.resolveNames te).tableName,
                Call.Cleanup (setup.resolveNames te).tableName,
                Call.GenerateAndInsert schema] ++ rest, h3, by rw [h4]; simp,
                Or.inr ⟨?_, rfl, rfl, a, rfl, hin⟩⟩
              rw [List.filter_append, filter_isCleanup_registration rest h5, ht]
              simp [Call.isCleanup]

/-- C11, the claim as stated fails: a run-scoped template, the connection is up, the
table is absent and the data generator fails; `Execute` returns the error after the three
calls of `setup` and never drops the table. -/
theorem Execute_no_cleanup_after_failed_generation :
    ((fixtureExecutor "" "" false 1000 (fixtureStrategy false 0)).Execute
        fixtureWorldGeneratorFails []).map
      (fun o => (o.log, match o.ret with
        | .ok _ => ""
        | .error err => err))
      = some ([Call.Connect, Call.TableExists "ns_test_table",
          Call.GenerateAndInsert ⟨"ns_test_table", [⟨"id", "BIGINT", 0, false⟩], 1000⟩],
          "准备阶段失败: 生成数据失败: insert failed") := by
  decide

/-- C11 as amended: let the template name no table and leave keep-table off. When `setup`
returns nil, `Execute` returns a report and its last call is the drop of the resolved
table, `GenerateTableName(namespace, "test_table")`, after the calls of `setup` and the
queries of the assertions, whatever the assertions answer. When `setup` returns an error,
`Execute` returns an error with the calls of `setup` and no other: the deferred cleanup
is not registered yet. -/
theorem Execute_cleanup_after_setup (w : World) (te : TestExecutor) (log : List Call)
    (so : Outcome (Option String)) (hsetup : te.setup w log = some so)
    (htable : te.template.Schema.TableName = "")
    (hkeep : te.template.Data.KeepTable = false) :
    (so.ret = none →
      ∃ (out : Outcome (Except String TestResult)) (report : TestResult)
        (queries : List Call),
        te.Execute w log = some out
        ∧ out.ret = .ok report
        ∧ out.log = so.log ++ queries
            ++ [Call.Cleanup (te.namespaceMgr.GenerateTableName te.namespace_ "test_table")]
        ∧ queries.filter Call.isCleanup = [])
    ∧ (∀ err, so.ret = some err →
      ∃ (out : Outcome (Except String TestResult)) (msg : String),
        te.Execute w log = some out ∧ out.ret = .error msg ∧ out.log = so.log) := by
  obtain ⟨strategy, hs⟩ := setup_some_strategy w te log so hsetup
  obtain ⟨so2, f1, f2, f3, f4⟩ := setup_frame w te log strategy hs
  rw [hsetup] at f1
  cases f1
  constructor
  · intro hok
    have hs2 : so.te.strategy = some strategy := by rw [f2, hs]
    obtain ⟨new, results, i1, -, i3⟩ := inOrder_spec w so.te strategy hs2
      so.te.template.Tests so.log
    have hE := (Execute_of_setup w te log so hsetup).2 hok
    rw [i1] at hE
    refine ⟨_, _, new, hE, rfl, ?_, filter_isCleanup_queries _ new i3⟩
    show so.te.cleanup (so.log ++ new) = _
    unfold TestExecutor.cleanup
    rw [f3]
    simp only [htable, hkeep, hs2]
    rw [f4 hok]
    unfold resolvedTableName
    rw [if_pos htable]
    simp
  · intro err herr
    exact ⟨_, _, (Execute_of_setup w te log so hsetup).1 err herr, rfl, rfl⟩

/-- Witness of the amended C11: the run of the run-scoped fixture with three assertions
ends with the drop of `ns_test_table`. -/
theorem Execute_cleanup_after_setup_witness :
    ∃ (so : Outcome (Option String)) (out : Outcome (Except String TestResult))
      (report : TestResult) (queries : List Call),
      fixtureAssertingExecutor.setup fixtureWorld [] = some so
      ∧ fixtureAssertingExecutor.Execute fixtureWorld [] = some out
      ∧ out.ret = .ok report
      ∧ out.log = so.log ++ queries ++ [Call.Cleanup "ns_test_table"] := by
  obtain ⟨so, h1, h2⟩ := fixtureAsserting_setup
  obtain ⟨out, report, queries, a1, a2, a3, -⟩ :=
    (Execute_cleanup_after_setup fixtureWorld fixtureAssertingExecutor [] so h1 rfl rfl).1 h2
  exact ⟨so, out, report, queries, h1, a1, a2, a3⟩

/-- C18, the claim as stated fails: the template names the table `orders` and sets
keep-table; the table exists with 500 rows for 1000 expected, and `setup` drops it
before regenerating. -/
theorem Execute_drops_named_table_on_mismatch :
    ((fixtureExecutor "orders" "" true 1000 (fixtureStrategy true 500)).Execute
        fixtureWorld []).map (fun o => o.log)
      = some [Call.Connect, Call.TableExists "orders", Call.GetRowCount "orders",
          Call.Cleanup "orders",
          Call.GenerateAndInsert ⟨"orders", [⟨"id", "BIGINT", 0, false⟩], 1000⟩,
          Call.CreateDataSource
            ⟨"test_datasource_ns", "127.0.0.1", 3306, 1, "root", "secret", "testdb"⟩,
          Call.CreateAsset ⟨"demo", "ns_demo", 1000, "testdb", "orders"⟩] := by
  decide

/-- C18 as amended: let the template name a table or set keep-table. `Execute` returns,
and in the whole run the table is dropped at most once, by the reconciliation of `setup`
and only when the table exists with a row count that fails the tolerance check; neither
the assertions nor `cleanup` drop it. So a run on an absent table, or on a table whose
row count passes the check, makes no `Cleanup` call at all. -/
theorem Execute_preserves_named_table (w : World) (te : TestExecutor) (log : List Call)
    (strategy : strategies.DatabaseStrategy) (hs : te.strategy = some strategy)
    (hnamed : te.template.Schema.TableName ≠ "" ∨ te.template.Data.KeepTable = true) :
    ∃ (out : Outcome (Except String TestResult)) (new : List Call),
      te.Execute w log = some out
      ∧ out.log = log ++ new
      ∧ (new.filter Call.isCleanup = []
        ∨ (new.filter Call.isCleanup = [Call.Cleanup (resolvedTableName te)]
            ∧ strategy.Connect log = none
            ∧ strategy.TableExists (log ++ [Call.Connect]) (resolvedTableName te) = .ok true
            ∧ ∃ a, strategy.GetRowCount
                (log ++ [Call.Connect, Call.TableExists (resolvedTableName te)])
                (resolvedTableName te) = .ok a
              ∧ setup.withinTolerance a te.template.Data.RowCount = false))
      ∧ (strategy.TableExists (log ++ [Call.Connect]) (resolvedTableName te) = .ok false →
          new.filter Call.isCleanup = [])
      ∧ (∀ a, strategy.GetRowCount
            (log ++ [Call.Connect, Call.TableExists (resolvedTableName te)])
            (resolvedTableName te) = .ok a →
          setup.withinTolerance a te.template.Data.RowCount = true →
          new.filter Call.isCleanup = []) := by
  have key : ∃ (out : Outcome (Except String TestResult)) (new : List Call),
      te.Execute w log = some out
      ∧ out.log = log ++ new
      ∧ (new.filter Call.isCleanup = []
        ∨ (new.filter Call.isCleanup = [Call.Cleanup (resolvedTableName te)]
            ∧ strategy.Connect log = none
            ∧ strategy.TableExists (log ++ [Call.Connect]) (resolvedTableName te) = .ok true
            ∧ ∃ a, strategy.GetRowCount
                (log ++ [Call.Connect, Call.TableExists (resolvedTableName te)])
                (resolvedTableName te) = .ok a
              ∧ setup.withinTolerance a te.template.Data.RowCount = false)) := by
    obtain ⟨so, new, h1, h2, h3⟩ := setup_cleanup_calls w te log strategy hs
    obtain ⟨so2, f1, f2, f3, -⟩ := setup_frame w te log strategy hs
    rw [h1] at f1
    cases f1
    cases hret : so.ret with
    | some err =>
      exact ⟨_, new, (Execute_of_setup w te log so h1).1 err hret, h2, h3⟩
    | none =>
      have hs2 : so.te.strategy = some strategy := by rw [f2, hs]
      obtain ⟨new2, results, i1, -, i3⟩ := inOrder_spec w so.te strategy hs2
        so.te.template.Tests so.log
      have hE := (Execute_of_setup w te log so h1).2 hret
      rw [i1] at hE
      have hcl : so.te.cleanup (so.log ++ new2) = so.log ++ new2 := by
        unfold TestExecutor.cleanup
        rw [f3]
        rcases hnamed with h | h
        · simp [h]
        · simp [h]
      refine ⟨_, new ++ new2, hE, ?_, ?_⟩
      · show so.te.cleanup (so.log ++ new2) = _
        rw [hcl, h2, List.append_assoc]
      · rw [List.filter_append, filter_isCleanup_queries _ new2 i3, List.append_nil]
        exact h3
  obtain ⟨out, new, h1, h2, h3⟩ := key
  refine ⟨out, new, h1, h2, h3, ?_, ?_⟩
  · intro hte
    rcases h3 with h | ⟨-, -, hte2, -⟩
    · exact h
    · rw [hte] at hte2
      cases hte2
  · intro a hrow hin
    rcases h3 with h | ⟨-, -, -, a2, hrow2, hout⟩
    · exact h
    · rw [hrow] at hrow2
      cases hrow2
      rw [hin] at hout
      cases hout

/-- Witness of the amended C18: the named table `orders` exists with the 1000 rows of
the template; the whole run makes no `Cleanup` call. -/
theorem Execute_preserves_named_table_witness :
    ∃ (out : Outcome (Except String TestResult)) (new : List Call),
      (fixtureExecutor "orders" "" true 1000 (fixtureStrategy true 1000)).Execute fixtureWorld []
        = some out
      ∧ out.log = new
      ∧ new.filter Call.isCleanup = [] := by
  obtain ⟨out, new, h1, h2, -, -, h5⟩ := Execute_preserves_named_table fixtureWorld
    (fixtureExecutor "orders" "" true 1000 (fixtureStrategy true 1000)) []
    (fixtureStrategy true 1000) rfl (Or.inl (by decide))
  exact ⟨out, new, h1, by rw [h2, List.nil_append], h5 1000 rfl (by decide)⟩

end testcases

/-! ## Declared lengths and dialect vocabularies -/

namespace generators

/-- C17, the code at the failing input: MySQL, no hints, no cap, and the draw for `col_1`
selects the pool element `CHAR(100)`; the field is emitted with `MaxSize` 255, above its
declared length 100. -/
theorem GenerateSchema_char_size_exceeds_declared :
    GenerateSchema Strings.ascii ⟨fun _ => 10, fun _ => false⟩ ⟨"mysql"⟩ "t" 2 10 [] 0
      = some ⟨"t", [⟨"id", "BIGINT", 0, false⟩, ⟨"col_1", "CHAR(100)", 255, false⟩], 10⟩
    ∧ getMaxSizeForType ⟨"mysql"⟩ "CHAR(100)" = 255
    ∧ "CHAR(100)" ∈ getFieldTypePool ⟨"mysql"⟩ := by
  decide

/-- The `VARCHAR` types of the pools and lookup tables: the field emitted for one of
them carries the drawn type with its parsed length, or, under a cap below that length,
the type `VARCHAR(<cap>)` with `MaxSize` equal to the cap. -/
theorem field_varchar_size (m : DatabaseTypeMapper) (maxFieldSize : Int) (i : Nat)
    (t : String) (b : Bool) (n : Int)
    (ht : (t, n) ∈ [("VARCHAR(255)", (255 : Int)), ("VARCHAR(512)", 512),
      ("VARCHAR(1024)", 1024)]) :
    ((generateFields.field m maxFieldSize i t b).SQLType = t
      ∧ (generateFields.field m maxFieldSize i t b).MaxSize = n)
    ∨ (0 < maxFieldSize ∧ maxFieldSize < n
      ∧ (generateFields.field m maxFieldSize i t b).SQLType
          = "VARCHAR(" ++ fmt.formatInt maxFieldSize ++ ")"
      ∧ (generateFields.field m maxFieldSize i t b).MaxSize = maxFieldSize) := by
  have hsize : getMaxSizeForType m t = n ∧ strings.Contains t "VARCHAR" = true := by
    rw [getMaxSizeForType_mapper m ⟨""⟩]
    simp only [List.mem_cons, Prod.mk.injEq, List.mem_singleton, List.not_mem_nil,
      or_false] at ht
    rcases ht with ⟨rfl, rfl⟩ | ⟨rfl, rfl⟩ | ⟨rfl, rfl⟩ <;> decide
  unfold generateFields.field
  dsimp only
  rw [hsize.1, hsize.2]
  split_ifs with hc hv
  · exact Or.inr ⟨hc.1, hc.2, rfl, rfl⟩
  · exact absurd rfl hv
  · exact Or.inl ⟨rfl, rfl⟩

theorem lookup_mem_values {l : List (String × String)} {k v : String}
    (h : l.lookup k = some v) : v ∈ l.map Prod.snd := by
  induction l with
  | nil => simp [List.lookup] at h
  | cons p l ih =>
    obtain ⟨a, b⟩ := p
    rw [List.lookup] at h
    cases hk : (k == a) with
    | true =>
      rw [hk] at h
      simp only [Option.some.injEq] at h
      subst h
      simp
    | false =>
      rw [hk] at h
      simp only [List.map_cons, List.mem_cons]
      exact Or.inr (ih h)

/-- C19, the code at the failing input: for the dialect `kingbase` the hint `datetime`
is no key of the lookup table and the fallback maps it to `DATETIME`, which is neither in
the random pool nor among the table values of `kingbase`; likewise `decimal18` on
`vastbase` gives `DECIMAL(10,2)`. -/
theorem mapTemplateTypesToSQLTypes_foreign_type :
    mapTemplateTypesToSQLTypes Strings.ascii ⟨"kingbase"⟩ ["datetime"] = ["DATETIME"]
    ∧ "DATETIME" ∉ getFieldTypePool ⟨"kingbase"⟩
    ∧ "DATETIME" ∉ (getTemplateTypeMap ⟨"kingbase"⟩).map Prod.snd
    ∧ mapTemplateTypesToSQLTypes Strings.ascii ⟨"vastbase"⟩ ["decimal18"] = ["DECIMAL(10,2)"]
    ∧ "DECIMAL(10,2)" ∉ getFieldTypePool ⟨"vastbase"⟩
    ∧ "DECIMAL(10,2)" ∉ (getTemplateTypeMap ⟨"vastbase"⟩).map Prod.snd := by
  decide

/-- For the dialects `mysql` and `gbase` every hint is mapped into the vocabulary of
the dialect: the five types of the fallback are all in their random pools. -/
theorem mapTemplateTypesToSQLTypes_in_vocabulary (S : Strings) (m : DatabaseTypeMapper)
    (hm : m.dbType = "mysql" ∨ m.dbType = "gbase") (hints : List String) :
    ∀ t ∈ mapTemplateTypesToSQLTypes S m hints,
      t ∈ getFieldTypePool m ∨ t ∈ (getTemplateTypeMap m).map Prod.snd := by
  intro t ht
  rw [mapTemplateTypesToSQLTypes_eq_map] at ht
  obtain ⟨h, -, rfl⟩ := List.mem_map.mp ht
  unfold mapTemplateTypesToSQLTypes.step
  dsimp only
  split
  · rename_i v hv
    exact Or.inr (lookup_mem_values hv)
  · left
    have hdef : getDefaultTypeForTemplateType m (S.ToLower (S.TrimSpace h))
        ∈ ["BIGINT", "VARCHAR(255)", "TEXT", "DECIMAL(10,2)", "DATETIME"] := by
      unfold getDefaultTypeForTemplateType
      rw [getIntType_eq]
      split_ifs <;> simp
    have hpool : ∀ x ∈ ["BIGINT", "VARCHAR(255)", "TEXT", "DECIMAL(10,2)", "DATETIME"],
        x ∈ getFieldTypePool m := by
      obtain ⟨d⟩ := m
      rcases hm with hm | hm <;> (simp only at hm; subst hm; decide)
    exact hpool _ hdef

end generators
